import Mathlib

/-!
# Orbiter Lua interpreter

A shallow embedding of parts of
`Src/Module/LuaScript/LuaInterpreter/Interpreter.cpp`: the vertex and index
buffer arrays, the argument validator and the value codec, the registry of
wrapped objects, and the execution coordinator.

* C `int` values are integers (`Int`); an `int` expression is taken at its
  mathematical value (signed overflow, which C++ leaves undefined, does not
  arise for counts of records that fit in memory and is not modelled).
* The `float` components of a vertex record and Lua numbers are carried but
  never computed on; they are represented by integers. The narrowing of a Lua
  number to `float` on a store and the truncation of a Lua number by
  `lua_tointeger` are floating-point matters and are not modelled.
* Native storage is a list of blocks.  A pointer is a block number and an
  offset in records.  An access outside a live block, an overlapping or
  negative-length `memcpy`, a negative-length `new[]` and an invalid
  `delete[]` have no defined result: the operation ends in `Outcome.fault`.
* `luaL_error` and the `luaL_check...` failures end the call in
  `Outcome.error`, which carries the state reached when the error was raised.
* Script tables are association lists without metatables. The text of a type
  error is taken to fit the buffer `cbuf[1024]` of `AssertPrmType` and to hold
  no `%` (the buffer is handed to `luaL_error` as the format).
* The script runtime itself (`luaL_loadbuffer`, `lua_pcall`) and the vessel
  callback of `lua_pushvessel` are parameters of the functions that call them.
  The calls on the two mutexes are recorded in call order.
* The two mutexes are Win32 mutexes with an owner and a count: a wait acquires
  a mutex that is free or owned by the caller, and otherwise blocks or, with a
  timeout other than `INFINITE`, returns without it; a release by a thread
  that is not the owner does nothing. An interleaving of the host thread and
  the script thread is a list of steps, each one call of one thread.
-/

namespace Interpreter

/-! ## Native storage -/

/-- A native vertex record (`NTVERTEX`): position, normal, texture coordinates. -/
structure NTVERTEX where
  x : Int
  y : Int
  z : Int
  nx : Int
  ny : Int
  nz : Int
  tu : Int
  tv : Int
deriving DecidableEq, Repr

/-- A 16-bit index (`WORD`); every stored value is reduced modulo `2^16`. -/
abbrev WORD := Nat

/-- Conversion of a C `int` to `WORD`. -/
def toWORD (i : Int) : WORD := (i % 65536).toNat

/-- A non-null native pointer: a storage block and an offset counted in records. -/
structure Ptr where
  block : Nat
  off : Int
deriving DecidableEq, Repr

/-- Pointer arithmetic `p + k`; the null pointer is `none`. -/
def ptrAdd (p : Option Ptr) (k : Int) : Option Ptr :=
  p.map fun q => { q with off := q.off + k }

/-- Native storage of records of type `α`: block `b` is `some (some cells)` while
allocated and `some none` once freed. -/
abbrev Mem (α : Type) := List (Option (List α))

/-- The cells of block `b`, when it is allocated. -/
def cells {α : Type} (m : Mem α) (b : Nat) : Option (List α) :=
  match m[b]? with
  | some (some cs) => some cs
  | _ => none

/-- Reads `n` consecutive records starting at `p`. A read of no record touches
no storage; any other read needs `n > 0` and a range inside a live block. -/
def readMem {α : Type} (m : Mem α) (p : Option Ptr) (n : Int) : Option (List α) :=
  if n = 0 then some []
  else
    match p with
    | none => none
    | some q =>
      match cells m q.block with
      | none => none
      | some cs =>
        if 0 ≤ q.off ∧ 0 < n ∧ q.off + n ≤ cs.length then
          some ((cs.drop q.off.toNat).take n.toNat)
        else none

/-- Writes the records `vs` consecutively starting at `p`. -/
def writeMem {α : Type} (m : Mem α) (p : Option Ptr) (vs : List α) : Option (Mem α) :=
  match vs with
  | [] => some m
  | _ :: _ =>
    match p with
    | none => none
    | some q =>
      match cells m q.block with
      | none => none
      | some cs =>
        if 0 ≤ q.off ∧ q.off + vs.length ≤ cs.length then
          some (m.set q.block
            (some (cs.take q.off.toNat ++ vs ++ cs.drop (q.off.toNat + vs.length))))
        else none

/-- The two ranges of `n` records starting at `d` and at `s` share a record. -/
def overlap (d s : Option Ptr) (n : Int) : Bool :=
  match d, s with
  | some p, some q =>
    decide (p.block = q.block ∧ 0 < n ∧ p.off < q.off + n ∧ q.off < p.off + n)
  | _, _ => false

/-- The C `memcpy(d, s, n * sizeof(record))`. -/
def memcpy {α : Type} (m : Mem α) (d s : Option Ptr) (n : Int) : Option (Mem α) :=
  if overlap d s n then none
  else
    match readMem m s n with
    | none => none
    | some vs => writeMem m d vs

/-- The C++ `new T[n]`: a fresh block of `n` records of indeterminate content
`junk`; a negative `n` throws. -/
def newArray {α : Type} (m : Mem α) (n : Int) (junk : α) : Option (Mem α × Ptr) :=
  if n < 0 then none
  else some (m ++ [some (List.replicate n.toNat junk)], { block := m.length, off := 0 })

/-- The C++ `delete[] p`: nothing for the null pointer, otherwise `p` must be the
start of a live block, which becomes freed. -/
def deleteArray {α : Type} (m : Mem α) (p : Option Ptr) : Option (Mem α) :=
  match p with
  | none => some m
  | some q =>
    match cells m q.block with
    | none => none
    | some _ => if q.off = 0 then some (m.set q.block none) else none

/-! ## Userdata and script values -/

/-- The `ntv_data` userdata of a vertex array. -/
structure ntv_data where
  vtx : Option Ptr
  nVtx : Int
  nVtxUsed : Int
  owning : Bool
deriving DecidableEq, Repr

/-- The `index_data` userdata of an index array. -/
structure index_data where
  idx : Option Ptr
  nIdx : Int
  nIdxUsed : Int
  owning : Bool
deriving DecidableEq, Repr

/-- A table key: the integer and the string keys are the ones the bindings use. -/
inductive LuaKey where
  | int (i : Int)
  | str (s : String)
deriving DecidableEq, Repr

/-- A script value. Full userdata is named by its metatable: `ntv` (`NTV.vtable`),
`index` (`Index.vtable`), `ntvproxy` (`NTVPROXY.vtable`, holding an `NTVERTEX*`). -/
inductive LuaValue where
  | nil
  | boolean (b : Bool)
  | number (n : Int)
  | string (s : String)
  | lightuserdata (p : Nat)
  | table (fields : List (LuaKey × LuaValue))
  | cfunction (name : String)
  | ntv (id : Nat)
  | index (id : Nat)
  | ntvproxy (p : Option Ptr)
  | userdata (tname : String) (id : Nat)
deriving Repr

/-- The script context as far as buffer arrays go: native vertex and index
storage, the userdata of every array created so far, and the indeterminate
content that `new[]` hands out. -/
structure State where
  vmem : Mem NTVERTEX
  imem : Mem WORD
  ntv : List ntv_data
  idx : List index_data
  vjunk : NTVERTEX
  ijunk : WORD
deriving DecidableEq, Repr

/-- How a bound function ends: it returns values, raises a script error, or
runs into behaviour C++ leaves undefined. -/
inductive Outcome where
  | ok (st : State) (ret : List LuaValue)
  | error (msg : String) (st : State)
  | fault
deriving Repr

/-! ## The script runtime API used by the bindings -/

/-- The value at the 1-based stack index `i`; an index above the top reads as `nil`. -/
def lua_index (L : List LuaValue) (i : Nat) : LuaValue :=
  match i with
  | 0 => .nil
  | j + 1 => L.getD j .nil

/-- The number of arguments on the stack (`lua_gettop`). -/
def lua_gettop (L : List LuaValue) : Int := L.length

/-- Conversion of a value to a number: numbers, and strings that spell one
(here: the integer literals). -/
def tonumber (v : LuaValue) : Option Int :=
  match v with
  | .number n => some n
  | .string s => s.toInt?
  | _ => none

/-- The C `lua_isnumber`. -/
def lua_isnumber (v : LuaValue) : Bool := (tonumber v).isSome

/-- The C `lua_tointeger`: 0 for a value that is not a number. -/
def lua_tointeger (v : LuaValue) : Int := (tonumber v).getD 0

/-- The C `lua_istable`. -/
def lua_istable (v : LuaValue) : Bool :=
  match v with
  | .table _ => true
  | _ => false

/-- The C `lua_isnil`. -/
def lua_isnil (v : LuaValue) : Bool :=
  match v with
  | .nil => true
  | _ => false

/-- Raw table lookup. -/
def rawget (fields : List (LuaKey × LuaValue)) (k : LuaKey) : LuaValue :=
  match fields.find? (fun e => decide (e.1 = k)) with
  | some e => e.2
  | none => .nil

/-- The length of a table (`lua_objlen`): the first border, the number of
consecutive keys 1, 2, ... that hold a value. -/
def lua_objlen (fields : List (LuaKey × LuaValue)) : Int :=
  (((List.range fields.length).takeWhile
    (fun i => !(lua_isnil (rawget fields (.int (i + 1)))))).length : Nat)

/-- The entries a `lua_next` traversal visits, in visiting order. -/
def lua_entries (fields : List (LuaKey × LuaValue)) : List (LuaKey × LuaValue) :=
  fields.filter (fun e => !(lua_isnil e.2))

/-- The C `lua_rawgeti(L, j, n)`: the value pushed, or `none` when the value at
stack index `j` is not a table. -/
def lua_rawgeti (stack : List LuaValue) (j : Nat) (n : Int) : Option LuaValue :=
  match lua_index stack j with
  | .table fields => some (rawget fields (.int n))
  | _ => none

/-- The C `luaL_checkudata(L, narg, "NTV.vtable")`. -/
def check_ntv (st : State) (L : List LuaValue) (narg : Nat) : Option (Nat × ntv_data) :=
  match lua_index L narg with
  | .ntv id => (st.ntv[id]?).map (fun d => (id, d))
  | _ => none

/-- The C `luaL_checkudata(L, narg, "Index.vtable")`. -/
def check_index (st : State) (L : List LuaValue) (narg : Nat) : Option (Nat × index_data) :=
  match lua_index L narg with
  | .index id => (st.idx[id]?).map (fun d => (id, d))
  | _ => none

/-- The message of a failed `luaL_checkudata`, `luaL_check...` or `luaL_argcheck`. -/
def badArgument (narg : Nat) (extra : String) : String :=
  "bad argument #" ++ toString narg ++ " (" ++ extra ++ ")"

/-- The C `lua_pushvector`. -/
def lua_pushvector (x y z : Int) : LuaValue :=
  .table [(.str "x", .number x), (.str "y", .number y), (.str "z", .number z)]

/-! ## Vertex records seen from scripts -/

/-- The eight components of a vertex record. -/
inductive Field where
  | x | y | z | nx | ny | nz | tu | tv
deriving DecidableEq, Repr

/-- The script name of a component. -/
def Field.name : Field → String
  | .x => "x" | .y => "y" | .z => "z"
  | .nx => "nx" | .ny => "ny" | .nz => "nz"
  | .tu => "tu" | .tv => "tv"

/-- The C `vtx->f`. -/
def NTVERTEX.get (r : NTVERTEX) : Field → Int
  | .x => r.x | .y => r.y | .z => r.z
  | .nx => r.nx | .ny => r.ny | .nz => r.nz
  | .tu => r.tu | .tv => r.tv

/-- The record after `vtx->f = v`. -/
def NTVERTEX.set (r : NTVERTEX) (f : Field) (v : Int) : NTVERTEX :=
  match f with
  | .x => { r with x := v } | .y => { r with y := v } | .z => { r with z := v }
  | .nx => { r with nx := v } | .ny => { r with ny := v } | .nz => { r with nz := v }
  | .tu => { r with tu := v } | .tv => { r with tv := v }

/-- The record whose bytes are all zero. -/
def NTVERTEX.zero : NTVERTEX :=
  { x := 0, y := 0, z := 0, nx := 0, ny := 0, nz := 0, tu := 0, tv := 0 }

/-- Reads the record `*p`. -/
def peek (m : Mem NTVERTEX) (p : Option Ptr) : Option NTVERTEX :=
  match readMem m p 1 with
  | some [r] => some r
  | _ => none

/-- Stores `p->f = v`. -/
def pokeField (m : Mem NTVERTEX) (p : Option Ptr) (f : Field) (v : Int) :
    Option (Mem NTVERTEX) :=
  match peek m p with
  | some r => writeMem m p [r.set f v]
  | none => none

/-- What a helper that computes a value gives: the value, a script error, or
undefined behaviour. -/
inductive Res (α : Type) where
  | val (v : α)
  | err (msg : String)
  | fault
deriving Repr

/-- The body of `Interpreter::ntvproxy_get` for the proxy pointer `p`. -/
def ntvproxy_get_member (m : Mem NTVERTEX) (p : Option Ptr) (member : String) :
    Res LuaValue :=
  match peek m p with
  | none => .fault
  | some r =>
    if member = "x" then .val (.number r.x)
    else if member = "y" then .val (.number r.y)
    else if member = "z" then .val (.number r.z)
    else if member = "pos" then .val (lua_pushvector r.x r.y r.z)
    else if member = "tu" then .val (.number r.tu)
    else if member = "tv" then .val (.number r.tv)
    else if member = "nx" then .val (.number r.nx)
    else if member = "ny" then .val (.number r.ny)
    else if member = "nz" then .val (.number r.nz)
    else if member = "normal" then .val (lua_pushvector r.nx r.ny r.nz)
    else .err ("Invalid member access for vertex: " ++ member)

/-- The C `lua_getfield(L, idx, k)` on the value `v`: a table is looked up, a
vertex proxy answers through `ntvproxy_get`, and indexing any other value ends
in an error (a vertex or index array knows no method of a component name). -/
def lua_getfield (st : State) (v : LuaValue) (k : String) : Res LuaValue :=
  match v with
  | .table fields => .val (rawget fields (.str k))
  | .ntvproxy p => ntvproxy_get_member st.vmem p k
  | _ => .err ("attempt to index field " ++ k)

/-! ## Vertex arrays (`NTV.vtable`) -/

/-- The C `lua_newuserdata(L, sizeof(ntv_data))` followed by the assignments to
the fields of the new userdata; gives the state and the index of the userdata. -/
def new_ntv (st : State) (d : ntv_data) : State × Nat :=
  ({ st with ntv := st.ntv ++ [d] }, st.ntv.length)

/-- Assignment to the fields of the vertex-array userdata `id`. -/
def put_ntv (st : State) (id : Nat) (d : ntv_data) : State :=
  { st with ntv := st.ntv.set id d }

/-- The script value of a table key. -/
def LuaKey.toValue : LuaKey → LuaValue
  | .int i => .number i
  | .str s => .string s

/-- One `lua_rawgeti(L, j, idx); luaL_checknumber(L, -1); lua_pop(L, 1)` of
`lua_tontvertex`, with `idx = -1`. -/
def rawgeti_number (stack : List LuaValue) (j : Nat) : Res Int :=
  match lua_rawgeti stack j (-1) with
  | none => .fault
  | some v =>
    match tonumber v with
    | none => .err (badArgument 0 "number expected")
    | some n => .val n

/-- Sequencing of helpers. -/
def Res.bind {α β : Type} (r : Res α) (f : α → Res β) : Res β :=
  match r with
  | .val v => f v
  | .err e => .err e
  | .fault => .fault

/-- The function `lua_tontvertex(L, -1)` on the given stack: the value on top
must be a table of length 8; the eight components are then read from key `-1`
of the values at the stack indices 1 to 8. -/
def lua_tontvertex (stack : List LuaValue) : Res NTVERTEX :=
  match stack.getLast? with
  | some (.table fields) =>
    if lua_objlen fields ≠ 8 then .err "invalid argument for ntvertex creation"
    else
      (rawgeti_number stack 1).bind fun x =>
      (rawgeti_number stack 2).bind fun y =>
      (rawgeti_number stack 3).bind fun z =>
      (rawgeti_number stack 4).bind fun nx =>
      (rawgeti_number stack 5).bind fun ny =>
      (rawgeti_number stack 6).bind fun nz =>
      (rawgeti_number stack 7).bind fun tu =>
      (rawgeti_number stack 8).bind fun tv =>
      .val { x := x, y := y, z := z, nx := nx, ny := ny, nz := nz, tu := tu, tv := tv }
  | _ => .err "invalid argument for ntvertex creation"

/-- The `while (lua_next(L, 1) != 0)` loop of `oapi_create_ntvertexarray`: the
stack holds the arguments `L`, the new userdata `ud`, the key and the value. -/
def fill_ntv (L : List LuaValue) (ud : LuaValue) (p : Option Ptr) :
    List (LuaKey × LuaValue) → Int → State → Outcome
  | [], _, st => .ok st [ud]
  | (k, v) :: es, i, st =>
    match lua_tontvertex (L ++ [ud, k.toValue, v]) with
    | .err e => .error e st
    | .fault => .fault
    | .val r =>
      match writeMem st.vmem (ptrAdd p i) [r] with
      | none => .fault
      | some m => fill_ntv L ud p es (i + 1) { st with vmem := m }

/-- The function `Interpreter::oapi_create_ntvertexarray`. -/
def oapi_create_ntvertexarray (st : State) (L : List LuaValue) : Outcome :=
  let create (nVtx : Int) (entries : List (LuaKey × LuaValue)) : Outcome :=
    match newArray st.vmem nVtx st.vjunk with
    | none => .fault
    | some (m, p) =>
      let (st1, id) := new_ntv { st with vmem := m }
        { vtx := some p, nVtx := nVtx, nVtxUsed := nVtx, owning := true }
      fill_ntv L (.ntv id) (some p) entries 0 st1
  match lua_index L 1 with
  | .table fields => create (lua_objlen fields) (lua_entries fields)
  | .number n => create n []
  | _ => .error "Invalid type for create_ntvertexarray, number or table expected" st

/-- The function `Interpreter::push_ntvertexarray`: wraps host storage. -/
def push_ntvertexarray (st : State) (vtx : Option Ptr) (nVtx : Int) : State × LuaValue :=
  let (st1, id) := new_ntv st { vtx := vtx, nVtx := nVtx, nVtxUsed := nVtx, owning := false }
  (st1, .ntv id)

/-- The function `Interpreter::oapi_del_ntvertexarray`. -/
def oapi_del_ntvertexarray (st : State) (L : List LuaValue) : Outcome :=
  match check_ntv st L 1 with
  | none => .error (badArgument 1 "NTV.vtable expected") st
  | some (id, inst) =>
    if inst.owning then
      match deleteArray st.vmem inst.vtx with
      | none => .fault
      | some m =>
        .ok (put_ntv { st with vmem := m } id { inst with owning := false, vtx := none }) []
    else
      .ok (put_ntv st id { inst with vtx := none }) []

/-- The function `Interpreter::ntv_collect`, the `__gc` finaliser. -/
def ntv_collect (st : State) (L : List LuaValue) : Outcome :=
  match check_ntv st L 1 with
  | none => .error (badArgument 1 "NTV.vtable expected") st
  | some (_, inst) =>
    if inst.owning ∧ inst.vtx.isSome then
      match deleteArray st.vmem inst.vtx with
      | none => .fault
      | some m => .ok { st with vmem := m } []
    else .ok st []

/-- The function `Interpreter::ntv_size`, also the `__len` metamethod. -/
def ntv_size (st : State) (L : List LuaValue) : Outcome :=
  match check_ntv st L 1 with
  | none => .error (badArgument 1 "NTV.vtable expected") st
  | some (_, inst) => .ok st [.number inst.nVtxUsed]

/-- The table `ntv_extract` builds from the record `*vtx`. -/
def vertexTable (r : NTVERTEX) : LuaValue :=
  .table [(.str "x", .number r.x), (.str "y", .number r.y), (.str "z", .number r.z),
    (.str "nx", .number r.nx), (.str "ny", .number r.ny), (.str "nz", .number r.nz),
    (.str "tu", .number r.tu), (.str "tv", .number r.tv)]

/-- The function `Interpreter::ntv_extract`. -/
def ntv_extract (st : State) (L : List LuaValue) : Outcome :=
  match check_ntv st L 1 with
  | none => .error (badArgument 1 "NTV.vtable expected") st
  | some (_, inst) =>
    match tonumber (lua_index L 2) with
    | none => .error (badArgument 2 "number expected") st
    | some index =>
      if ¬ (1 ≤ index ∧ index ≤ inst.nVtxUsed) then
        .error (badArgument 2 "index out of range") st
      else
        match peek st.vmem (ptrAdd inst.vtx (index - 1)) with
        | none => .fault
        | some r =>
          .ok st [vertexTable r]

/-- The function `Interpreter::ntv_reset`. -/
def ntv_reset (st : State) (L : List LuaValue) : Outcome :=
  match check_ntv st L 1 with
  | none => .error (badArgument 1 "NTV.vtable expected") st
  | some (id, inst) => .ok (put_ntv st id { inst with nVtxUsed := 0 }) []

/-- The C `memset(p, 0, n * sizeof(NTVERTEX))`. -/
def memset0 (m : Mem NTVERTEX) (p : Option Ptr) (n : Int) : Option (Mem NTVERTEX) :=
  if n < 0 then none else writeMem m p (List.replicate n.toNat NTVERTEX.zero)

/-- The function `Interpreter::ntv_zeroize`. -/
def ntv_zeroize (st : State) (L : List LuaValue) : Outcome :=
  match check_ntv st L 1 with
  | none => .error (badArgument 1 "NTV.vtable expected") st
  | some (_, inst) =>
    match memset0 st.vmem inst.vtx inst.nVtx with
    | none => .fault
    | some m => .ok { st with vmem := m } []

/-- The function `Interpreter::ntv_append`. -/
def ntv_append (st : State) (L : List LuaValue) : Outcome :=
  match check_ntv st L 1 with
  | none => .error (badArgument 1 "NTV.vtable expected") st
  | some (d, dst) =>
    match check_ntv st L 2 with
    | none => .error (badArgument 2 "NTV.vtable expected") st
    | some (_, src) =>
      if dst.nVtxUsed + src.nVtxUsed > dst.nVtx then
        .error "Cannot append ntvertexarray, not enough room" st
      else
        match memcpy st.vmem (ptrAdd dst.vtx dst.nVtxUsed) src.vtx src.nVtxUsed with
        | none => .fault
        | some m =>
          .ok (put_ntv { st with vmem := m } d
            { dst with nVtxUsed := dst.nVtxUsed + src.nVtxUsed }) []

/-- The optional third argument of `ntv_write`: the 0-based offset `start`. -/
def ntv_write_start (self : ntv_data) (L : List LuaValue) : Res Int :=
  if lua_gettop L ≥ 3 then
    match tonumber (lua_index L 3) with
    | none => .err (badArgument 3 "number expected")
    | some v =>
      let start := v - 1
      if start < 0 then
        .err ("Invalid write offset (" ++ toString (start + 1) ++ ")")
      else if start > self.nVtx then
        .err ("Write out of bound (" ++ toString (start + 1) ++ "/" ++ toString self.nVtx ++ ")")
      else .val start
  else .val 0

/-- The optional fourth argument of `ntv_write`: the number of records. -/
def ntv_write_size (self frm : ntv_data) (L : List LuaValue) (start : Int) : Res Int :=
  if lua_gettop L ≥ 4 then
    match tonumber (lua_index L 4) with
    | none => .err (badArgument 4 "number expected")
    | some size =>
      if size + start > self.nVtx then
        .err ("Write out of bound (" ++ toString (start + size) ++ "/" ++
          toString self.nVtx ++ ")")
      else .val size
  else .val frm.nVtxUsed

/-- The function `Interpreter::ntv_write`. -/
def ntv_write (st : State) (L : List LuaValue) : Outcome :=
  match check_ntv st L 1 with
  | none => .error (badArgument 1 "NTV.vtable expected") st
  | some (id, self) =>
    match check_ntv st L 2 with
    | none => .error (badArgument 2 "NTV.vtable expected") st
    | some (_, frm) =>
      match ntv_write_start self L with
      | .err e => .error e st
      | .fault => .fault
      | .val start =>
        match ntv_write_size self frm L start with
        | .err e => .error e st
        | .fault => .fault
        | .val size =>
          match memcpy st.vmem (ptrAdd self.vtx start) frm.vtx size with
          | none => .fault
          | some m =>
            .ok (put_ntv { st with vmem := m } id
              { self with nVtxUsed := max self.nVtxUsed (start + size) }) []

/-- The optional second argument of `ntv_copy`: the 0-based `start` and the
size that follows from it. -/
def ntv_copy_start (frm : ntv_data) (L : List LuaValue) : Res (Int × Int) :=
  if lua_gettop L ≥ 2 then
    match tonumber (lua_index L 2) with
    | none => .err (badArgument 2 "number expected")
    | some v =>
      let start := v - 1
      if start < 0 then
        .err ("Invalid start offset (" ++ toString (start + 1) ++ ")")
      else if start > frm.nVtx then
        .err ("Start offset outside of vertex array (" ++ toString (start + 1) ++ "/" ++
          toString frm.nVtx ++ ")")
      else .val (start, frm.nVtx - start)
  else .val (0, frm.nVtx)

/-- The optional third argument of `ntv_copy`: the number of records. -/
def ntv_copy_size (frm : ntv_data) (L : List LuaValue) (start size : Int) : Res Int :=
  if lua_gettop L ≥ 3 then
    match tonumber (lua_index L 3) with
    | none => .err (badArgument 3 "number expected")
    | some sz =>
      if sz ≤ 0 then .err ("Invalid size (" ++ toString sz ++ ")")
      else if start + sz > frm.nVtx then
        .err ("Trying to copy outside of vertex array (" ++ toString (start + sz) ++ "/" ++
          toString frm.nVtx ++ ")")
      else .val sz
  else .val size

/-- The function `Interpreter::ntv_copy`. -/
def ntv_copy (st : State) (L : List LuaValue) : Outcome :=
  match check_ntv st L 1 with
  | none => .error (badArgument 1 "NTV.vtable expected") st
  | some (_, frm) =>
    match ntv_copy_start frm L with
    | .err e => .error e st
    | .fault => .fault
    | .val (start, size0) =>
      match ntv_copy_size frm L start size0 with
      | .err e => .error e st
      | .fault => .fault
      | .val size =>
        match newArray st.vmem size st.vjunk with
        | none => .fault
        | some (m, p) =>
          match memcpy m (some p) (ptrAdd frm.vtx start) size with
          | none => .fault
          | some m1 =>
            let (st1, id) := new_ntv { st with vmem := m1 }
              { vtx := some p, nVtx := size, nVtxUsed := size, owning := true }
            .ok st1 [.ntv id]

/-- The function `Interpreter::ntv_view`. -/
def ntv_view (st : State) (L : List LuaValue) : Outcome :=
  match check_ntv st L 1 with
  | none => .error (badArgument 1 "NTV.vtable expected") st
  | some (_, frm) =>
    let start := lua_tointeger (lua_index L 2) - 1
    let size := lua_tointeger (lua_index L 3)
    if size < 0 then
      .error ("Invalid view size (" ++ toString size ++ ")") st
    else
      let size := if size = 0 then frm.nVtxUsed - start else size
      if start + size > frm.nVtx then
        .error "Cannot create a view out the the array" st
      else
        let (st1, id) := new_ntv st
          { vtx := ptrAdd frm.vtx start, nVtx := size, nVtxUsed := size, owning := false }
        .ok st1 [.ntv id]

/-- The eight `lua_getfield(L, 3, f); vtx->f = luaL_checknumber(L, -1)` steps of
`ntv_set`, in the order of the source. -/
def set_fields (p : Option Ptr) (src : LuaValue) : List Field → State → Outcome
  | [], st => .ok st []
  | f :: fs, st =>
    match lua_getfield st src f.name with
    | .err e => .error e st
    | .fault => .fault
    | .val v =>
      match tonumber v with
      | none => .error (badArgument 0 "number expected") st
      | some n =>
        match pokeField st.vmem p f n with
        | none => .fault
        | some m => set_fields p src fs { st with vmem := m }

/-- The components in the order `ntv_set` assigns them. -/
def allFields : List Field := [.x, .y, .z, .nx, .ny, .nz, .tu, .tv]

/-- The function `Interpreter::ntv_set`, the `__newindex` metamethod. -/
def ntv_set (st : State) (L : List LuaValue) : Outcome :=
  match check_ntv st L 1 with
  | none => .error (badArgument 1 "NTV.vtable expected") st
  | some (_, inst) =>
    match tonumber (lua_index L 2) with
    | none => .error (badArgument 2 "number expected") st
    | some index =>
      if ¬ (1 ≤ index ∧ index ≤ inst.nVtxUsed) then
        .error (badArgument 2 "index out of range") st
      else
        set_fields (ptrAdd inst.vtx (index - 1)) (lua_index L 3) allFields st

/-- The method names `ntv_get` answers with a function. -/
def ntv_methods : List String :=
  ["zeroize", "reset", "size", "extract", "append", "copy", "view", "write"]

/-- The function `Interpreter::ntv_get`, the `__index` metamethod. -/
def ntv_get (st : State) (L : List LuaValue) : Outcome :=
  match check_ntv st L 1 with
  | none => .error (badArgument 1 "NTV.vtable expected") st
  | some (_, inst) =>
    match tonumber (lua_index L 2) with
    | some index =>
      if ¬ (1 ≤ index ∧ index ≤ inst.nVtxUsed) then
        .error (badArgument 2 ("index out of range (" ++ toString index ++ "/" ++
          toString inst.nVtxUsed ++ ")")) st
      else .ok st [.ntvproxy (ptrAdd inst.vtx (index - 1))]
    | none =>
      match lua_index L 2 with
      | .string method =>
        if method ∈ ntv_methods then .ok st [.cfunction ("ntv_" ++ method)]
        else .error ("invalid ntvertex method " ++ method) st
      | _ => .error (badArgument 2 "string expected") st

/-- The C `lua_tovector(L, idx)`: three unchecked component reads. -/
def lua_tovector (st : State) (v : LuaValue) : Res (Int × Int × Int) :=
  (lua_getfield st v "x").bind fun x =>
  (lua_getfield st v "y").bind fun y =>
  (lua_getfield st v "z").bind fun z =>
  .val (lua_tointeger x, lua_tointeger y, lua_tointeger z)

/-- Stores the listed components through `p`, one after the other. -/
def pokeFields (m : Mem NTVERTEX) (p : Option Ptr) :
    List (Field × Int) → Option (Mem NTVERTEX)
  | [] => some m
  | (f, v) :: rest =>
    match pokeField m p f v with
    | none => none
    | some m1 => pokeFields m1 p rest

/-- The function `Interpreter::ntvproxy_set`: a field set through an element proxy. -/
def ntvproxy_set (st : State) (L : List LuaValue) : Outcome :=
  match lua_index L 1, lua_index L 2 with
  | .ntvproxy p, .string member =>
    let scalar (f : Field) : Outcome :=
      match tonumber (lua_index L 3) with
      | none => .error (badArgument 3 "number expected") st
      | some n =>
        match pokeField st.vmem p f n with
        | none => .fault
        | some m => .ok { st with vmem := m } []
    let vector (fx fy fz : Field) : Outcome :=
      match lua_tovector st (lua_index L 3) with
      | .err e => .error e st
      | .fault => .fault
      | .val (x, y, z) =>
        match pokeFields st.vmem p [(fx, x), (fy, y), (fz, z)] with
        | none => .fault
        | some m => .ok { st with vmem := m } []
    if member = "x" then scalar .x
    else if member = "y" then scalar .y
    else if member = "z" then scalar .z
    else if member = "pos" then vector .x .y .z
    else if member = "tu" then scalar .tu
    else if member = "tv" then scalar .tv
    else if member = "nx" then scalar .nx
    else if member = "ny" then scalar .ny
    else if member = "nz" then scalar .nz
    else if member = "normal" then vector .nx .ny .nz
    else .error ("Invalid member access for vertex: " ++ member) st
  | .ntvproxy _, _ => .error (badArgument 2 "string expected") st
  | _, _ => .error (badArgument 1 "NTVPROXY.vtable expected") st

/-! ## Index arrays (`Index.vtable`) -/

/-- The C `lua_newuserdata(L, sizeof(index_data))` followed by the assignments
to the fields of the new userdata. -/
def new_index (st : State) (d : index_data) : State × Nat :=
  ({ st with idx := st.idx ++ [d] }, st.idx.length)

/-- Assignment to the fields of the index-array userdata `id`. -/
def put_index (st : State) (id : Nat) (d : index_data) : State :=
  { st with idx := st.idx.set id d }

/-- The `while (lua_next(L, 1) != 0)` loop of `oapi_create_indexarray`. -/
def fill_index (ud : LuaValue) (p : Option Ptr) :
    List (LuaKey × LuaValue) → Int → State → Outcome
  | [], _, st => .ok st [ud]
  | (_, v) :: es, i, st =>
    match tonumber v with
    | none => .error (badArgument 0 "number expected") st
    | some n =>
      match writeMem st.imem (ptrAdd p i) [toWORD n] with
      | none => .fault
      | some m => fill_index ud p es (i + 1) { st with imem := m }

/-- The function `Interpreter::oapi_create_indexarray`. -/
def oapi_create_indexarray (st : State) (L : List LuaValue) : Outcome :=
  let create (nIdx : Int) (entries : List (LuaKey × LuaValue)) : Outcome :=
    match newArray st.imem nIdx st.ijunk with
    | none => .fault
    | some (m, p) =>
      let (st1, id) := new_index { st with imem := m }
        { idx := some p, nIdx := nIdx, nIdxUsed := nIdx, owning := true }
      fill_index (.index id) (some p) entries 0 st1
  match lua_index L 1 with
  | .table fields => create (lua_objlen fields) (lua_entries fields)
  | .number n => create n []
  | _ => .error "Invalid type for create_indexarray, number or table expected" st

/-- The function `Interpreter::push_indexarray`: wraps host storage. -/
def push_indexarray (st : State) (idx : Option Ptr) (nIdx : Int) : State × LuaValue :=
  let (st1, id) := new_index st { idx := idx, nIdx := nIdx, nIdxUsed := nIdx, owning := false }
  (st1, .index id)

/-- The function `Interpreter::oapi_del_indexarray`. -/
def oapi_del_indexarray (st : State) (L : List LuaValue) : Outcome :=
  match check_index st L 1 with
  | none => .error (badArgument 1 "Index.vtable expected") st
  | some (id, inst) =>
    if inst.owning then
      match deleteArray st.imem inst.idx with
      | none => .fault
      | some m =>
        .ok (put_index { st with imem := m } id { inst with owning := false, idx := none }) []
    else
      .ok (put_index st id { inst with idx := none }) []

/-- The function `Interpreter::idx_collect`, the `__gc` finaliser. -/
def idx_collect (st : State) (L : List LuaValue) : Outcome :=
  match check_index st L 1 with
  | none => .error (badArgument 1 "Index.vtable expected") st
  | some (_, inst) =>
    if inst.owning ∧ inst.idx.isSome then
      match deleteArray st.imem inst.idx with
      | none => .fault
      | some m => .ok { st with imem := m } []
    else .ok st []

/-- The function `Interpreter::idx_size`, also the `__len` metamethod. -/
def idx_size (st : State) (L : List LuaValue) : Outcome :=
  match check_index st L 1 with
  | none => .error (badArgument 1 "Index.vtable expected") st
  | some (_, inst) => .ok st [.number inst.nIdxUsed]

/-- The function `Interpreter::idx_reset`. -/
def idx_reset (st : State) (L : List LuaValue) : Outcome :=
  match check_index st L 1 with
  | none => .error (badArgument 1 "Index.vtable expected") st
  | some (id, inst) => .ok (put_index st id { inst with nIdxUsed := 0 }) []

/-- The `for` loop of `idx_append`, from iteration `i` on, with `k` iterations
left: `dst[base + i] = src[i] + offset`. -/
def idx_append_loop (dst src : Option Ptr) (base offset : Int) :
    Nat → Nat → Mem WORD → Option (Mem WORD)
  | _, 0, m => some m
  | i, k + 1, m =>
    match readMem m (ptrAdd src i) 1 with
    | some [w] =>
      match writeMem m (ptrAdd dst (base + i)) [toWORD (w + offset)] with
      | none => none
      | some m1 => idx_append_loop dst src base offset (i + 1) k m1
    | _ => none

/-- The function `Interpreter::idx_append`. -/
def idx_append (st : State) (L : List LuaValue) : Outcome :=
  match check_index st L 1 with
  | none => .error (badArgument 1 "Index.vtable expected") st
  | some (d, dst) =>
    match check_index st L 2 with
    | none => .error (badArgument 2 "Index.vtable expected") st
    | some (_, src) =>
      let offset := lua_tointeger (lua_index L 3)
      if dst.nIdxUsed + src.nIdxUsed > dst.nIdx then
        .error "Cannot append ntvertexarray, not enough room" st
      else
        match idx_append_loop dst.idx src.idx dst.nIdxUsed offset 0 src.nIdxUsed.toNat
            st.imem with
        | none => .fault
        | some m =>
          .ok (put_index { st with imem := m } d
            { dst with nIdxUsed := dst.nIdxUsed + src.nIdxUsed }) []

/-- The call raised a script error. -/
def Outcome.raises : Outcome → Prop
  | .error _ _ => True
  | _ => False

instance (o : Outcome) : Decidable o.raises := by
  cases o <;> simp only [Outcome.raises] <;> infer_instance

/-- The state in which the call ended, when it returned or raised. -/
def Outcome.state? : Outcome → Option State
  | .ok st _ => some st
  | .error _ st => some st
  | .fault => none

/-! ## Scripts mutating an array -/

/-- A mutation of a vertex array by a script: the bound function called on the
array, with the arguments that follow the array. -/
inductive Mutation where
  | set (args : List LuaValue)
  | write (args : List LuaValue)
  | append (args : List LuaValue)
  | zeroize (args : List LuaValue)

/-- The call a mutation of the array `c` stands for. -/
def Mutation.apply (c : Nat) (st : State) : Mutation → Outcome
  | .set args => ntv_set st (.ntv c :: args)
  | .write args => ntv_write st (.ntv c :: args)
  | .append args => ntv_append st (.ntv c :: args)
  | .zeroize args => ntv_zeroize st (.ntv c :: args)

/-- A script applying mutations to the array `c` one after the other; a raised
error is caught and the script goes on from the state of the error. `none`
when a call runs into undefined behaviour. -/
def mutate (c : Nat) : List Mutation → State → Option State
  | [], st => some st
  | op :: ops, st =>
    match (op.apply c st).state? with
    | none => none
    | some st1 => mutate c ops st1

/-! ## Concrete script contexts -/

/-- The script context before any array is created. -/
def emptyState : State :=
  { vmem := [], imem := [], ntv := [], idx := [], vjunk := NTVERTEX.zero, ijunk := 0 }

/-- A context with an owned 4-record vertex array (userdata 0), an owned
2-record vertex array (userdata 1) and an owned 3-entry index array, all full. -/
def twoArrays : State :=
  { emptyState with
    vmem := [some (List.replicate 4 NTVERTEX.zero), some (List.replicate 2 NTVERTEX.zero)]
    imem := [some (List.replicate 3 0)]
    ntv := [{ vtx := some { block := 0, off := 0 }, nVtx := 4, nVtxUsed := 4, owning := true },
            { vtx := some { block := 1, off := 0 }, nVtx := 2, nVtxUsed := 2, owning := true }]
    idx := [{ idx := some { block := 0, off := 0 }, nIdx := 3, nIdxUsed := 3, owning := true }] }

/-- The record with components 1 to 8. -/
def sampleVertex : NTVERTEX :=
  { x := 1, y := 2, z := 3, nx := 4, ny := 5, nz := 6, tu := 7, tv := 8 }

/-- The fields of a table holding the components 1 to 8. -/
def sampleFields : List (LuaKey × LuaValue) :=
  [(.str "x", .number 1), (.str "y", .number 2), (.str "z", .number 3),
    (.str "nx", .number 4), (.str "ny", .number 5), (.str "nz", .number 6),
    (.str "tu", .number 7), (.str "tv", .number 8)]

/-- The context `twoArrays` after `view(a, 2, 2)` of its 4-record array. -/
def viewed : State :=
  { twoArrays with
    ntv := twoArrays.ntv ++
      [{ vtx := some { block := 0, off := 1 }, nVtx := 2, nVtxUsed := 2, owning := false }] }

/-- The context `twoArrays` after `copy(a, 2, 2)` of its 4-record array. -/
def copied : State :=
  { twoArrays with
    vmem := twoArrays.vmem ++ [some (List.replicate 2 NTVERTEX.zero)]
    ntv := twoArrays.ntv ++
      [{ vtx := some { block := 2, off := 0 }, nVtx := 2, nVtxUsed := 2, owning := true }] }

/-- A context with a full owned 4-record array of zero records (userdata 0), a
full owned 2-record array holding `sampleVertex` twice (userdata 1) and the
view `view(a, 2, 2)` of the first array (userdata 2). -/
def writeDemo : State :=
  { emptyState with
    vmem := [some (List.replicate 4 NTVERTEX.zero), some [sampleVertex, sampleVertex]]
    ntv := [{ vtx := some { block := 0, off := 0 }, nVtx := 4, nVtxUsed := 4, owning := true },
            { vtx := some { block := 1, off := 0 }, nVtx := 2, nVtxUsed := 2, owning := true },
            { vtx := some { block := 0, off := 1 }, nVtx := 2, nVtxUsed := 2, owning := false }] }

/-- The value at the stack index `idx`: positive indices count from the bottom,
negative ones from the top; an index outside the stack reads as `nil`. -/
def lua_value (L : List LuaValue) (idx : Int) : LuaValue :=
  if idx > 0 then lua_index L idx.toNat
  else if idx < 0 ∧ (-idx).toNat ≤ L.length then L.getD (L.length - (-idx).toNat) .nil
  else .nil

/-- The C `lua_isboolean`. -/
def lua_isboolean (v : LuaValue) : Bool :=
  match v with
  | .boolean _ => true
  | _ => false

/-- The C `lua_isstring`: strings, and numbers, which convert to strings. -/
def lua_isstring (v : LuaValue) : Bool :=
  match v with
  | .string _ => true
  | .number _ => true
  | _ => false

/-- The C `lua_islightuserdata`. -/
def lua_islightuserdata (v : LuaValue) : Bool :=
  match v with
  | .lightuserdata _ => true
  | _ => false

/-- The C `lua_isuserdata`: full and light userdata. -/
def lua_isuserdata (v : LuaValue) : Bool :=
  match v with
  | .lightuserdata _ => true
  | .ntv _ => true
  | .index _ => true
  | .ntvproxy _ => true
  | .userdata _ _ => true
  | _ => false

/-- The C `lua_typename(L, lua_type(L, idx))`. -/
def lua_typename (v : LuaValue) : String :=
  match v with
  | .nil => "nil"
  | .boolean _ => "boolean"
  | .number _ => "number"
  | .string _ => "string"
  | .table _ => "table"
  | .cfunction _ => "function"
  | _ => "userdata"

/-- The number of entries a `lua_next` traversal of the table counts. -/
def lua_count (fields : List (LuaKey × LuaValue)) : Nat := (lua_entries fields).length

/-- The function `Interpreter::lua_isvector`: a table with exactly three
entries in which the fields `x`, `y` and `z` are not nil. -/
def lua_isvector (v : LuaValue) : Bool :=
  match v with
  | .table fields =>
    if lua_count fields ≠ 3 then false
    else if lua_isnil (rawget fields (.str "x")) then false
    else if lua_isnil (rawget fields (.str "y")) then false
    else if lua_isnil (rawget fields (.str "z")) then false
    else true
  | _ => false

/-- A native 3x3 matrix (`MATRIX3`). -/
structure MATRIX3 where
  m11 : Int
  m12 : Int
  m13 : Int
  m21 : Int
  m22 : Int
  m23 : Int
  m31 : Int
  m32 : Int
  m33 : Int
deriving DecidableEq, Repr

/-- The function `Interpreter::lua_pushmatrix`. -/
def lua_pushmatrix (mat : MATRIX3) : LuaValue :=
  .table [(.str "m11", .number mat.m11), (.str "m12", .number mat.m12),
    (.str "m13", .number mat.m13), (.str "m21", .number mat.m21),
    (.str "m22", .number mat.m22), (.str "m23", .number mat.m23),
    (.str "m31", .number mat.m31), (.str "m32", .number mat.m32),
    (.str "m33", .number mat.m33)]

/-- The function `Interpreter::lua_tomatrix`: nine unchecked component reads. -/
def lua_tomatrix (st : State) (v : LuaValue) : Res MATRIX3 :=
  (lua_getfield st v "m11").bind fun m11 =>
  (lua_getfield st v "m12").bind fun m12 =>
  (lua_getfield st v "m13").bind fun m13 =>
  (lua_getfield st v "m21").bind fun m21 =>
  (lua_getfield st v "m22").bind fun m22 =>
  (lua_getfield st v "m23").bind fun m23 =>
  (lua_getfield st v "m31").bind fun m31 =>
  (lua_getfield st v "m32").bind fun m32 =>
  (lua_getfield st v "m33").bind fun m33 =>
  .val { m11 := lua_tointeger m11, m12 := lua_tointeger m12, m13 := lua_tointeger m13,
         m21 := lua_tointeger m21, m22 := lua_tointeger m22, m23 := lua_tointeger m23,
         m31 := lua_tointeger m31, m32 := lua_tointeger m32, m33 := lua_tointeger m33 }

/-- The field names `lua_ismatrix` looks for, in its order. -/
def matrixFields : List String :=
  ["m11", "m12", "m13", "m21", "m22", "m23", "m31", "m32", "m33"]

/-- The function `Interpreter::lua_ismatrix`: a table with exactly nine
entries in which none of the fields `m11` .. `m33` is nil. -/
def lua_ismatrix (v : LuaValue) : Bool :=
  match v with
  | .table fields =>
    if lua_count fields ≠ 9 then false
    else matrixFields.all (fun k => !(lua_isnil (rawget fields (.str k))))
  | _ => false

/-- Modelled from the spec: the `PRMTP_` constants of `Interpreter.h`, which is
not among the sources. The allowed-types mask is a set of flags, one for each
constant the source names; `tp & PRMTP_X` is the flag `X` of the mask. -/
structure PrmMask where
  nil : Bool := false
  number : Bool := false
  boolean : Bool := false
  string : Bool := false
  lightuserdata : Bool := false
  table : Bool := false
  vector : Bool := false
  matrix : Bool := false
  userdata : Bool := false
deriving DecidableEq, Repr

/-- The mask `PRMTP_NIL`. -/
def PRMTP_NIL : PrmMask := { nil := true }

/-- The mask `PRMTP_NUMBER`. -/
def PRMTP_NUMBER : PrmMask := { number := true }

/-- The mask `PRMTP_BOOLEAN`. -/
def PRMTP_BOOLEAN : PrmMask := { boolean := true }

/-- The mask `PRMTP_STRING`. -/
def PRMTP_STRING : PrmMask := { string := true }

/-- The mask `PRMTP_LIGHTUSERDATA`. -/
def PRMTP_LIGHTUSERDATA : PrmMask := { lightuserdata := true }

/-- The mask `PRMTP_TABLE`. -/
def PRMTP_TABLE : PrmMask := { table := true }

/-- The mask `PRMTP_VECTOR`. -/
def PRMTP_VECTOR : PrmMask := { vector := true }

/-- The mask `PRMTP_MATRIX`. -/
def PRMTP_MATRIX : PrmMask := { matrix := true }

/-- The mask `PRMTP_USERDATA`. -/
def PRMTP_USERDATA : PrmMask := { userdata := true }

/-- The tests at the head of `AssertPrmType`: some test selected by the mask
accepts the value. There is no test for the matrix flag. -/
def prmAccepted (tp : PrmMask) (v : LuaValue) : Bool :=
  if tp.nil && lua_isnil v then true
  else if tp.number && lua_isnumber v then true
  else if tp.boolean && lua_isboolean v then true
  else if tp.string && lua_isstring v then true
  else if tp.lightuserdata && lua_islightuserdata v then true
  else if tp.table && lua_istable v then true
  else if tp.vector && lua_isvector v then true
  else if tp.userdata && lua_isuserdata v then true
  else false

/-- The three stores `cbuf[strlen(cbuf)-3] = ')'`, `cbuf[strlen(cbuf)-2] = ' '`,
`cbuf[strlen(cbuf)-1] = '\0'`: the last three characters are replaced by `") "`. -/
def closeExpected (cbuf : String) : String :=
  String.mk (cbuf.data.take (cbuf.data.length - 3) ++ [')', ' '])

/-- The statement `if (flag) strcat(cbuf, piece);`. -/
def strcatIf (flag : Bool) (cbuf piece : String) : String :=
  if flag then cbuf ++ piece else cbuf

/-- The text `AssertPrmType` builds in `cbuf` when no test accepts the value. -/
def prmMessage (v : LuaValue) (prmno : Int) (tp : PrmMask) (funcname : String)
    (fieldname : Option String) : String :=
  let cbuf :=
    match fieldname with
    | some f =>
      funcname ++ ": argument " ++ toString prmno ++ ": field " ++ f ++
        ": invalid type (expected"
    | none => funcname ++ ": argument " ++ toString prmno ++ ": invalid type (expected"
  let cbuf := strcatIf tp.nil cbuf " nil or"
  let cbuf := strcatIf tp.number cbuf " number or"
  let cbuf := strcatIf tp.boolean cbuf " boolean or"
  let cbuf := strcatIf tp.string cbuf " string or"
  let cbuf := strcatIf tp.lightuserdata cbuf " handle or"
  let cbuf := strcatIf tp.table cbuf " table or"
  let cbuf := strcatIf tp.vector cbuf " vector or"
  let cbuf := strcatIf tp.userdata cbuf " userdata or"
  let cbuf := closeExpected cbuf
  cbuf ++ lua_typename v ++ " given"

/-- The function `Interpreter::AssertPrmType` with all six parameters: returns
1 when a test of the mask accepts the value at `idx`, raises otherwise. -/
def AssertPrmType (L : List LuaValue) (idx : Int) (prmno : Int) (tp : PrmMask)
    (funcname : String) (fieldname : Option String) : Res Int :=
  if prmAccepted tp (lua_value L idx) then .val 1
  else .err (prmMessage (lua_value L idx) prmno tp funcname fieldname)

/-- The overload `AssertPrmType(L, idx, tp, funcname)`. -/
def AssertPrmType_idx (L : List LuaValue) (idx : Int) (tp : PrmMask) (funcname : String) :
    Res Int :=
  AssertPrmType L idx idx tp funcname none

/-- The function `Interpreter::AssertMtdPrmType`. -/
def AssertMtdPrmType (L : List LuaValue) (idx : Int) (tp : PrmMask) (funcname : String) :
    Res Int :=
  AssertPrmType L idx (idx - 1) tp funcname none

/-- The C `lua_toboolean`: false for `nil` and `false`. -/
def lua_toboolean (v : LuaValue) : Bool :=
  match v with
  | .nil => false
  | .boolean b => b
  | _ => true

/-- The C `lua_tostring`: the string of a string or a number, null otherwise. -/
def lua_tostring (v : LuaValue) : Option String :=
  match v with
  | .string s => some s
  | .number n => some (toString n)
  | _ => none

/-- The C `lua_touserdata`: the pointer of a light userdata, the block address
of a full userdata (here: its number), null otherwise. -/
def lua_touserdata (v : LuaValue) : Option Nat :=
  match v with
  | .lightuserdata p => some p
  | .ntv id => some id
  | .index id => some id
  | .userdata _ id => some id
  | _ => none

/-- The function `lua_tointeger_safe(L, idx, prmno, funcname)`. -/
def lua_tointeger_safe_prm (L : List LuaValue) (idx prmno : Int) (funcname : String) :
    Res Int :=
  (AssertPrmType L idx prmno PRMTP_NUMBER funcname none).bind fun _ =>
    .val (lua_tointeger (lua_value L idx))

/-- The function `lua_tointeger_safe(L, idx, funcname)`. -/
def lua_tointeger_safe (L : List LuaValue) (idx : Int) (funcname : String) : Res Int :=
  lua_tointeger_safe_prm L idx idx funcname

/-- The function `luamtd_tointeger_safe`. -/
def luamtd_tointeger_safe (L : List LuaValue) (idx : Int) (funcname : String) : Res Int :=
  lua_tointeger_safe_prm L idx (idx - 1) funcname

/-- The function `lua_tonumber_safe(L, idx, prmno, funcname)`. -/
def lua_tonumber_safe_prm (L : List LuaValue) (idx prmno : Int) (funcname : String) :
    Res Int :=
  (AssertPrmType L idx prmno PRMTP_NUMBER funcname none).bind fun _ =>
    .val (lua_tointeger (lua_value L idx))

/-- The function `lua_tonumber_safe(L, idx, funcname)`. -/
def lua_tonumber_safe (L : List LuaValue) (idx : Int) (funcname : String) : Res Int :=
  lua_tonumber_safe_prm L idx idx funcname

/-- The function `luamtd_tonumber_safe`. -/
def luamtd_tonumber_safe (L : List LuaValue) (idx : Int) (funcname : String) : Res Int :=
  lua_tonumber_safe_prm L idx (idx - 1) funcname

/-- The function `lua_toboolean_safe(L, idx, prmno, funcname)`. -/
def lua_toboolean_safe_prm (L : List LuaValue) (idx prmno : Int) (funcname : String) :
    Res Bool :=
  (AssertPrmType L idx prmno PRMTP_BOOLEAN funcname none).bind fun _ =>
    .val (lua_toboolean (lua_value L idx))

/-- The function `lua_toboolean_safe(L, idx, funcname)`. -/
def lua_toboolean_safe (L : List LuaValue) (idx : Int) (funcname : String) : Res Bool :=
  lua_toboolean_safe_prm L idx idx funcname

/-- The function `luamtd_toboolean_safe`. -/
def luamtd_toboolean_safe (L : List LuaValue) (idx : Int) (funcname : String) : Res Bool :=
  lua_toboolean_safe_prm L idx (idx - 1) funcname

/-- The function `lua_tostring_safe(L, idx, prmno, funcname)`. -/
def lua_tostring_safe_prm (L : List LuaValue) (idx prmno : Int) (funcname : String) :
    Res (Option String) :=
  (AssertPrmType L idx prmno PRMTP_STRING funcname none).bind fun _ =>
    .val (lua_tostring (lua_value L idx))

/-- The function `lua_tostring_safe(L, idx, funcname)`. -/
def lua_tostring_safe (L : List LuaValue) (idx : Int) (funcname : String) :
    Res (Option String) :=
  lua_tostring_safe_prm L idx idx funcname

/-- The function `luamtd_tostring_safe`. -/
def luamtd_tostring_safe (L : List LuaValue) (idx : Int) (funcname : String) :
    Res (Option String) :=
  lua_tostring_safe_prm L idx (idx - 1) funcname

/-- The function `lua_tolightuserdata_safe(L, idx, prmno, funcname)`. -/
def lua_tolightuserdata_safe_prm (L : List LuaValue) (idx prmno : Int) (funcname : String) :
    Res (Option Nat) :=
  (AssertPrmType L idx prmno PRMTP_LIGHTUSERDATA funcname none).bind fun _ =>
    .val (lua_touserdata (lua_value L idx))

/-- The function `lua_tolightuserdata_safe(L, idx, funcname)`. -/
def lua_tolightuserdata_safe (L : List LuaValue) (idx : Int) (funcname : String) :
    Res (Option Nat) :=
  lua_tolightuserdata_safe_prm L idx idx funcname

/-- The function `luamtd_tolightuserdata_safe`. -/
def luamtd_tolightuserdata_safe (L : List LuaValue) (idx : Int) (funcname : String) :
    Res (Option Nat) :=
  lua_tolightuserdata_safe_prm L idx (idx - 1) funcname

/-- The function `lua_tovector_safe(L, idx, prmno, funcname)`. -/
def lua_tovector_safe_prm (st : State) (L : List LuaValue) (idx prmno : Int)
    (funcname : String) : Res (Int × Int × Int) :=
  (AssertPrmType L idx prmno PRMTP_VECTOR funcname none).bind fun _ =>
    lua_tovector st (lua_value L idx)

/-- The function `lua_tovector_safe(L, idx, funcname)`. -/
def lua_tovector_safe (st : State) (L : List LuaValue) (idx : Int) (funcname : String) :
    Res (Int × Int × Int) :=
  lua_tovector_safe_prm st L idx idx funcname

/-- The function `luamtd_tovector_safe`. -/
def luamtd_tovector_safe (st : State) (L : List LuaValue) (idx : Int) (funcname : String) :
    Res (Int × Int × Int) :=
  lua_tovector_safe_prm st L idx (idx - 1) funcname

/-- The function `lua_tomatrix_safe(L, idx, prmno, funcname)`. -/
def lua_tomatrix_safe_prm (st : State) (L : List LuaValue) (idx prmno : Int)
    (funcname : String) : Res MATRIX3 :=
  (AssertPrmType L idx prmno PRMTP_MATRIX funcname none).bind fun _ =>
    lua_tomatrix st (lua_value L idx)

/-- The function `lua_tomatrix_safe(L, idx, funcname)`, which passes `idx - 1`. -/
def lua_tomatrix_safe (st : State) (L : List LuaValue) (idx : Int) (funcname : String) :
    Res MATRIX3 :=
  lua_tomatrix_safe_prm st L idx (idx - 1) funcname

/-- The function `luamtd_tomatrix_safe`. -/
def luamtd_tomatrix_safe (st : State) (L : List LuaValue) (idx : Int) (funcname : String) :
    Res MATRIX3 :=
  lua_tomatrix_safe_prm st L idx (idx - 1) funcname

/-- The function `lua_field_tonumber_safe(L, idx, prmno, fieldname, funcname)`:
the field is pushed and checked at index -1. -/
def lua_field_tonumber_safe_prm (st : State) (L : List LuaValue) (idx prmno : Int)
    (fieldname funcname : String) : Res Int :=
  (lua_getfield st (lua_value L idx) fieldname).bind fun v =>
  (AssertPrmType (L ++ [v]) (-1) prmno PRMTP_NUMBER funcname (some fieldname)).bind fun _ =>
    .val (lua_tointeger (lua_value (L ++ [v]) (-1)))

/-- The function `lua_field_tonumber_safe(L, idx, fieldname, funcname)`. -/
def lua_field_tonumber_safe (st : State) (L : List LuaValue) (idx : Int)
    (fieldname funcname : String) : Res Int :=
  lua_field_tonumber_safe_prm st L idx idx fieldname funcname

/-- The function `luamtd_field_tonumber_safe`. -/
def luamtd_field_tonumber_safe (st : State) (L : List LuaValue) (idx : Int)
    (fieldname funcname : String) : Res Int :=
  lua_field_tonumber_safe_prm st L idx (idx - 1) fieldname funcname

/-- The function `lua_field_tolightuserdata_safe(L, idx, prmno, fieldname, funcname)`. -/
def lua_field_tolightuserdata_safe_prm (st : State) (L : List LuaValue) (idx prmno : Int)
    (fieldname funcname : String) : Res (Option Nat) :=
  (lua_getfield st (lua_value L idx) fieldname).bind fun v =>
  (AssertPrmType (L ++ [v]) (-1) prmno PRMTP_LIGHTUSERDATA funcname
      (some fieldname)).bind fun _ =>
    .val (lua_touserdata (lua_value (L ++ [v]) (-1)))

/-- The function `lua_field_tolightuserdata_safe(L, idx, fieldname, funcname)`. -/
def lua_field_tolightuserdata_safe (st : State) (L : List LuaValue) (idx : Int)
    (fieldname funcname : String) : Res (Option Nat) :=
  lua_field_tolightuserdata_safe_prm st L idx idx fieldname funcname

/-- The function `luamtd_field_tolightuserdata_safe`. -/
def luamtd_field_tolightuserdata_safe (st : State) (L : List LuaValue) (idx : Int)
    (fieldname funcname : String) : Res (Option Nat) :=
  lua_field_tolightuserdata_safe_prm st L idx (idx - 1) fieldname funcname

/-- The function `lua_field_tovector_safe(L, idx, prmno, fieldname, funcname)`. -/
def lua_field_tovector_safe_prm (st : State) (L : List LuaValue) (idx prmno : Int)
    (fieldname funcname : String) : Res (Int × Int × Int) :=
  (lua_getfield st (lua_value L idx) fieldname).bind fun v =>
  (AssertPrmType (L ++ [v]) (-1) prmno PRMTP_VECTOR funcname (some fieldname)).bind fun _ =>
    lua_tovector st (lua_value (L ++ [v]) (-1))

/-- The function `lua_field_tovector_safe(L, idx, fieldname, funcname)`. -/
def lua_field_tovector_safe (st : State) (L : List LuaValue) (idx : Int)
    (fieldname funcname : String) : Res (Int × Int × Int) :=
  lua_field_tovector_safe_prm st L idx idx fieldname funcname

/-- The function `luamtd_field_tovector_safe`. -/
def luamtd_field_tovector_safe (st : State) (L : List LuaValue) (idx : Int)
    (fieldname funcname : String) : Res (Int × Int × Int) :=
  lua_field_tovector_safe_prm st L idx (idx - 1) fieldname funcname

/-- The function `Interpreter::AssertMtdNumber`. -/
def AssertMtdNumber (L : List LuaValue) (idx : Int) (funcname : String) : Res Int :=
  if lua_isnumber (lua_value L idx) then .val 1
  else .err (funcname ++ ": argument " ++ toString (idx - 1) ++
    ": invalid type (expected number)")

/-- The function `Interpreter::AssertMtdHandle`, whose test reads stack index 2. -/
def AssertMtdHandle (L : List LuaValue) (idx : Int) (funcname : String) : Res Int :=
  if lua_islightuserdata (lua_value L 2) then .val 1
  else .err (funcname ++ ": argument " ++ toString (idx - 1) ++
    ": invalid type (expected handle)")

/-- The names of the types a mask allows, in the order `AssertPrmType` lists
them: the expected types of the error message. -/
def prmNames (tp : PrmMask) : List String :=
  (if tp.nil then ["nil"] else []) ++ ((if tp.number then ["number"] else []) ++
  ((if tp.boolean then ["boolean"] else []) ++ ((if tp.string then ["string"] else []) ++
  ((if tp.lightuserdata then ["handle"] else []) ++ ((if tp.table then ["table"] else []) ++
  ((if tp.vector then ["vector"] else []) ++ (if tp.userdata then ["userdata"] else [])))))))

/-- The pieces `AssertPrmType` appends to `cbuf` for the listed names. -/
def orPieces : List String → String
  | [] => ""
  | n :: ns => (" " ++ n ++ " or") ++ orPieces ns

/-- The spec's well-formed vector: a table in which the fields `x`, `y` and `z`
are all present and numeric. -/
def specVector (v : LuaValue) : Bool :=
  match v with
  | .table fields =>
    lua_isnumber (rawget fields (.str "x")) && lua_isnumber (rawget fields (.str "y")) &&
      lua_isnumber (rawget fields (.str "z"))
  | _ => false

/-- The spec's reading of "the type of the value is in the mask": the Lua type
of the value, by its name (handle for a light userdata; a table also counts as
a vector when it is one), is one of the types the mask lists. -/
def typeInMask (tp : PrmMask) (v : LuaValue) : Bool :=
  match v with
  | .nil => tp.nil
  | .number _ => tp.number
  | .boolean _ => tp.boolean
  | .string _ => tp.string
  | .lightuserdata _ => tp.lightuserdata
  | .table _ => tp.table || (tp.vector && lua_isvector v)
  | .cfunction _ => false
  | _ => tp.userdata

/-- The position a checked decoder reports: whenever the result `r` is a raised
error, its text starts with "funcname: argument n: ". -/
def reportsPosition {α : Type} (r : Res α) (funcname : String) (n : Int) : Prop :=
  ∀ msg, r = .err msg → (funcname ++ ": argument " ++ toString n ++ ": ").data <+: msg.data

/-! ## Registry of wrapped objects -/

/-- The part of a script context the wrapper push functions work on: the full
userdata blocks allocated for wrapped objects (block `id` holds the native
pointer `wrappers[id]`) and the entries of the Lua registry whose key is a
light userdata, the pointer value itself. -/
structure Registry where
  wrappers : List Nat
  entries : List (Nat × LuaValue)
deriving Repr

/-- The calls `lua_pushlightuserdata(L, p); lua_gettable(L, LUA_REGISTRYINDEX)`:
the registry entry of the pointer `p`, `nil` when there is none. -/
def registry_get (r : Registry) (p : Nat) : LuaValue :=
  match r.entries.find? (fun e => decide (e.1 = p)) with
  | some e => e.2
  | none => .nil

/-- The calls `lua_pushlightuserdata(L, p); lua_pushvalue(L, -2);
lua_settable(L, LUA_REGISTRYINDEX)`: the entry of `p` becomes `v`. -/
def registry_set (r : Registry) (p : Nat) (v : LuaValue) : Registry :=
  { r with entries := (p, v) :: r.entries.filter (fun e => !(decide (e.1 = p))) }

/-- The calls `lua_newuserdata(L, sizeof(T*)); *pv = p; luaL_getmetatable(L,
tname); lua_setmetatable(L, -2)`: a new userdata block holding `p`, with the
metatable the registry holds under the name `tname`. -/
def new_wrapper (r : Registry) (tname : String) (p : Nat) : Registry × LuaValue :=
  ({ r with wrappers := r.wrappers ++ [p] }, .userdata tname r.wrappers.length)

/-- The function `Interpreter::lua_pushvessel`; gives the context and the value
left on top of the stack. The vessel callback `LoadVesselExtensions` runs
(`clbkGeneric` of the vessel module, code outside this program) is the
parameter `ext`. -/
def lua_pushvessel (ext : Registry → Registry) (r : Registry) (v : Nat) :
    Registry × LuaValue :=
  if lua_isnil (registry_get r v) then
    let (r1, obj) := new_wrapper r "VESSEL.vtable" v
    let r2 := ext r1
    (registry_set r2 v obj, obj)
  else (r, registry_get r v)

/-- The function `Interpreter::lua_pushmfd`. -/
def lua_pushmfd (r : Registry) (mfd : Nat) : Registry × LuaValue :=
  if lua_isnil (registry_get r mfd) then
    let (r1, obj) := new_wrapper r "MFD.vtable" mfd
    (registry_set r1 mfd obj, obj)
  else (r, registry_get r mfd)

/-- The function `Interpreter::lua_pushlightemitter`. -/
def lua_pushlightemitter (r : Registry) (le : Nat) : Registry × LuaValue :=
  if lua_isnil (registry_get r le) then
    let (r1, obj) := new_wrapper r "LightEmitter.vtable" le
    (registry_set r1 le obj, obj)
  else (r, registry_get r le)

/-- The function `Interpreter::lua_pushsketchpad`. -/
def lua_pushsketchpad (r : Registry) (skp : Nat) : Registry × LuaValue :=
  if lua_isnil (registry_get r skp) then
    let (r1, obj) := new_wrapper r "SKP.vtable" skp
    (registry_set r1 skp obj, obj)
  else (r, registry_get r skp)

/-- The capability tags that have a wrapper push function. -/
inductive WrapTag where
  | vessel
  | mfd
  | lightemitter
  | sketchpad
deriving DecidableEq, Repr

/-- The name under which the metatable of a tag is registered. -/
def WrapTag.vtable : WrapTag → String
  | .vessel => "VESSEL.vtable"
  | .mfd => "MFD.vtable"
  | .lightemitter => "LightEmitter.vtable"
  | .sketchpad => "SKP.vtable"

/-- The push function of a tag. -/
def pushFor (ext : Registry → Registry) (t : WrapTag) (r : Registry) (p : Nat) :
    Registry × LuaValue :=
  match t with
  | .vessel => lua_pushvessel ext r p
  | .mfd => lua_pushmfd r p
  | .lightemitter => lua_pushlightemitter r p
  | .sketchpad => lua_pushsketchpad r p

/-- The registry name of the metatable a userdata carries. -/
def metatableName (v : LuaValue) : Option String :=
  match v with
  | .ntv _ => some "NTV.vtable"
  | .index _ => some "Index.vtable"
  | .ntvproxy _ => some "NTVPROXY.vtable"
  | .userdata tname _ => some tname
  | _ => none

/-- A script context with no wrapped objects. -/
def emptyRegistry : Registry := { wrappers := [], entries := [] }

/-! ## Execution coordinator -/

/-- The two mutexes of an interpreter. -/
inductive MutexId where
  | hExecMutex
  | hWaitMutex
deriving DecidableEq, Repr

/-- A synchronisation call: `WaitForSingleObject(h, timeout)` or
`ReleaseMutex(h)`. -/
inductive SyncOp where
  | wait (h : MutexId) (timeout : Nat)
  | release (h : MutexId)
deriving DecidableEq, Repr

/-- What a running script, the host and the other thread can change while a
call into the script runtime is under way: the termination flag `status`, the
runtime globals, the synchronisation calls made so far (in call order), the
lines sent to the terminal (`term_strout(text, iserr)`), the texts given to
`oapiWriteLogError` and the texts set in the error annotation `errorbox`
(`none` is a null pointer).
The members `is_busy` and `jobs` are not among them: they are written by the
constructor and by `RunChunk` only. -/
structure ScriptEnv where
  status : Int
  globals : List (String × LuaValue)
  sync : List SyncOp
  termout : List (String × Bool)
  errlog : List (Option String)
  errorbox : List (Option String)
deriving Repr

/-- The members of `class Interpreter` the execution coordinator works on, and
the stack of its Lua context. -/
structure Interp where
  env : ScriptEnv
  is_busy : Bool
  is_term : Bool
  jobs : Int
  stack : List LuaValue
deriving Repr

/-- The nonzero results of `lua_pcall`. -/
inductive PcallError where
  | errrun
  | errmem
  | errerr
deriving DecidableEq, Repr

/-- The values of `LUA_ERRRUN`, `LUA_ERRMEM` and `LUA_ERRERR` in `lua.h`. -/
def PcallError.code : PcallError → Int
  | .errrun => 2
  | .errmem => 4
  | .errerr => 5

/-- How a protected call ends: the function returns its results, or the call
fails with an error code and the error object (what the message handler
`traceback` made of it). -/
inductive CallResult where
  | returned (results : List LuaValue)
  | failed (code : PcallError) (errobj : LuaValue)
deriving Repr

/-- The script runtime: the value `luaL_loadbuffer(L, chunk, n, "line")` pushes
(the compiled chunk, or the message of a compile error), and what
`lua_pcall` of a function value on arguments does and gives. -/
structure Runtime where
  loadbuffer : String → Nat → LuaValue
  pcall : ScriptEnv → LuaValue → List LuaValue → ScriptEnv × CallResult

/-- The result code `lua_pcall` returns. -/
def CallResult.code : CallResult → Int
  | .returned _ => 0
  | .failed c _ => c.code

/-- The C `lua_getfield(L, LUA_GLOBALSINDEX, name)`: the value pushed. -/
def lua_getglobal (env : ScriptEnv) (name : String) : LuaValue :=
  match env.globals.find? (fun e => decide (e.1 = name)) with
  | some e => e.2
  | none => .nil

/-- The C `lua_setfield(L, LUA_GLOBALSINDEX, name)` of the value `v`. -/
def lua_setglobal (env : ScriptEnv) (name : String) (v : LuaValue) : ScriptEnv :=
  { env with globals := (name, v) :: env.globals.filter (fun e => !(decide (e.1 = name))) }

/-- The results of a call adjusted to `nres` values. -/
def adjustResults (nres : Nat) (results : List LuaValue) : List LuaValue :=
  (results ++ List.replicate nres LuaValue.nil).take nres

/-- The value a stack slot holds after `lua_tostring` was called on it: a
number is converted in place. -/
def tostringInPlace (v : LuaValue) : LuaValue :=
  match v with
  | .number n => .string (toString n)
  | _ => v

/-- The function `Interpreter::LuaCall`: the protected call of the function
below the `narg` topmost values, under the message handler `traceback`; on
failure the error text goes to the log and to the error annotation. Gives the
interpreter and the result code. -/
def LuaCall (rt : Runtime) (s : Interp) (narg nres : Nat) : Interp × Int :=
  let base := s.stack.length - narg
  let below := s.stack.take (base - 1)
  let f := s.stack.getD (base - 1) .nil
  let args := s.stack.drop base
  match rt.pcall s.env f args with
  | (env, .returned results) =>
    ({ s with env := env, stack := below ++ adjustResults nres results }, 0)
  | (env, .failed c errobj) =>
    ({ s with
        env := { env with errlog := env.errlog ++ [lua_tostring errobj]
                          errorbox := env.errorbox ++ [lua_tostring errobj] }
        stack := below ++ [tostringInPlace errobj] }, c.code)

/-- The function `Interpreter::Terminate`. -/
def Terminate (s : Interp) : Interp :=
  { s with env := { s.env with status := 1 } }

/-- The function `Interpreter::WaitExec`. -/
def WaitExec (s : Interp) (timeout : Nat) : Interp :=
  { s with env := { s.env with sync := s.env.sync ++
      [.wait .hWaitMutex timeout, .wait .hExecMutex timeout, .release .hWaitMutex] } }

/-- The function `Interpreter::EndExec`. -/
def EndExec (s : Interp) : Interp :=
  { s with env := { s.env with sync := s.env.sync ++ [.release .hExecMutex] } }

/-- The function `Interpreter::frameskip`; `dflt` is the default argument of
`WaitExec`, declared in `Interpreter.h`. -/
def frameskip (dflt : Nat) (s : Interp) : Interp :=
  if s.env.status = 1 then
    { s with env := lua_setglobal s.env "wait_exit" (.boolean true) }
  else
    WaitExec (EndExec s) dflt

/-- The function `Interpreter::term_strout`, as far as the terminal goes. -/
def term_strout (s : Interp) (str : String) (iserr : Bool) : Interp :=
  { s with env := { s.env with termout := s.env.termout ++ [(str, iserr)] } }

/-- The test `chunk[0]` of `RunChunk`: the chunk does not start with the
terminating zero. -/
def chunkNonEmpty (chunk : String) : Bool :=
  match chunk.data with
  | [] => false
  | c :: _ => c.toNat != 0

/-- The statements `lua_getfield(L, LUA_GLOBALSINDEX, hook); LuaCall(L, 0, 1);
jobs = lua_tointeger(L, -1); lua_pop(L, 1);` of `RunChunk`. -/
def queryJobs (rt : Runtime) (s : Interp) (hook : String) : Interp :=
  let s1 := { s with stack := s.stack ++ [lua_getglobal s.env hook] }
  let s2 := (LuaCall rt s1 0 1).1
  { s2 with jobs := lua_tointeger (lua_value s2.stack (-1)), stack := s2.stack.dropLast }

/-- The function `Interpreter::RunChunk`; gives the interpreter and the value
returned. -/
def RunChunk (rt : Runtime) (s : Interp) (chunk : String) (n : Nat) : Interp × Int :=
  if chunkNonEmpty chunk then
    let s1 := { s with is_busy := true }
    let s2 := { s1 with stack := s1.stack ++ [rt.loadbuffer chunk n] }
    let (s3, res) := LuaCall rt s2 0 0
    match (if res ≠ 0 then lua_tostring (lua_value s3.stack (-1)) else none) with
    | some error =>
      let s4 := if s3.is_term then term_strout s3 error true else s3
      ({ s4 with is_busy := false }, res)
    | none =>
      let s4 := queryJobs rt s3 "_nbranch"
      ({ s4 with is_busy := false }, res)
  else
    (queryJobs rt s "_idle", -1)

/-- The function `Interpreter::ProcessChunk`. -/
def ProcessChunk (rt : Runtime) (dflt : Nat) (s : Interp) (chunk : String) (n : Nat) :
    Interp × Int :=
  let s1 := WaitExec s dflt
  let (s2, res) := RunChunk rt s1 chunk n
  (EndExec s2, res)

/-- A runtime for examples: the chunk "boom" raises the message "boom", every
other chunk returns nothing; the hook `_nbranch` returns 3 and `_idle`
returns 5. -/
def demoRuntime : Runtime :=
  { loadbuffer := fun chunk _ => .cfunction chunk
    pcall := fun env f _ =>
      match f with
      | .cfunction name =>
        if name = "boom" then (env, .failed .errrun (.string "boom"))
        else if name = "_nbranch" then (env, .returned [.number 3])
        else if name = "_idle" then (env, .returned [.number 5])
        else (env, .returned [])
      | _ => (env, .failed .errrun (.string "attempt to call a value")) }

/-- An idle interpreter with the two hooks defined and 7 jobs counted. -/
def demoInterp : Interp :=
  { env := { status := 0
             globals := [("_nbranch", .cfunction "_nbranch"), ("_idle", .cfunction "_idle")]
             sync := [], termout := [], errlog := [], errorbox := [] }
    is_busy := false, is_term := true, jobs := 7, stack := [] }

/-! ## Colours -/

/-- A native RGBA colour (`COLOUR4`). -/
structure COLOUR4 where
  r : Int
  g : Int
  b : Int
  a : Int
deriving DecidableEq, Repr

/-- One component of `lua_torgba`: `if (lua_isnumber(L, -1)) col.c =
(float)lua_tonumber(L, -1);` on the field pushed, over the initial value 0. -/
def rgbaComponent (v : LuaValue) : Int :=
  if lua_isnumber v then lua_tointeger v else 0

/-- The function `Interpreter::lua_torgba`: each component is read when the
field is a number and stays 0 otherwise. -/
def lua_torgba (st : State) (v : LuaValue) : Res COLOUR4 :=
  (lua_getfield st v "r").bind fun r =>
  (lua_getfield st v "g").bind fun g =>
  (lua_getfield st v "b").bind fun b =>
  (lua_getfield st v "a").bind fun a =>
  .val { r := rgbaComponent r, g := rgbaComponent g, b := rgbaComponent b, a := rgbaComponent a }

/-- The function `Interpreter::lua_pushrgba`. -/
def lua_pushrgba (col : COLOUR4) : LuaValue :=
  .table [(.str "r", .number col.r), (.str "g", .number col.g), (.str "b", .number col.b),
    (.str "a", .number col.a)]

/-- The spec's well-formed colour: a table in which the fields `r`, `g`, `b`
and `a` are all present and numeric. -/
def specColour (v : LuaValue) : Bool :=
  match v with
  | .table fields =>
    lua_isnumber (rawget fields (.str "r")) && lua_isnumber (rawget fields (.str "g")) &&
      lua_isnumber (rawget fields (.str "b")) && lua_isnumber (rawget fields (.str "a"))
  | _ => false

/-- The 3x3 matrix with the entries 1 to 9. -/
def sampleMatrix : MATRIX3 :=
  { m11 := 1, m12 := 2, m13 := 3, m21 := 4, m22 := 5, m23 := 6, m31 := 7, m32 := 8, m33 := 9 }

/-! ## Deferred host callback and chunk failure -/

/-- The interpreter `LuaCall` leaves when the protected call of the chunk
failed with the error object `errobj` in the context `env1`. -/
def afterFailure (s : Interp) (env1 : ScriptEnv) (errobj : LuaValue) : Interp :=
  { s with
    env := { env1 with errlog := env1.errlog ++ [lua_tostring errobj]
                       errorbox := env1.errorbox ++ [lua_tostring errobj] }
    is_busy := true
    stack := s.stack ++ [tostringInPlace errobj] }

/-- A callback `int (*)(void*)` stored in `postfunc`; `OpenHelp` is the one
function the interpreter stores there. -/
inductive PostFunc where
  | OpenHelp
deriving DecidableEq, Repr

/-- A non-null `postcontext`: the address of the static `hc` of `oapiOpenHelp`. -/
inductive PostContext where
  | hc
deriving DecidableEq, Repr

/-- The statics of `oapiOpenHelp`: the buffer `fname` (the help file of `hc`)
and `hc.topic`, which is null (`none`) or points to the buffer `topic`. -/
structure HelpStatics where
  fname : String
  topic : Option String
deriving DecidableEq, Repr

/-- The interpreter with its deferred-callback members `postfunc` and
`postcontext` (`none` is the null pointer), the statics of `oapiOpenHelp`, and
the callbacks the host has run so far, each with the argument and the content
of `hc` it was run on. -/
structure InterpPost where
  interp : Interp
  postfunc : Option PostFunc
  postcontext : Option PostContext
  statics : HelpStatics
  invoked : List (PostFunc × Option PostContext × HelpStatics)
deriving Repr

/-- The C `strncpy(buf, src, 255)` into a zeroed buffer of 256 characters. -/
def strncpy255 (src : String) : String := String.mk (src.data.take 255)

/-- The function `Interpreter::oapiOpenHelp`: with at least one argument it
fills the statics and stores the callback; a first or second argument that is
not a string or a number makes `strncpy` read the null pointer (`none`). -/
def oapiOpenHelp (s : InterpPost) (L : List LuaValue) : Option InterpPost :=
  let narg := lua_gettop L
  if narg ≠ 0 then
    match lua_tostring (lua_value L 1) with
    | none => none
    | some file =>
      if narg > 1 then
        match lua_tostring (lua_value L 2) with
        | none => none
        | some topic =>
          some { s with statics := { fname := strncpy255 file, topic := some (strncpy255 topic) }
                        postfunc := some .OpenHelp
                        postcontext := some .hc }
      else
        some { s with statics := { fname := strncpy255 file, topic := none }
                      postfunc := some .OpenHelp
                      postcontext := some .hc }
  else some s

/-- The function `Interpreter::PostStep`: a pending callback is run on the
stored context, then both members are cleared. -/
def PostStep (s : InterpPost) (_simt _simdt _mjd : Int) : InterpPost :=
  match s.postfunc with
  | some f =>
    { s with invoked := s.invoked ++ [(f, s.postcontext, s.statics)]
             postfunc := none
             postcontext := none }
  | none => s

/-- An interpreter with no deferred callback. -/
def demoPost : InterpPost :=
  { interp := demoInterp, postfunc := none, postcontext := none,
    statics := { fname := "", topic := none }, invoked := [] }

/-! ## More concrete script contexts -/

/-- A context with one owned vertex array of capacity 2 that holds 1 record. -/
def halfFull : State :=
  { emptyState with
    vmem := [some [sampleVertex, NTVERTEX.zero]]
    ntv := [{ vtx := some { block := 0, off := 0 }, nVtx := 2, nVtxUsed := 1, owning := true }] }

/-- A context with an index array of capacity 4 that holds the entry 65535
(userdata 0) and a full index array with the entries 1 and 2 (userdata 1). -/
def indexDemo : State :=
  { emptyState with
    imem := [some [65535, 0, 0, 0], some [1, 2]]
    idx := [{ idx := some { block := 0, off := 0 }, nIdx := 4, nIdxUsed := 1, owning := true },
            { idx := some { block := 1, off := 0 }, nIdx := 2, nIdxUsed := 2, owning := true }] }

/-- A context with the index buffer of a mesh group (block 0, four entries)
and two owned index arrays holding `1, 2` (userdata 0) and `7` (userdata 1). -/
def meshBuffer : State :=
  { emptyState with
    imem := [some [0, 0, 0, 0], some [1, 2], some [7]]
    idx := [{ idx := some { block := 1, off := 0 }, nIdx := 2, nIdxUsed := 2, owning := true },
            { idx := some { block := 2, off := 0 }, nIdx := 1, nIdxUsed := 1, owning := true }] }

/-- The context `meshBuffer` with two wrappers of the mesh-group buffer: `d1`
(userdata 2), which holds the entry `7`, and `d2` (userdata 3), which holds
the entries `7, 2` of the same storage. -/
def sharedIndex : State :=
  { meshBuffer with
    imem := [some [7, 2, 0, 0], some [1, 2], some [7]]
    idx := meshBuffer.idx ++
      [{ idx := some { block := 0, off := 0 }, nIdx := 4, nIdxUsed := 1, owning := false },
       { idx := some { block := 0, off := 0 }, nIdx := 4, nIdxUsed := 2, owning := false }] }

/-! ## Threads and mutexes -/

/-- The two threads of the host process that take turns on an interpreter. -/
inductive ThreadId where
  | host
  | script
deriving DecidableEq, Repr

/-- A Win32 mutex: the thread that owns it, if any, and how many times that
thread has acquired it. -/
structure Mutex where
  owner : Option ThreadId
  count : Nat
deriving DecidableEq, Repr

/-- The timeout `INFINITE` of `WaitForSingleObject` (`0xFFFFFFFF`). -/
def INFINITE : Nat := 4294967295

/-- The C `CreateMutex(NULL, bInitialOwner, NULL)` called by `creator`. -/
def CreateMutex (creator : ThreadId) (bInitialOwner : Bool) : Mutex :=
  if bInitialOwner then { owner := some creator, count := 1 } else { owner := none, count := 0 }

/-- The mutex after `WaitForSingleObject` acquired it for the thread `t`: this
needs the mutex free or owned by `t` already; `none` when another thread owns
it. -/
def Mutex.acquire (m : Mutex) (t : ThreadId) : Option Mutex :=
  match m.owner with
  | none => some { owner := some t, count := 1 }
  | some o => if o = t then some { m with count := m.count + 1 } else none

/-- The mutex after `ReleaseMutex` called by the thread `t`: the call fails
and changes nothing when `t` does not own the mutex. -/
def Mutex.release (m : Mutex) (t : ThreadId) : Mutex :=
  if m.owner = some t then
    if m.count ≤ 1 then { owner := none, count := 0 } else { m with count := m.count - 1 }
  else m

/-- The two mutexes of an interpreter. -/
structure Mutexes where
  hExecMutex : Mutex
  hWaitMutex : Mutex
deriving DecidableEq, Repr

/-- The mutex behind a handle. -/
def Mutexes.get (ms : Mutexes) : MutexId → Mutex
  | .hExecMutex => ms.hExecMutex
  | .hWaitMutex => ms.hWaitMutex

/-- Replaces the mutex behind a handle. -/
def Mutexes.set (ms : Mutexes) (h : MutexId) (m : Mutex) : Mutexes :=
  match h with
  | .hExecMutex => { ms with hExecMutex := m }
  | .hWaitMutex => { ms with hWaitMutex := m }

/-- The mutexes the constructor `Interpreter::Interpreter` creates when it runs
on the thread `creator`: the execution mutex owned by that thread, the wait
mutex free. -/
def newMutexes (creator : ThreadId) : Mutexes :=
  { hExecMutex := CreateMutex creator true, hWaitMutex := CreateMutex creator false }

/-- One synchronisation call made by the thread `t`. A wait acquires the mutex
when it can; when it cannot, it returns without the mutex if `timedOut` says so
and the timeout is not `INFINITE` (the callers ignore the result), and
otherwise the thread stays blocked (`none`). -/
def syncStep (ms : Mutexes) (t : ThreadId) (op : SyncOp) (timedOut : Bool) : Option Mutexes :=
  match op with
  | .wait h timeout =>
    match (ms.get h).acquire t with
    | some m => some (ms.set h m)
    | none => if timedOut && timeout != INFINITE then some ms else none
  | .release h => some (ms.set h ((ms.get h).release t))

/-- The calls `ops` made in order by the thread `t`, every wait acquiring its
mutex; `none` when a wait cannot acquire. -/
def runOps (ms : Mutexes) (t : ThreadId) : List SyncOp → Option Mutexes
  | [] => some ms
  | op :: rest =>
    match syncStep ms t op false with
    | none => none
    | some ms1 => runOps ms1 t rest

/-- Where a thread is in the round `WaitExec(); ...; EndExec();` that both
`ProcessChunk` (wait, run the chunk, end) and the yield point (end, wait, go on
with the script) go through: before one of the three calls of `WaitExec`, or
`inside`, between the return of `WaitExec` and the call of `EndExec`, where the
thread works on script state. -/
inductive Phase where
  | waitW
  | waitE
  | releaseW
  | inside
deriving DecidableEq, Repr

/-- The synchronisation call a thread in a phase makes next; `WaitExec` is
called with the default timeout `dflt`. -/
def Phase.op (dflt : Nat) : Phase → SyncOp
  | .waitW => .wait .hWaitMutex dflt
  | .waitE => .wait .hExecMutex dflt
  | .releaseW => .release .hWaitMutex
  | .inside => .release .hExecMutex

/-- The phase after that call. -/
def Phase.next : Phase → Phase
  | .waitW => .waitE
  | .waitE => .releaseW
  | .releaseW => .inside
  | .inside => .waitW

/-- The two mutexes and the phases of the host thread and the script thread. -/
structure Config where
  mutexes : Mutexes
  host : Phase
  script : Phase
deriving DecidableEq, Repr

/-- The phase of a thread. -/
def Config.phase (c : Config) : ThreadId → Phase
  | .host => c.host
  | .script => c.script

/-- Moves a thread to a phase. -/
def Config.setPhase (c : Config) (t : ThreadId) (p : Phase) : Config :=
  match t with
  | .host => { c with host := p }
  | .script => { c with script := p }

/-- One step of an interleaving: the thread `t` makes its next call. A wait
that cannot acquire its mutex leaves the thread where it is, unless it returns
by timeout. -/
def step (dflt : Nat) (c : Config) (t : ThreadId) (timedOut : Bool) : Config :=
  match syncStep c.mutexes t ((c.phase t).op dflt) timedOut with
  | some ms => { c.setPhase t (c.phase t).next with mutexes := ms }
  | none => c

/-- An interleaving: which thread moves next, and whether a wait it is blocked
in returns by timeout. -/
def run (dflt : Nat) (c : Config) : List (ThreadId × Bool) → Config
  | [] => c
  | (t, timedOut) :: rest => run dflt (step dflt c t timedOut) rest

/-- Both threads are between their `WaitExec` and their `EndExec`. -/
def bothInside (c : Config) : Bool := c.host = .inside && c.script = .inside

/-- The configuration the constructor leaves when the host thread runs it: the
host owns the execution mutex and is in control; the script thread has yet to
wait for its turn. -/
def initialConfig : Config :=
  { mutexes := newMutexes .host, host := .inside, script := .waitW }

/-- A thread that has passed the wait for the execution mutex owns it. -/
def execOwned (c : Config) : Prop :=
  ∀ t, (c.phase t = .releaseW ∨ c.phase t = .inside) → c.mutexes.hExecMutex.owner = some t

/-! ## Theorems -/

theorem check_ntv_cons (st : State) (d : Nat) (rest : List LuaValue) (dst : ntv_data)
    (hd : st.ntv[d]? = some dst) : check_ntv st (.ntv d :: rest) 1 = some (d, dst) := by
  simp [check_ntv, lua_index, hd]

theorem check_ntv_cons2 (st : State) (v : LuaValue) (s : Nat) (rest : List LuaValue)
    (src : ntv_data) (hs : st.ntv[s]? = some src) :
    check_ntv st (v :: .ntv s :: rest) 2 = some (s, src) := by
  simp [check_ntv, lua_index, hs]

theorem check_index_cons (st : State) (d : Nat) (rest : List LuaValue) (dst : index_data)
    (hd : st.idx[d]? = some dst) : check_index st (.index d :: rest) 1 = some (d, dst) := by
  simp [check_index, lua_index, hd]

/-! ### Storage lemmas -/

theorem set_same {α : Type} (l : List α) (i : Nat) (a : α) (h : l[i]? = some a) :
    l.set i a = l := by
  apply List.ext_getElem?
  intro j
  by_cases hij : i = j
  · subst hij
    rw [List.getElem?_set_self', h]
    simp
  · rw [List.getElem?_set_ne hij]

theorem cells_set_same {α : Type} (m : Mem α) (b : Nat) (v : Option (List α))
    (hb : b < m.length) : cells (m.set b v) b = v := by
  unfold cells
  rw [List.getElem?_set_self hb]
  cases v <;> rfl

theorem cells_lt {α : Type} {m : Mem α} {b : Nat} {cs : List α} (hc : cells m b = some cs) :
    b < m.length := by
  unfold cells at hc
  by_contra hge
  rw [List.getElem?_eq_none (Nat.le_of_not_lt hge)] at hc
  simp at hc

theorem cells_set_other {α : Type} (m : Mem α) (b b1 : Nat) (v : Option (List α))
    (hne : b ≠ b1) : cells (m.set b v) b1 = cells m b1 := by
  unfold cells
  rw [List.getElem?_set_ne hne]

theorem readMem_one {α : Type} (m : Mem α) (b k : Nat) (cs : List α) (c : α)
    (hc : cells m b = some cs) (hk : cs[k]? = some c) :
    readMem m (some { block := b, off := (k : Int) }) 1 = some [c] := by
  have hlt : k < cs.length := (List.getElem?_eq_some.mp hk).1
  have hget : cs[k] = c := (List.getElem?_eq_some.mp hk).2
  unfold readMem
  simp only [hc]
  have h1 : (0 : Int) ≤ (k : Int) ∧ (0 : Int) < 1 ∧ (k : Int) + 1 ≤ (cs.length : Int) := by
    omega
  simp only [h1, and_self, if_true]
  simp only [Int.toNat_ofNat, Int.toNat_one, one_ne_zero, if_false]
  rw [List.drop_eq_getElem_cons hlt, hget]
  simp

theorem writeMem_one {α : Type} (m : Mem α) (b k : Nat) (cs : List α) (r : α)
    (hc : cells m b = some cs) (hk : k < cs.length) :
    writeMem m (some { block := b, off := (k : Int) }) [r] =
      some (m.set b (some (cs.set k r))) := by
  unfold writeMem
  simp only [hc]
  have h1 : (0 : Int) ≤ (k : Int) ∧ (k : Int) + (([r] : List α).length : Nat) ≤ (cs.length : Int) := by
    simp only [List.length_singleton]
    omega
  simp only [h1, and_self, if_true]
  simp only [Int.toNat_ofNat, List.length_singleton]
  have hset : cs.take k ++ [r] ++ cs.drop (k + 1) = cs.set k r := by
    rw [List.set_eq_take_append_cons_drop, if_pos hk]
    simp
  rw [hset]

theorem peek_valid (m : Mem NTVERTEX) (b k : Nat) (cs : List NTVERTEX) (c : NTVERTEX)
    (hc : cells m b = some cs) (hk : cs[k]? = some c) :
    peek m (some { block := b, off := (k : Int) }) = some c := by
  unfold peek
  rw [readMem_one m b k cs c hc hk]

theorem pokeField_valid (m : Mem NTVERTEX) (b k : Nat) (cs : List NTVERTEX) (c : NTVERTEX)
    (f : Field) (n : Int) (hc : cells m b = some cs) (hk : cs[k]? = some c) :
    pokeField m (some { block := b, off := (k : Int) }) f n =
      some (m.set b (some (cs.set k (c.set f n)))) := by
  unfold pokeField
  rw [peek_valid m b k cs c hc hk]
  exact writeMem_one m b k cs _ hc (List.getElem?_eq_some.mp hk).1

theorem cells_get {α : Type} {m : Mem α} {b : Nat} {cs : List α} (hc : cells m b = some cs) :
    m[b]? = some (some cs) := by
  unfold cells at hc
  split at hc
  · next h => simp at hc; rw [h, hc]
  · simp at hc

theorem set_fields_valid (b k : Nat) (flds : List (LuaKey × LuaValue)) (vals : Field → Int)
    (hv : ∀ f : Field, tonumber (rawget flds (.str f.name)) = some (vals f)) :
    ∀ (fs : List Field) (st : State) (cs : List NTVERTEX) (c : NTVERTEX),
      cells st.vmem b = some cs → cs[k]? = some c →
      set_fields (some { block := b, off := (k : Int) }) (.table flds) fs st =
        .ok { st with vmem := (st.vmem.set b
                (some (cs.set k (fs.foldl (fun r f => r.set f (vals f)) c)))) } [] := by
  intro fs
  induction fs with
  | nil =>
    intro st cs c hc hk
    simp only [set_fields, List.foldl_nil]
    rw [set_same cs k c hk, set_same st.vmem b (some cs) (cells_get hc)]
  | cons f fs ih =>
    intro st cs c hc hk
    have hlt : k < cs.length := (List.getElem?_eq_some.mp hk).1
    simp only [set_fields, lua_getfield, hv f, pokeField_valid st.vmem b k cs c f (vals f) hc hk,
      List.foldl_cons]
    rw [ih { st with vmem := st.vmem.set b (some (cs.set k (c.set f (vals f)))) }
      (cs.set k (c.set f (vals f))) (c.set f (vals f))
      (cells_set_same st.vmem b _ (cells_lt hc))
      (by rw [List.getElem?_set_self hlt])]
    simp only [List.set_set]

theorem foldl_allFields (vals : Field → Int) (c : NTVERTEX) :
    allFields.foldl (fun r f => r.set f (vals f)) c =
      { x := vals .x, y := vals .y, z := vals .z, nx := vals .nx, ny := vals .ny,
        nz := vals .nz, tu := vals .tu, tv := vals .tv } := by
  rfl

theorem ntvproxy_set_valid (st : State) (b k : Nat) (cs : List NTVERTEX) (c : NTVERTEX)
    (f : Field) (n : Int) (hc : cells st.vmem b = some cs) (hk : cs[k]? = some c) :
    ntvproxy_set st [.ntvproxy (some { block := b, off := (k : Int) }), .string f.name, .number n] =
      .ok { st with vmem := st.vmem.set b (some (cs.set k (c.set f n))) } [] := by
  have hp := pokeField_valid st.vmem b k cs c f n hc hk
  cases f <;>
    simp [ntvproxy_set, lua_index, Field.name, tonumber, hp]

/-! ### Views -/

theorem ntv_view_cases (st : State) (a : Nat) (rest : List LuaValue) (frm : ntv_data)
    (ha : st.ntv[a]? = some frm) (start len resolved : Int)
    (hstart : start = lua_tointeger (lua_index (.ntv a :: rest) 2))
    (hlen : len = lua_tointeger (lua_index (.ntv a :: rest) 3))
    (hres : resolved = if len = 0 then frm.nVtxUsed - (start - 1) else len) :
    ((ntv_view st (.ntv a :: rest)).raises ↔
        (len < 0 ∨ (start - 1) + resolved > frm.nVtx)) ∧
      (¬ (len < 0 ∨ (start - 1) + resolved > frm.nVtx) →
        ntv_view st (.ntv a :: rest) =
          .ok { st with ntv := st.ntv ++
                  [{ vtx := ptrAdd frm.vtx (start - 1), nVtx := resolved,
                     nVtxUsed := resolved, owning := false }] }
              [.ntv st.ntv.length]) := by
  have h1 := check_ntv_cons st a rest frm ha
  unfold ntv_view
  rw [h1]
  simp only [← hstart, ← hlen, new_ntv]
  by_cases hneg : len < 0
  · simp [hneg, Outcome.raises]
  · simp only [hneg, if_false, false_or]
    rw [← hres]
    by_cases hc : start - 1 + resolved > frm.nVtx
    · simp [hc, Outcome.raises]
    · simp [hc, Outcome.raises]

/-- What a view that was returned looks like. -/
theorem ntv_view_ok (st : State) (a : Nat) (frm : ntv_data) (start len : Int) (st1 : State)
    (ret : List LuaValue) (ha : st.ntv[a]? = some frm)
    (hview : ntv_view st [.ntv a, .number start, .number len] = .ok st1 ret) :
    ∃ size : Int, size = (if len = 0 then frm.nVtxUsed - (start - 1) else len) ∧
      0 ≤ len ∧ (start - 1) + size ≤ frm.nVtx ∧
      st1 = { st with ntv := st.ntv ++
                  [{ vtx := ptrAdd frm.vtx (start - 1), nVtx := size,
                     nVtxUsed := size, owning := false }] } ∧
      ret = [.ntv st.ntv.length] := by
  have hc := ntv_view_cases st a [.number start, .number len] frm ha start len
    (if len = 0 then frm.nVtxUsed - (start - 1) else len) rfl rfl rfl
  refine ⟨_, rfl, ?_⟩
  by_cases hbad : len < 0 ∨ (start - 1) + (if len = 0 then frm.nVtxUsed - (start - 1) else len)
      > frm.nVtx
  · have hr := hc.1.mpr hbad
    rw [hview] at hr
    simp [Outcome.raises] at hr
  · have hok := hc.2 hbad
    rw [hview] at hok
    simp only [Outcome.ok.injEq] at hok
    rw [not_or] at hbad
    exact ⟨by omega, by omega, hok.1, hok.2⟩


/-- C1: for vertex arrays `dst` and `src`, `ntv_append(dst, src)` raises an error
exactly when `dst.nVtxUsed + src.nVtxUsed > dst.nVtx`, and when it raises the
whole state, hence the userdata of `dst`, is as before the call. -/
theorem ntv_append_raises_iff (st : State) (d s : Nat) (rest : List LuaValue)
    (dst src : ntv_data) (hd : st.ntv[d]? = some dst) (hs : st.ntv[s]? = some src) :
    ((ntv_append st (.ntv d :: .ntv s :: rest)).raises ↔
        dst.nVtxUsed + src.nVtxUsed > dst.nVtx) ∧
      (∀ msg st1, ntv_append st (.ntv d :: .ntv s :: rest) = .error msg st1 →
        st1 = st ∧ st1.ntv[d]? = some dst) := by
  have h1 := check_ntv_cons st d (.ntv s :: rest) dst hd
  have h2 := check_ntv_cons2 st (.ntv d) s rest src hs
  unfold ntv_append
  rw [h1, h2]
  simp only
  by_cases hc : dst.nVtxUsed + src.nVtxUsed > dst.nVtx
  · simp [hc, Outcome.raises]
    exact hd
  · simp only [hc, if_false]
    cases hm : memcpy st.vmem (ptrAdd dst.vtx dst.nVtxUsed) src.vtx src.nVtxUsed <;>
      simp [Outcome.raises]

/-- C1 at a concrete input: appending the full 2-record array to the full
4-record array of `twoArrays`. -/
theorem ntv_append_raises_iff_witness :
    twoArrays.ntv[0]? =
        some { vtx := some { block := 0, off := 0 }, nVtx := 4, nVtxUsed := 4, owning := true } ∧
      twoArrays.ntv[1]? =
        some { vtx := some { block := 1, off := 0 }, nVtx := 2, nVtxUsed := 2, owning := true } ∧
      (((ntv_append twoArrays [.ntv 0, .ntv 1]).raises ↔ (4 : Int) + 2 > 4) ∧
        (∀ msg st1, ntv_append twoArrays [.ntv 0, .ntv 1] = .error msg st1 →
          st1 = twoArrays ∧ st1.ntv[0]? =
            some { vtx := some { block := 0, off := 0 }, nVtx := 4, nVtxUsed := 4,
                   owning := true })) :=
  ⟨rfl, rfl, ntv_append_raises_iff twoArrays 0 1 [] _ _ rfl rfl⟩

/-- Release and finaliser of a vertex array, for C4. -/
theorem ntv_release_idempotent (st : State) (id : Nat) (rest : List LuaValue) (inst : ntv_data)
    (h : st.ntv[id]? = some inst) :
    (inst.owning = false →
      oapi_del_ntvertexarray st (.ntv id :: rest) =
          .ok (put_ntv st id { inst with vtx := none }) [] ∧
        ntv_collect st (.ntv id :: rest) = .ok st []) ∧
    (∀ st1 ret, oapi_del_ntvertexarray st (.ntv id :: rest) = .ok st1 ret →
      st1.ntv[id]? = some { inst with owning := false, vtx := none } ∧
      (inst.owning = true → deleteArray st.vmem inst.vtx = some st1.vmem) ∧
      (inst.owning = false → st1.vmem = st.vmem) ∧
      oapi_del_ntvertexarray st1 (.ntv id :: rest) = .ok st1 [] ∧
      ntv_collect st1 (.ntv id :: rest) = .ok st1 []) ∧
    (∀ b cs, inst.owning = true → inst.vtx = some { block := b, off := 0 } →
      cells st.vmem b = some cs →
      ∃ st1, oapi_del_ntvertexarray st (.ntv id :: rest) = .ok st1 [] ∧
        cells st1.vmem b = none) := by
  have h1 := check_ntv_cons st id rest inst h
  have hlt : id < st.ntv.length := by
    rcases List.getElem?_eq_some.mp h with ⟨hlt, _⟩
    exact hlt
  refine ⟨?_, ?_, ?_⟩
  · intro hown
    simp [oapi_del_ntvertexarray, ntv_collect, h1, hown]
  rotate_left
  · intro b cs hown hv hc
    have hb : b < st.vmem.length := by
      unfold cells at hc
      by_contra hge
      rw [List.getElem?_eq_none (Nat.le_of_not_lt hge)] at hc
      simp at hc
    refine ⟨put_ntv { st with vmem := st.vmem.set b none } id
      { inst with owning := false, vtx := none }, ?_, ?_⟩
    · simp [oapi_del_ntvertexarray, h1, hown, hv, deleteArray, hc]
    · simp only [put_ntv]
      exact cells_set_same st.vmem b none hb
  · intro st1 ret hdel
    have key : ∀ (s : State), s.ntv[id]? = some { inst with owning := false, vtx := none } →
        oapi_del_ntvertexarray s (.ntv id :: rest) = .ok s [] ∧
        ntv_collect s (.ntv id :: rest) = .ok s [] := by
      intro s hs
      have h2 := check_ntv_cons s id rest _ hs
      simp only [oapi_del_ntvertexarray, ntv_collect, h2, put_ntv]
      simp
      cases s
      simp at hs ⊢
      exact set_same _ _ _ hs
    unfold oapi_del_ntvertexarray at hdel
    rw [h1] at hdel
    simp only at hdel
    by_cases hown : inst.owning = true
    · simp only [hown, if_true] at hdel
      cases hm : deleteArray st.vmem inst.vtx with
      | none => simp [hm] at hdel
      | some m =>
        simp only [hm, Outcome.ok.injEq] at hdel
        obtain ⟨hst, _⟩ := hdel
        subst hst
        have hs : (put_ntv { st with vmem := m } id
            { inst with owning := false, vtx := none }).ntv[id]? =
            some { inst with owning := false, vtx := none } := by
          simp [put_ntv, List.getElem?_set_self hlt]
        refine ⟨hs, ?_, ?_, key _ hs⟩
        · intro _; simp [put_ntv]
        · intro hf; simp [hf] at hown
    · have hown2 : inst.owning = false := by simpa using hown
      simp only [hown2] at hdel
      simp only [Bool.false_eq_true, if_false, Outcome.ok.injEq] at hdel
      obtain ⟨hst, _⟩ := hdel
      subst hst
      have hs : (put_ntv st id { inst with vtx := none, owning := false }).ntv[id]? =
          some { inst with owning := false, vtx := none } := by
        simp [put_ntv, List.getElem?_set_self hlt]
      refine ⟨hs, ?_, ?_, key _ hs⟩
      · intro hf; simp [hf] at hown
      · intro _; simp [put_ntv]

/-- Release and finaliser of an index array, for C4. -/
theorem idx_release_idempotent (st : State) (id : Nat) (rest : List LuaValue) (inst : index_data)
    (h : st.idx[id]? = some inst) :
    (inst.owning = false →
      oapi_del_indexarray st (.index id :: rest) =
          .ok (put_index st id { inst with idx := none }) [] ∧
        idx_collect st (.index id :: rest) = .ok st []) ∧
    (∀ st1 ret, oapi_del_indexarray st (.index id :: rest) = .ok st1 ret →
      st1.idx[id]? = some { inst with owning := false, idx := none } ∧
      (inst.owning = true → deleteArray st.imem inst.idx = some st1.imem) ∧
      (inst.owning = false → st1.imem = st.imem) ∧
      oapi_del_indexarray st1 (.index id :: rest) = .ok st1 [] ∧
      idx_collect st1 (.index id :: rest) = .ok st1 []) ∧
    (∀ b cs, inst.owning = true → inst.idx = some { block := b, off := 0 } →
      cells st.imem b = some cs →
      ∃ st1, oapi_del_indexarray st (.index id :: rest) = .ok st1 [] ∧
        cells st1.imem b = none) := by
  have h1 := check_index_cons st id rest inst h
  have hlt : id < st.idx.length := by
    rcases List.getElem?_eq_some.mp h with ⟨hlt, _⟩
    exact hlt
  refine ⟨?_, ?_, ?_⟩
  · intro hown
    simp [oapi_del_indexarray, idx_collect, h1, hown]
  rotate_left
  · intro b cs hown hv hc
    have hb : b < st.imem.length := by
      unfold cells at hc
      by_contra hge
      rw [List.getElem?_eq_none (Nat.le_of_not_lt hge)] at hc
      simp at hc
    refine ⟨put_index { st with imem := st.imem.set b none } id
      { inst with owning := false, idx := none }, ?_, ?_⟩
    · simp [oapi_del_indexarray, h1, hown, hv, deleteArray, hc]
    · simp only [put_index]
      exact cells_set_same st.imem b none hb
  · intro st1 ret hdel
    have key : ∀ (s : State), s.idx[id]? = some { inst with owning := false, idx := none } →
        oapi_del_indexarray s (.index id :: rest) = .ok s [] ∧
        idx_collect s (.index id :: rest) = .ok s [] := by
      intro s hs
      have h2 := check_index_cons s id rest _ hs
      simp only [oapi_del_indexarray, idx_collect, h2, put_index]
      simp
      cases s
      simp at hs ⊢
      exact set_same _ _ _ hs
    unfold oapi_del_indexarray at hdel
    rw [h1] at hdel
    simp only at hdel
    by_cases hown : inst.owning = true
    · simp only [hown, if_true] at hdel
      cases hm : deleteArray st.imem inst.idx with
      | none => simp [hm] at hdel
      | some m =>
        simp only [hm, Outcome.ok.injEq] at hdel
        obtain ⟨hst, _⟩ := hdel
        subst hst
        have hs : (put_index { st with imem := m } id
            { inst with owning := false, idx := none }).idx[id]? =
            some { inst with owning := false, idx := none } := by
          simp [put_index, List.getElem?_set_self hlt]
        refine ⟨hs, ?_, ?_, key _ hs⟩
        · intro _; simp [put_index]
        · intro hf; simp [hf] at hown
    · have hown2 : inst.owning = false := by simpa using hown
      simp only [hown2] at hdel
      simp only [Bool.false_eq_true, if_false, Outcome.ok.injEq] at hdel
      obtain ⟨hst, _⟩ := hdel
      subst hst
      have hs : (put_index st id { inst with idx := none, owning := false }).idx[id]? =
          some { inst with owning := false, idx := none } := by
        simp [put_index, List.getElem?_set_self hlt]
      refine ⟨hs, ?_, ?_, key _ hs⟩
      · intro hf; simp [hf] at hown
      · intro _; simp [put_index]


/-- C4: release is idempotent and never frees twice. For a vertex array and for
an index array: release of a non-owning array and its finaliser free nothing;
a release that returns leaves the array non-owning with a null pointer, has
freed the storage exactly when the array was owning, and a second release and
the finaliser then return with the state unchanged; release of an owning array
whose pointer is the start of a live block returns and frees that block. -/
theorem release_idempotent (st : State) (id : Nat) (rest : List LuaValue) (inst : ntv_data)
    (iid : Nat) (irest : List LuaValue) (iinst : index_data)
    (h : st.ntv[id]? = some inst) (hi : st.idx[iid]? = some iinst) :
    ((inst.owning = false →
      oapi_del_ntvertexarray st (.ntv id :: rest) =
          .ok (put_ntv st id { inst with vtx := none }) [] ∧
        ntv_collect st (.ntv id :: rest) = .ok st []) ∧
    (∀ st1 ret, oapi_del_ntvertexarray st (.ntv id :: rest) = .ok st1 ret →
      st1.ntv[id]? = some { inst with owning := false, vtx := none } ∧
      (inst.owning = true → deleteArray st.vmem inst.vtx = some st1.vmem) ∧
      (inst.owning = false → st1.vmem = st.vmem) ∧
      oapi_del_ntvertexarray st1 (.ntv id :: rest) = .ok st1 [] ∧
      ntv_collect st1 (.ntv id :: rest) = .ok st1 []) ∧
    (∀ b cs, inst.owning = true → inst.vtx = some { block := b, off := 0 } →
      cells st.vmem b = some cs →
      ∃ st1, oapi_del_ntvertexarray st (.ntv id :: rest) = .ok st1 [] ∧
        cells st1.vmem b = none)) ∧
    ((iinst.owning = false →
      oapi_del_indexarray st (.index iid :: irest) =
          .ok (put_index st iid { iinst with idx := none }) [] ∧
        idx_collect st (.index iid :: irest) = .ok st []) ∧
    (∀ st1 ret, oapi_del_indexarray st (.index iid :: irest) = .ok st1 ret →
      st1.idx[iid]? = some { iinst with owning := false, idx := none } ∧
      (iinst.owning = true → deleteArray st.imem iinst.idx = some st1.imem) ∧
      (iinst.owning = false → st1.imem = st.imem) ∧
      oapi_del_indexarray st1 (.index iid :: irest) = .ok st1 [] ∧
      idx_collect st1 (.index iid :: irest) = .ok st1 []) ∧
    (∀ b cs, iinst.owning = true → iinst.idx = some { block := b, off := 0 } →
      cells st.imem b = some cs →
      ∃ st1, oapi_del_indexarray st (.index iid :: irest) = .ok st1 [] ∧
        cells st1.imem b = none)) :=
  ⟨ntv_release_idempotent st id rest inst h, idx_release_idempotent st iid irest iinst hi⟩

/-- C4 at a concrete input: the owned arrays 0 of `twoArrays`. -/
theorem release_idempotent_witness :
    twoArrays.ntv[0]? =
        some { vtx := some { block := 0, off := 0 }, nVtx := 4, nVtxUsed := 4, owning := true } ∧
      twoArrays.idx[0]? =
        some { idx := some { block := 0, off := 0 }, nIdx := 3, nIdxUsed := 3, owning := true } ∧
      (∃ st1, oapi_del_ntvertexarray twoArrays [.ntv 0] = .ok st1 [] ∧
        cells st1.vmem 0 = none) ∧
      (∃ st1, oapi_del_indexarray twoArrays [.index 0] = .ok st1 [] ∧
        cells st1.imem 0 = none) :=
  ⟨rfl, rfl,
    (release_idempotent twoArrays 0 [] _ 0 [] _ rfl rfl).1.2.2 0 _ rfl rfl rfl,
    (release_idempotent twoArrays 0 [] _ 0 [] _ rfl rfl).2.2.2 0 _ rfl rfl rfl⟩

/-- C6, amended: views alias their source. Let the storage of `a` be live and
hold `a.nVtx` records from offset `off` of block `b`, let `start ≥ 1`, let
`v = ntv_view(a, start, len)` be returned and `1 ≤ i ≤ v.nVtxUsed`. Then
`ntv_set(v, i, record)` returns and replaces exactly the cell of record
`start - 1 + i` of `a` (cell `k = off + (start - 1 + i) - 1` of the block) by
the written record; `ntv_extract(a, start - 1 + i)` then returns that record
provided `start - 1 + i ≤ a.nVtxUsed`; and the element proxy `v[i]` points to
the same cell, so a field set through it changes that field of that cell. -/
theorem view_aliasing (st : State) (a : Nat) (frm : ntv_data) (b off : Nat)
    (cs : List NTVERTEX) (start len : Int) (st1 : State) (v : Nat) (vd : ntv_data)
    (i : Int) (flds : List (LuaKey × LuaValue)) (r : NTVERTEX)
    (ha : st.ntv[a]? = some frm)
    (hvtx : frm.vtx = some { block := b, off := (off : Int) })
    (hcells : cells st.vmem b = some cs)
    (hfit : (off : Int) + frm.nVtx ≤ cs.length)
    (hstart : 1 ≤ start)
    (hview : ntv_view st [.ntv a, .number start, .number len] = .ok st1 [.ntv v])
    (hvd : st1.ntv[v]? = some vd)
    (hi : 1 ≤ i ∧ i ≤ vd.nVtxUsed)
    (hrec : ∀ f : Field, tonumber (rawget flds (.str f.name)) = some (r.get f)) :
    ∃ k : Nat, (k : Int) = off + (start - 1 + i) - 1 ∧ k < cs.length ∧
      ntv_set st1 [.ntv v, .number i, .table flds] =
        .ok { st1 with vmem := st.vmem.set b (some (cs.set k r)) } [] ∧
      (start - 1 + i ≤ frm.nVtxUsed →
        ntv_extract { st1 with vmem := st.vmem.set b (some (cs.set k r)) }
            [.ntv a, .number (start - 1 + i)] =
          .ok { st1 with vmem := st.vmem.set b (some (cs.set k r)) } [vertexTable r]) ∧
      ntv_get st1 [.ntv v, .number i] =
        .ok st1 [.ntvproxy (some { block := b, off := (k : Int) })] ∧
      (∀ (f : Field) (n : Int) (c : NTVERTEX), cs[k]? = some c →
        ntvproxy_set st1 [.ntvproxy (some { block := b, off := (k : Int) }), .string f.name,
            .number n] =
          .ok { st1 with vmem := st.vmem.set b (some (cs.set k (c.set f n))) } []) := by
  obtain ⟨size, hsize, hlen0, hle, hst1, hret⟩ := ntv_view_ok st a frm start len st1 _ ha hview
  have halt : a < st.ntv.length := (List.getElem?_eq_some.mp ha).1
  have hv : v = st.ntv.length := by simpa using hret
  have hm : st1.vmem = st.vmem := by rw [hst1]
  have hnt : st1.ntv = st.ntv ++ [(ntv_data.mk (ptrAdd frm.vtx (start - 1)) size size false)] := by
    rw [hst1]
  have hvd2 : vd = ntv_data.mk (ptrAdd frm.vtx (start - 1)) size size false := by
    rw [hnt, hv] at hvd
    simp at hvd
    exact hvd.symm
  have ha1 : st1.ntv[a]? = some frm := by
    rw [hnt, List.getElem?_append_left halt]
    exact ha
  rw [hvd2] at hi
  simp only at hi
  have hknn : 0 ≤ (off : Int) + (start - 1 + i) - 1 := by omega
  have hklt : ((off : Int) + (start - 1 + i) - 1).toNat < cs.length := by
    have h2 : ((((off : Int) + (start - 1 + i) - 1).toNat : Nat) : Int) < (cs.length : Int) := by
      rw [Int.toNat_of_nonneg hknn]; omega
    exact_mod_cast h2
  have hc : cs[((off : Int) + (start - 1 + i) - 1).toNat]? =
      some cs[((off : Int) + (start - 1 + i) - 1).toNat] := List.getElem?_eq_getElem hklt
  have hcells1 : cells st1.vmem b = some cs := by rw [hm]; exact hcells
  have hpv : ptrAdd vd.vtx (i - 1) =
      some { block := b, off := ((((off : Int) + (start - 1 + i) - 1).toNat : Nat) : Int) } := by
    rw [Int.toNat_of_nonneg hknn, hvd2, hvtx]
    simp only [ptrAdd, Option.map_some', Option.some.injEq, Ptr.mk.injEq, true_and]
    omega
  refine ⟨((off : Int) + (start - 1 + i) - 1).toNat, Int.toNat_of_nonneg hknn, hklt, ?_, ?_, ?_, ?_⟩
  · have hp : ptrAdd vd.vtx (i - 1) =
        some { block := b, off := ((((off : Int) + (start - 1 + i) - 1).toNat : Nat) : Int) } := by
      rw [Int.toNat_of_nonneg hknn, hvd2, hvtx]
      simp only [ptrAdd, Option.map_some', Option.some.injEq, Ptr.mk.injEq, true_and]
      omega
    have hck := check_ntv_cons st1 v [.number i, .table flds] vd hvd
    have hsf := set_fields_valid b _ flds r.get hrec allFields st1 cs _ hcells1 hc
    rw [foldl_allFields, hm] at hsf
    unfold ntv_set
    rw [hck]
    simp only [lua_index, List.getD_cons_succ, List.getD_cons_zero, tonumber, hvd2, hi, and_self,
      not_true_eq_false, if_false]
    rw [hvd2] at hp
    rw [hp, hsf]
    rfl
  · intro hused
    have hp : ptrAdd frm.vtx (start - 1 + i - 1) =
        some { block := b, off := ((((off : Int) + (start - 1 + i) - 1).toNat : Nat) : Int) } := by
      rw [Int.toNat_of_nonneg hknn, hvtx]
      simp only [ptrAdd, Option.map_some', Option.some.injEq, Ptr.mk.injEq, true_and]
      omega
    have hck := check_ntv_cons { st1 with vmem := (st.vmem.set b
        (some (cs.set ((off : Int) + (start - 1 + i) - 1).toNat r))) } a
        [.number (start - 1 + i)] frm ha1
    unfold ntv_extract
    rw [hck]
    have hrange : 1 ≤ start - 1 + i ∧ start - 1 + i ≤ frm.nVtxUsed := by omega
    simp only [lua_index, List.getD_cons_succ, List.getD_cons_zero, tonumber, hrange, and_self,
      not_true_eq_false, if_false, hp]
    rw [peek_valid _ b _ (cs.set ((off : Int) + (start - 1 + i) - 1).toNat r) r
      (cells_set_same st.vmem b _ (cells_lt hcells)) (by rw [List.getElem?_set_self hklt])]
  · have hck := check_ntv_cons st1 v [.number i] vd hvd
    unfold ntv_get
    rw [hck]
    simp only [lua_index, List.getD_cons_succ, List.getD_cons_zero, tonumber]
    rw [hvd2] at hpv
    simp only [hvd2, hi, and_self, not_true_eq_false, if_false, hpv]
  · intro f n c hck
    have h := ntvproxy_set_valid st1 b _ cs c f n hcells1 hck
    rw [hm] at h
    exact h

/-- C3, counterexample: after `create_ntvertexarray(4)` the array is full
(`nVtxUsed = 4`), so appending a 2-record array raises the capacity error
instead of leaving `used = 2`. -/
theorem scenario_append_after_create_raises :
    ∃ st1 st2,
      oapi_create_ntvertexarray emptyState [.number 4] = .ok st1 [.ntv 0] ∧
      oapi_create_ntvertexarray st1 [.number 2] = .ok st2 [.ntv 1] ∧
      ntv_size st2 [.ntv 0] = .ok st2 [.number 4] ∧
      ntv_size st2 [.ntv 1] = .ok st2 [.number 2] ∧
      ntv_append st2 [.ntv 0, .ntv 1] =
        .error "Cannot append ntvertexarray, not enough room" st2 :=
  ⟨_, _, rfl, rfl, rfl, rfl, rfl⟩

/-- C3, amended: with a `reset` of the new array before the first append the
scenario runs as described: create(4), reset, append of a 2-record array
leaves `used = 2`, `write(dst, src2, 3)` with a 2-record `src2` leaves
`used = 4`, and appending a 1-record array raises the capacity error with
`used` still 4. -/
theorem scenario_with_reset :
    ∃ st1 st2 st3 st4 st5 st6 st7,
      oapi_create_ntvertexarray emptyState [.number 4] = .ok st1 [.ntv 0] ∧
      ntv_reset st1 [.ntv 0] = .ok st2 [] ∧
      oapi_create_ntvertexarray st2 [.number 2] = .ok st3 [.ntv 1] ∧
      ntv_append st3 [.ntv 0, .ntv 1] = .ok st4 [] ∧
      ntv_size st4 [.ntv 0] = .ok st4 [.number 2] ∧
      oapi_create_ntvertexarray st4 [.number 2] = .ok st5 [.ntv 2] ∧
      ntv_write st5 [.ntv 0, .ntv 2, .number 3] = .ok st6 [] ∧
      ntv_size st6 [.ntv 0] = .ok st6 [.number 4] ∧
      oapi_create_ntvertexarray st6 [.number 1] = .ok st7 [.ntv 3] ∧
      ntv_append st7 [.ntv 0, .ntv 3] =
        .error "Cannot append ntvertexarray, not enough room" st7 ∧
      ntv_size st7 [.ntv 0] = .ok st7 [.number 4] :=
  ⟨_, _, _, _, _, _, _, rfl, rfl, rfl, rfl, rfl, rfl, rfl, rfl, rfl, rfl, rfl⟩

/-- C5, counterexample: after the release of an owning 4-record vertex array
and of an owning 3-entry index array, `size` still reads 4 and 3. -/
theorem size_after_release_not_zero :
    ∃ st1 st2,
      oapi_del_ntvertexarray twoArrays [.ntv 0] = .ok st1 [] ∧
      ntv_size st1 [.ntv 0] = .ok st1 [.number 4] ∧
      oapi_del_indexarray twoArrays [.index 0] = .ok st2 [] ∧
      idx_size st2 [.index 0] = .ok st2 [.number 3] :=
  ⟨_, _, rfl, rfl, rfl, rfl⟩

/-- C5, amended: for an owning vertex array and an owning index array whose
pointer is the start of a live block, release returns and the count read
through `size` afterwards is the used-count from before the release. -/
theorem size_after_release (st : State) (id : Nat) (rest : List LuaValue) (inst : ntv_data)
    (b : Nat) (cs : List NTVERTEX) (iid : Nat) (irest : List LuaValue) (iinst : index_data)
    (ib : Nat) (ics : List WORD)
    (h : st.ntv[id]? = some inst) (hown : inst.owning = true)
    (hv : inst.vtx = some { block := b, off := 0 }) (hc : cells st.vmem b = some cs)
    (hi : st.idx[iid]? = some iinst) (hiown : iinst.owning = true)
    (hiv : iinst.idx = some { block := ib, off := 0 }) (hic : cells st.imem ib = some ics) :
    (∃ st1, oapi_del_ntvertexarray st (.ntv id :: rest) = .ok st1 [] ∧
      ntv_size st1 (.ntv id :: rest) = .ok st1 [.number inst.nVtxUsed]) ∧
    (∃ st1, oapi_del_indexarray st (.index iid :: irest) = .ok st1 [] ∧
      idx_size st1 (.index iid :: irest) = .ok st1 [.number iinst.nIdxUsed]) := by
  constructor
  · obtain ⟨st1, hdel, _⟩ := (ntv_release_idempotent st id rest inst h).2.2 b cs hown hv hc
    have hent := ((ntv_release_idempotent st id rest inst h).2.1 st1 [] hdel).1
    refine ⟨st1, hdel, ?_⟩
    simp [ntv_size, check_ntv_cons st1 id rest _ hent]
  · obtain ⟨st1, hdel, _⟩ := (idx_release_idempotent st iid irest iinst hi).2.2 ib ics hiown hiv hic
    have hent := ((idx_release_idempotent st iid irest iinst hi).2.1 st1 [] hdel).1
    refine ⟨st1, hdel, ?_⟩
    simp [idx_size, check_index_cons st1 iid irest _ hent]

/-- C5 at a concrete input: the owned arrays 0 of `twoArrays`. -/
theorem size_after_release_witness :
    twoArrays.ntv[0]? =
        some { vtx := some { block := 0, off := 0 }, nVtx := 4, nVtxUsed := 4, owning := true } ∧
      cells twoArrays.vmem 0 = some (List.replicate 4 NTVERTEX.zero) ∧
      twoArrays.idx[0]? =
        some { idx := some { block := 0, off := 0 }, nIdx := 3, nIdxUsed := 3, owning := true } ∧
      cells twoArrays.imem 0 = some (List.replicate 3 0) ∧
      ((∃ st1, oapi_del_ntvertexarray twoArrays [.ntv 0] = .ok st1 [] ∧
        ntv_size st1 [.ntv 0] = .ok st1 [.number 4]) ∧
      (∃ st1, oapi_del_indexarray twoArrays [.index 0] = .ok st1 [] ∧
        idx_size st1 [.index 0] = .ok st1 [.number 3])) :=
  ⟨rfl, rfl, rfl, rfl,
    size_after_release twoArrays 0 [] _ 0 _ 0 [] _ 0 _ rfl rfl rfl rfl rfl rfl rfl rfl⟩

/-- C6, counterexample: `a` has capacity 4 and, after `reset`, used-count 0;
`view(a, 1, 4)` is returned with used-count 4; `ntv_set(v, 1, record)`
returns; but reading `a` at index `1 - 1 + 1 = 1` raises "index out of range",
through `ntv_extract` and through `ntv_get`. -/
theorem view_write_not_readable :
    ∃ st1 st2 st3,
      ntv_reset twoArrays [.ntv 0] = .ok st1 [] ∧
      ntv_view st1 [.ntv 0, .number 1, .number 4] = .ok st2 [.ntv 2] ∧
      ntv_size st2 [.ntv 2] = .ok st2 [.number 4] ∧
      ntv_set st2 [.ntv 2, .number 1, vertexTable sampleVertex] = .ok st3 [] ∧
      ntv_extract st3 [.ntv 0, .number 1] = .error (badArgument 2 "index out of range") st3 ∧
      (ntv_get st3 [.ntv 0, .number 1]).raises :=
  ⟨_, _, _, rfl, rfl, rfl, rfl, rfl, by decide⟩

/-- C6 at a concrete input: record 1 of the view `view(a, 2, 2)` is record 2
of the 4-record array `a`. -/
theorem view_aliasing_witness :
    twoArrays.ntv[0]? =
        some { vtx := some { block := 0, off := ((0 : Nat) : Int) }, nVtx := 4, nVtxUsed := 4,
               owning := true } ∧
      cells twoArrays.vmem 0 = some (List.replicate 4 NTVERTEX.zero) ∧
      ntv_view twoArrays [.ntv 0, .number 2, .number 2] = .ok viewed [.ntv 2] ∧
      (∀ f : Field, tonumber (rawget sampleFields (.str f.name)) = some (sampleVertex.get f)) ∧
      (∃ k : Nat, (k : Int) = ((0 : Nat) : Int) + (2 - 1 + 1) - 1 ∧
        k < (List.replicate 4 NTVERTEX.zero).length ∧
        ntv_set viewed [.ntv 2, .number 1, .table sampleFields] =
          .ok { viewed with vmem := (twoArrays.vmem.set 0
                  (some ((List.replicate 4 NTVERTEX.zero).set k sampleVertex))) } [] ∧
        ((2 : Int) - 1 + 1 ≤ 4 →
          ntv_extract { viewed with vmem := (twoArrays.vmem.set 0
                  (some ((List.replicate 4 NTVERTEX.zero).set k sampleVertex))) }
              [.ntv 0, .number (2 - 1 + 1)] =
            .ok { viewed with vmem := (twoArrays.vmem.set 0
                  (some ((List.replicate 4 NTVERTEX.zero).set k sampleVertex))) }
              [vertexTable sampleVertex]) ∧
        ntv_get viewed [.ntv 2, .number 1] =
          .ok viewed [.ntvproxy (some { block := 0, off := (k : Int) })] ∧
        (∀ (f : Field) (n : Int) (c : NTVERTEX),
          (List.replicate 4 NTVERTEX.zero)[k]? = some c →
          ntvproxy_set viewed [.ntvproxy (some { block := 0, off := (k : Int) }),
              .string f.name, .number n] =
            .ok { viewed with vmem := (twoArrays.vmem.set 0
                    (some ((List.replicate 4 NTVERTEX.zero).set k (c.set f n)))) } [])) :=
  ⟨rfl, rfl, rfl, fun f => by cases f <;> rfl,
    view_aliasing twoArrays 0 _ 0 0 (List.replicate 4 NTVERTEX.zero) 2 2 viewed 2
      { vtx := some { block := 0, off := 1 }, nVtx := 2, nVtxUsed := 2, owning := false }
      1 sampleFields sampleVertex rfl rfl rfl (by decide) (by decide) rfl rfl (by decide)
      (fun f => by cases f <;> rfl)⟩

theorem cells_append_left {α : Type} (m : Mem α) (x : Option (List α)) (b : Nat)
    (hb : b < m.length) : cells (m ++ [x]) b = cells m b := by
  unfold cells
  rw [List.getElem?_append_left hb]

theorem cells_append_new {α : Type} (m : Mem α) (x : List α) :
    cells (m ++ [some x]) m.length = some x := by
  unfold cells
  simp

theorem readMem_valid {α : Type} (m : Mem α) (b o n : Nat) (cs : List α)
    (hc : cells m b = some cs) (hfit : o + n ≤ cs.length) :
    readMem m (some { block := b, off := (o : Int) }) (n : Int) = some ((cs.drop o).take n) := by
  unfold readMem
  by_cases hn : n = 0
  · subst hn
    simp
  · have hn1 : ¬ ((n : Int) = 0) := by omega
    have h1 : (0 : Int) ≤ (o : Int) ∧ (0 : Int) < (n : Int) ∧
        (o : Int) + (n : Int) ≤ (cs.length : Int) := by omega
    simp only [hn1, if_false, hc, h1, and_self, if_true, Int.toNat_ofNat]

/-- The `new[]` and `memcpy` of `ntv_copy`, for a source range inside a live block. -/
theorem memcpy_into_new {α : Type} (m : Mem α) (b o n : Nat) (cs : List α) (junk : α)
    (hc : cells m b = some cs) (hfit : o + n ≤ cs.length) :
    memcpy (m ++ [some (List.replicate n junk)]) (some { block := m.length, off := 0 })
        (some { block := b, off := (o : Int) }) (n : Int) =
      some (m ++ [some ((cs.drop o).take n)]) := by
  have hb : b < m.length := cells_lt hc
  have hov : overlap (some { block := m.length, off := 0 })
      (some { block := b, off := (o : Int) }) (n : Int) = false := by
    simp only [overlap, decide_eq_false_iff_not]
    intro h
    omega
  have hc1 : cells (m ++ [some (List.replicate n junk)]) b = some cs := by
    rw [cells_append_left m _ b hb]; exact hc
  unfold memcpy
  rw [hov, readMem_valid _ b o n cs hc1 hfit]
  simp only [Bool.false_eq_true, if_false]
  have hlen : ((cs.drop o).take n).length = n := by
    rw [List.length_take, List.length_drop]; omega
  cases hvs : (cs.drop o).take n with
  | nil =>
    rw [hvs] at hlen
    simp at hlen
    subst hlen
    simp [writeMem]
  | cons v vs =>
    rw [hvs] at hlen
    unfold writeMem
    simp only [cells_append_new]
    have h1 : (0 : Int) ≤ 0 ∧ (0 : Int) + ((v :: vs).length : Nat) ≤
        ((List.replicate n junk).length : Nat) := by
      rw [hlen]; simp
    simp only [h1, and_self, if_true]
    simp only [Int.toNat_zero, List.take_zero, List.nil_append, Nat.zero_add, hlen,
      List.drop_replicate, Nat.sub_self, List.replicate_zero, List.append_nil]
    simp

/-- What `ntv_copy` returns when its arguments resolve to the range of `n`
records from the 0-based `s0` and that range lies in live storage. -/
theorem ntv_copy_eval (st : State) (a : Nat) (rest : List LuaValue) (frm : ntv_data)
    (b off s0 n : Nat) (cs : List NTVERTEX) (size0 : Int)
    (ha : st.ntv[a]? = some frm)
    (hvtx : frm.vtx = some { block := b, off := (off : Int) })
    (hcells : cells st.vmem b = some cs)
    (hs : ntv_copy_start frm (.ntv a :: rest) = .val ((s0 : Int), size0))
    (hz : ntv_copy_size frm (.ntv a :: rest) (s0 : Int) size0 = .val (n : Int))
    (hfit : off + s0 + n ≤ cs.length) :
    ntv_copy st (.ntv a :: rest) =
      .ok { st with
            vmem := st.vmem ++ [some ((cs.drop (off + s0)).take n)],
            ntv := st.ntv ++ [{ vtx := some { block := st.vmem.length, off := 0 },
                                nVtx := (n : Int), nVtxUsed := (n : Int), owning := true }] }
          [.ntv st.ntv.length] := by
  have h1 := check_ntv_cons st a rest frm ha
  unfold ntv_copy
  rw [h1]
  simp only [hs, hz]
  have hnew : newArray st.vmem (n : Int) st.vjunk =
      some (st.vmem ++ [some (List.replicate n st.vjunk)],
        { block := st.vmem.length, off := 0 }) := by
    simp [newArray]
  have hp : ptrAdd frm.vtx (s0 : Int) = some { block := b, off := ((off + s0 : Nat) : Int) } := by
    rw [hvtx]
    simp [ptrAdd]
  rw [hnew]
  simp only [hp]
  rw [memcpy_into_new st.vmem b (off + s0) n cs st.vjunk hcells hfit]
  rfl

/-- With an explicit length, `ntv_copy` raises whenever `ntv_view` does. -/
theorem copy_raises_of_view_raises (s : State) (x : Nat) (d : ntv_data) (p l : Int)
    (hx : s.ntv[x]? = some d)
    (hv : (ntv_view s [.ntv x, .number p, .number l]).raises) :
    (ntv_copy s [.ntv x, .number p, .number l]).raises := by
  have hc := (ntv_view_cases s x [.number p, .number l] d hx p l
    (if l = 0 then d.nVtxUsed - (p - 1) else l) rfl rfl rfl).1.mp hv
  have h1 := check_ntv_cons s x [.number p, .number l] d hx
  unfold ntv_copy
  rw [h1]
  simp only [ntv_copy_start, ntv_copy_size, lua_gettop, lua_index, List.getD_cons_succ,
    List.getD_cons_zero, tonumber, List.length_cons, List.length_nil]
  have g2 : ((0 + 1 + 1 + 1 : Nat) : Int) ≥ 2 := by decide
  have g3 : ((0 + 1 + 1 + 1 : Nat) : Int) ≥ 3 := by decide
  simp only [g2, g3, if_true]
  by_cases c1 : p - 1 < 0
  · simp [c1, Outcome.raises]
  · by_cases c2 : p - 1 > d.nVtx
    · simp [c1, c2, Outcome.raises]
    · simp only [c1, c2, if_false]
      by_cases c3 : l ≤ 0
      · simp [c3, Outcome.raises]
      · by_cases c4 : p - 1 + l > d.nVtx
        · simp [c3, c4, Outcome.raises]
        · exfalso
          have hl0 : ¬ l = 0 := by omega
          simp only [hl0, if_false] at hc
          omega

/-- What a view that was returned looks like, for any argument list. -/
theorem ntv_view_ok_gen (st : State) (a : Nat) (rest : List LuaValue) (frm : ntv_data)
    (start len : Int) (st1 : State) (ret : List LuaValue) (ha : st.ntv[a]? = some frm)
    (hstart : start = lua_tointeger (lua_index (.ntv a :: rest) 2))
    (hlen : len = lua_tointeger (lua_index (.ntv a :: rest) 3))
    (hview : ntv_view st (.ntv a :: rest) = .ok st1 ret) :
    ∃ size : Int, size = (if len = 0 then frm.nVtxUsed - (start - 1) else len) ∧
      0 ≤ len ∧ (start - 1) + size ≤ frm.nVtx ∧
      st1 = { st with ntv := st.ntv ++
                  [{ vtx := ptrAdd frm.vtx (start - 1), nVtx := size,
                     nVtxUsed := size, owning := false }] } ∧
      ret = [.ntv st.ntv.length] := by
  have hc := ntv_view_cases st a rest frm ha start len
    (if len = 0 then frm.nVtxUsed - (start - 1) else len) hstart hlen rfl
  refine ⟨_, rfl, ?_⟩
  by_cases hbad : len < 0 ∨ (start - 1) + (if len = 0 then frm.nVtxUsed - (start - 1) else len)
      > frm.nVtx
  · have hr := hc.1.mpr hbad
    rw [hview] at hr
    simp [Outcome.raises] at hr
  · have hok := hc.2 hbad
    rw [hview] at hok
    simp only [Outcome.ok.injEq] at hok
    rw [not_or] at hbad
    exact ⟨by omega, by omega, hok.1, hok.2⟩

/-- A copy and a view of the same range of live storage: same counts, same
records, and the copy owns fresh storage. -/
theorem copy_matches_view (st : State) (a : Nat) (rest : List LuaValue) (frm : ntv_data)
    (b off : Nat) (cs : List NTVERTEX) (start size size0 : Int) (st1 : State) (v : Nat)
    (vd : ntv_data)
    (ha : st.ntv[a]? = some frm)
    (hvtx : frm.vtx = some { block := b, off := (off : Int) })
    (hcells : cells st.vmem b = some cs)
    (hfit : (off : Int) + frm.nVtx ≤ cs.length)
    (hstart : 1 ≤ start) (hsize : 0 ≤ size) (hle : (start - 1) + size ≤ frm.nVtx)
    (hst1 : st1 = { st with ntv := st.ntv ++
                  [{ vtx := ptrAdd frm.vtx (start - 1), nVtx := size,
                     nVtxUsed := size, owning := false }] })
    (hv : v = st.ntv.length)
    (hvd : st1.ntv[v]? = some vd)
    (hs : ntv_copy_start frm (.ntv a :: rest) = .val (start - 1, size0))
    (hz : ntv_copy_size frm (.ntv a :: rest) (start - 1) size0 = .val size) :
    ∃ st2 c cd recs,
      ntv_copy st (.ntv a :: rest) = .ok st2 [.ntv c] ∧ st2.ntv[c]? = some cd ∧
      cd.owning = true ∧ cd.nVtx = vd.nVtx ∧ cd.nVtxUsed = vd.nVtxUsed ∧
      readMem st1.vmem vd.vtx vd.nVtx = some recs ∧
      readMem st2.vmem cd.vtx cd.nVtx = some recs := by
  obtain ⟨s0, hs0⟩ := Int.eq_ofNat_of_zero_le (show 0 ≤ start - 1 by omega)
  obtain ⟨n, hn⟩ := Int.eq_ofNat_of_zero_le hsize
  rw [hs0] at hs hz hle
  rw [hn] at hz hle
  have hfitN : off + s0 + n ≤ cs.length := by omega
  have hcopy := ntv_copy_eval st a rest frm b off s0 n cs size0 ha hvtx hcells hs hz hfitN
  have hvd2 : vd = ntv_data.mk (ptrAdd frm.vtx (start - 1)) size size false := by
    rw [hst1, hv] at hvd
    simp at hvd
    exact hvd.symm
  have hlen : ((cs.drop (off + s0)).take n).length = n := by
    rw [List.length_take, List.length_drop]; omega
  refine ⟨_, st.ntv.length,
    ntv_data.mk (some { block := st.vmem.length, off := 0 }) (n : Int) (n : Int) true,
    (cs.drop (off + s0)).take n, hcopy, ?_, rfl, ?_, ?_, ?_, ?_⟩
  · simp
  · rw [hvd2, hn]
  · rw [hvd2, hn]
  · rw [hvd2, hst1, hvtx, hs0, hn]
    simp only [ptrAdd, Option.map_some']
    have := readMem_valid st.vmem b (off + s0) n cs hcells hfitN
    rw [Nat.cast_add] at this
    exact this
  · simp only
    have h := readMem_valid (st.vmem ++ [some ((cs.drop (off + s0)).take n)]) st.vmem.length
      0 n ((cs.drop (off + s0)).take n) (cells_append_new _ _) (by omega)
    simp only [List.drop_zero, Nat.cast_zero] at h
    rw [h, List.take_of_length_le (by omega)]

/-- C9, counterexample: on the full 2-record array `view(a, 1, 0)` is returned
(a view of both records) while `copy(a, 1, 0)` raises "Invalid size (0)". -/
theorem copy_rejects_zero_length :
    ntv_view twoArrays [.ntv 1, .number 1, .number 0] =
        .ok { twoArrays with ntv := twoArrays.ntv ++
                [{ vtx := some { block := 1, off := 0 }, nVtx := 2, nVtxUsed := 2,
                   owning := false }] } [.ntv 2] ∧
      (ntv_copy twoArrays [.ntv 1, .number 1, .number 0]).raises :=
  ⟨rfl, by decide⟩

/-- C9, amended: copy behaves like view except for ownership, for an explicit
positive length. Let the storage of `a` be live and hold `a.nVtx` records and
let `start ≥ 1`. (1) For every `len > 0` for which `ntv_view(a, start, len)` is
returned, `ntv_copy(a, start, len)` is returned too and gives an owning array
with the capacity, the used-count and the records of the view. (2) With `len`
omitted the same holds when `a.nVtxUsed = a.nVtx` and `start - 1 ≤ a.nVtx`
(copy takes `a.nVtx - (start - 1)` records, view `a.nVtxUsed - (start - 1)`).
(3) For every array and every explicit `start` and `len`, copy raises whenever
view raises. -/
theorem copy_like_view (st : State) (a : Nat) (frm : ntv_data) (b off : Nat)
    (cs : List NTVERTEX) (start : Int)
    (ha : st.ntv[a]? = some frm)
    (hvtx : frm.vtx = some { block := b, off := (off : Int) })
    (hcells : cells st.vmem b = some cs)
    (hfit : (off : Int) + frm.nVtx ≤ cs.length)
    (hstart : 1 ≤ start) :
    (∀ (len : Int) (st1 : State) (v : Nat) (vd : ntv_data), 0 < len →
      ntv_view st [.ntv a, .number start, .number len] = .ok st1 [.ntv v] →
      st1.ntv[v]? = some vd →
      ∃ st2 c cd recs,
        ntv_copy st [.ntv a, .number start, .number len] = .ok st2 [.ntv c] ∧
        st2.ntv[c]? = some cd ∧
        cd.owning = true ∧ cd.nVtx = vd.nVtx ∧ cd.nVtxUsed = vd.nVtxUsed ∧
        readMem st1.vmem vd.vtx vd.nVtx = some recs ∧
        readMem st2.vmem cd.vtx cd.nVtx = some recs) ∧
    (∀ (st1 : State) (v : Nat) (vd : ntv_data),
      frm.nVtxUsed = frm.nVtx → start - 1 ≤ frm.nVtx →
      ntv_view st [.ntv a, .number start] = .ok st1 [.ntv v] →
      st1.ntv[v]? = some vd →
      ∃ st2 c cd recs,
        ntv_copy st [.ntv a, .number start] = .ok st2 [.ntv c] ∧
        st2.ntv[c]? = some cd ∧
        cd.owning = true ∧ cd.nVtx = vd.nVtx ∧ cd.nVtxUsed = vd.nVtxUsed ∧
        readMem st1.vmem vd.vtx vd.nVtx = some recs ∧
        readMem st2.vmem cd.vtx cd.nVtx = some recs) ∧
    (∀ (s : State) (x : Nat) (d : ntv_data) (p l : Int), s.ntv[x]? = some d →
      (ntv_view s [.ntv x, .number p, .number l]).raises →
      (ntv_copy s [.ntv x, .number p, .number l]).raises) := by
  refine ⟨?_, ?_, copy_raises_of_view_raises⟩
  · intro len st1 v vd hlen hview hvd
    obtain ⟨size, hsize, _, hle, hst1, hret⟩ :=
      ntv_view_ok_gen st a [.number start, .number len] frm start len st1 _ ha rfl rfl hview
    have hl0 : ¬ len = 0 := by omega
    simp only [hl0, if_false] at hsize
    subst hsize
    have hv : v = st.ntv.length := by simpa using hret
    refine copy_matches_view st a _ frm b off cs start size (frm.nVtx - (start - 1)) st1 v vd
      ha hvtx hcells hfit hstart (by omega) hle hst1 hv hvd ?_ ?_
    · have c1 : ¬ (start - 1 < 0) := by omega
      have c2 : ¬ (start - 1 > frm.nVtx) := by omega
      simp [ntv_copy_start, lua_gettop, lua_index, tonumber, c1, c2]
    · have c3 : ¬ (size ≤ 0) := by omega
      have c4 : ¬ (start - 1 + size > frm.nVtx) := by omega
      simp [ntv_copy_size, lua_gettop, lua_index, tonumber, c3, c4]
  · intro st1 v vd hfull hin hview hvd
    obtain ⟨size, hsize, _, hle, hst1, hret⟩ :=
      ntv_view_ok_gen st a [.number start] frm start 0 st1 _ ha rfl rfl hview
    simp only [if_true] at hsize
    have hv : v = st.ntv.length := by simpa using hret
    refine copy_matches_view st a _ frm b off cs start size (frm.nVtx - (start - 1)) st1 v vd
      ha hvtx hcells hfit hstart (by omega) hle hst1 hv hvd ?_ ?_
    · have c1 : ¬ (start - 1 < 0) := by omega
      have c2 : ¬ (start - 1 > frm.nVtx) := by omega
      simp [ntv_copy_start, lua_gettop, lua_index, tonumber, c1, c2]
    · have hsz : frm.nVtx - (start - 1) = size := by omega
      simp [ntv_copy_size, lua_gettop, hsz]

/-- C9 at a concrete input: `copy(a, 2, 2)` against `view(a, 2, 2)` of the
4-record array. -/
theorem copy_like_view_witness :
    twoArrays.ntv[0]? =
        some { vtx := some { block := 0, off := ((0 : Nat) : Int) }, nVtx := 4, nVtxUsed := 4,
               owning := true } ∧
      cells twoArrays.vmem 0 = some (List.replicate 4 NTVERTEX.zero) ∧
      ntv_view twoArrays [.ntv 0, .number 2, .number 2] = .ok viewed [.ntv 2] ∧
      (∃ st2 c cd recs,
        ntv_copy twoArrays [.ntv 0, .number 2, .number 2] = .ok st2 [.ntv c] ∧
        st2.ntv[c]? = some cd ∧
        cd.owning = true ∧ cd.nVtx = 2 ∧ cd.nVtxUsed = 2 ∧
        readMem viewed.vmem (some { block := 0, off := 1 }) 2 = some recs ∧
        readMem st2.vmem cd.vtx cd.nVtx = some recs) :=
  ⟨rfl, rfl, rfl,
    (copy_like_view twoArrays 0 _ 0 0 (List.replicate 4 NTVERTEX.zero) 2 rfl rfl rfl
      (by decide) (by decide)).1 2 viewed 2
      { vtx := some { block := 0, off := 1 }, nVtx := 2, nVtxUsed := 2, owning := false }
      (by decide) rfl rfl⟩

theorem writeMem_frame {α : Type} (m m1 : Mem α) (B : Nat) (o : Int) (vs : List α)
    (h : writeMem m (some { block := B, off := o }) vs = some m1) :
    ∀ b, b ≠ B → m1[b]? = m[b]? := by
  intro b hb
  unfold writeMem at h
  cases vs with
  | nil => simp at h; rw [h]
  | cons v vs =>
    simp only at h
    cases hc : cells m B with
    | none => simp [hc] at h
    | some cs =>
      simp only [hc] at h
      split at h
      · simp only [Option.some.injEq] at h
        rw [← h, List.getElem?_set_ne (Ne.symm hb)]
      · simp at h

theorem memcpy_frame {α : Type} (m m1 : Mem α) (B : Nat) (o : Int) (s : Option Ptr) (n : Int)
    (h : memcpy m (some { block := B, off := o }) s n = some m1) :
    ∀ b, b ≠ B → m1[b]? = m[b]? := by
  unfold memcpy at h
  split at h
  · simp at h
  · cases hr : readMem m s n with
    | none => simp [hr] at h
    | some vs =>
      simp only [hr] at h
      exact writeMem_frame m m1 B o vs h

theorem pokeField_frame (m m1 : Mem NTVERTEX) (B : Nat) (o : Int) (f : Field) (n : Int)
    (h : pokeField m (some { block := B, off := o }) f n = some m1) :
    ∀ b, b ≠ B → m1[b]? = m[b]? := by
  unfold pokeField at h
  cases hp : peek m (some { block := B, off := o }) with
  | none => simp [hp] at h
  | some r =>
    simp only [hp] at h
    exact writeMem_frame m m1 B o _ h

theorem set_fields_frame (B : Nat) (o : Int) (src : LuaValue) :
    ∀ (fs : List Field) (st s2 : State),
      (set_fields (some { block := B, off := o }) src fs st).state? = some s2 →
      s2.ntv = st.ntv ∧ ∀ b, b ≠ B → s2.vmem[b]? = st.vmem[b]? := by
  intro fs
  induction fs with
  | nil =>
    intro st s2 h
    simp [set_fields, Outcome.state?] at h
    subst h
    exact ⟨rfl, fun _ _ => rfl⟩
  | cons f fs ih =>
    intro st s2 h
    unfold set_fields at h
    cases hg : lua_getfield st src f.name with
    | err e =>
      simp [hg, Outcome.state?] at h
      subst h
      exact ⟨rfl, fun _ _ => rfl⟩
    | fault => simp [hg, Outcome.state?] at h
    | val v =>
      simp only [hg] at h
      cases ht : tonumber v with
      | none =>
        simp [ht, Outcome.state?] at h
        subst h
        exact ⟨rfl, fun _ _ => rfl⟩
      | some n =>
        simp only [ht] at h
        cases hp : pokeField st.vmem (some { block := B, off := o }) f n with
        | none => simp [hp, Outcome.state?] at h
        | some m =>
          simp only [hp] at h
          obtain ⟨h1, h2⟩ := ih _ s2 h
          refine ⟨h1, ?_⟩
          intro b hb
          rw [h2 b hb]
          exact pokeField_frame st.vmem m B o f n hp b hb

theorem put_ntv_frame (s : State) (m : Mem NTVERTEX) (c : Nat) (cd d : ntv_data)
    (hcd : s.ntv[c]? = some cd) (hd : d.vtx = cd.vtx) :
    (∀ i, i ≠ c → (put_ntv { s with vmem := m } c d).ntv[i]? = s.ntv[i]?) ∧
      (∃ cd1, (put_ntv { s with vmem := m } c d).ntv[c]? = some cd1 ∧ cd1.vtx = cd.vtx) ∧
      (put_ntv { s with vmem := m } c d).vmem = m := by
  have hlt : c < s.ntv.length := (List.getElem?_eq_some.mp hcd).1
  refine ⟨?_, ⟨d, ?_, hd⟩, rfl⟩
  · intro i hi
    simp only [put_ntv]
    rw [List.getElem?_set_ne (Ne.symm hi)]
  · simp only [put_ntv]
    rw [List.getElem?_set_self hlt]

/-- One mutation of the array `c`, whose storage is in block `B`, changes no
other block and no other userdata, and leaves the pointer of `c` as it is. -/
theorem apply_frame (B c : Nat) (s s1 : State) (op : Mutation) (cd : ntv_data) (o : Int)
    (hcd : s.ntv[c]? = some cd) (hvtx : cd.vtx = some { block := B, off := o })
    (h : (op.apply c s).state? = some s1) :
    (∀ b, b ≠ B → s1.vmem[b]? = s.vmem[b]?) ∧ (∀ i, i ≠ c → s1.ntv[i]? = s.ntv[i]?) ∧
      (∃ cd1, s1.ntv[c]? = some cd1 ∧ cd1.vtx = cd.vtx) := by
  have same : ∀ {t : State}, some s = some t →
      (∀ b, b ≠ B → t.vmem[b]? = s.vmem[b]?) ∧ (∀ i, i ≠ c → t.ntv[i]? = s.ntv[i]?) ∧
      (∃ cd1, t.ntv[c]? = some cd1 ∧ cd1.vtx = cd.vtx) := by
    intro t ht
    simp only [Option.some.injEq] at ht
    subst ht
    exact ⟨fun _ _ => rfl, fun _ _ => rfl, ⟨cd, hcd, rfl⟩⟩
  cases op with
  | set args =>
    simp only [Mutation.apply, ntv_set, check_ntv_cons s c args cd hcd] at h
    cases ht : tonumber (lua_index (.ntv c :: args) 2) with
    | none => simp only [ht, Outcome.state?] at h; exact same h
    | some index =>
      simp only [ht] at h
      split at h
      · exact same h
      · simp only [hvtx, ptrAdd, Option.map_some'] at h
        obtain ⟨h1, h2⟩ := set_fields_frame B _ _ _ _ _ h
        refine ⟨h2, ?_, ⟨cd, ?_, rfl⟩⟩
        · intro i _; rw [h1]
        · rw [h1]; exact hcd
  | write args =>
    simp only [Mutation.apply, ntv_write, check_ntv_cons s c args cd hcd] at h
    cases h2 : check_ntv s (.ntv c :: args) 2 with
    | none => simp only [h2, Outcome.state?] at h; exact same h
    | some pr =>
      simp only [h2] at h
      cases hst : ntv_write_start cd (.ntv c :: args) with
      | err e => simp only [hst, Outcome.state?] at h; exact same h
      | fault => simp [hst, Outcome.state?] at h
      | val start =>
        simp only [hst] at h
        cases hsz : ntv_write_size cd pr.2 (.ntv c :: args) start with
        | err e => simp only [hsz, Outcome.state?] at h; exact same h
        | fault => simp [hsz, Outcome.state?] at h
        | val size =>
          simp only [hsz, hvtx, ptrAdd, Option.map_some'] at h
          cases hm : memcpy s.vmem (some { block := B, off := o + start }) pr.2.vtx size with
          | none => simp [hm, Outcome.state?] at h
          | some m =>
            simp only [hm, Outcome.state?, Option.some.injEq] at h
            subst h
            obtain ⟨f1, f2, f3⟩ := put_ntv_frame s m c cd
              (ntv_data.mk (some { block := B, off := o }) cd.nVtx
                (max cd.nVtxUsed (start + size)) cd.owning) hcd hvtx.symm
            refine ⟨?_, f1, f2⟩
            intro b hb
            rw [f3]
            exact memcpy_frame s.vmem m B _ _ _ hm b hb
  | append args =>
    simp only [Mutation.apply, ntv_append, check_ntv_cons s c args cd hcd] at h
    cases h2 : check_ntv s (.ntv c :: args) 2 with
    | none => simp only [h2, Outcome.state?] at h; exact same h
    | some pr =>
      simp only [h2] at h
      split at h
      · exact same h
      · simp only [hvtx, ptrAdd, Option.map_some'] at h
        cases hm : memcpy s.vmem (some { block := B, off := o + cd.nVtxUsed }) pr.2.vtx
            pr.2.nVtxUsed with
        | none => simp [hm, Outcome.state?] at h
        | some m =>
          simp only [hm, Outcome.state?, Option.some.injEq] at h
          subst h
          obtain ⟨f1, f2, f3⟩ := put_ntv_frame s m c cd
            (ntv_data.mk (some { block := B, off := o }) cd.nVtx
              (cd.nVtxUsed + pr.2.nVtxUsed) cd.owning) hcd hvtx.symm
          refine ⟨?_, f1, f2⟩
          intro b hb
          rw [f3]
          exact memcpy_frame s.vmem m B _ _ _ hm b hb
  | zeroize args =>
    simp only [Mutation.apply, ntv_zeroize, check_ntv_cons s c args cd hcd, hvtx] at h
    cases hm : memset0 s.vmem (some { block := B, off := o }) cd.nVtx with
    | none => simp [hm, Outcome.state?] at h
    | some m =>
      simp only [hm, Outcome.state?, Option.some.injEq] at h
      subst h
      refine ⟨?_, fun _ _ => rfl, ⟨cd, hcd, rfl⟩⟩
      intro b hb
      unfold memset0 at hm
      split at hm
      · simp at hm
      · exact writeMem_frame s.vmem m B o _ hm b hb

theorem readMem_length {α : Type} (m : Mem α) (p : Option Ptr) (n : Int) (vs : List α)
    (h : readMem m p n = some vs) : (vs.length : Int) = n := by
  unfold readMem at h
  split at h
  · next hn => simp at h; subst h; simp [hn]
  · cases p with
    | none => simp at h
    | some q =>
      simp only at h
      cases hc : cells m q.block with
      | none => simp [hc] at h
      | some cs =>
        simp only [hc] at h
        split at h
        · next hcond =>
          simp only [Option.some.injEq] at h
          subst h
          rw [List.length_take, List.length_drop]
          omega
        · simp at h

theorem writeMem_read {α : Type} (m m1 : Mem α) (p : Option Ptr) (vs : List α)
    (h : writeMem m p vs = some m1) : readMem m1 p (vs.length : Int) = some vs := by
  cases vs with
  | nil => simp [readMem]
  | cons v vs =>
    unfold writeMem at h
    cases p with
    | none => simp at h
    | some q =>
      simp only at h
      cases hc : cells m q.block with
      | none => simp [hc] at h
      | some cs =>
        simp only [hc] at h
        split at h
        · next hcond =>
          simp only [Option.some.injEq] at h
          subst h
          obtain ⟨k, hk⟩ := Int.eq_ofNat_of_zero_le hcond.1
          have hkle : k + (v :: vs).length ≤ cs.length := by
            have := hcond.2
            rw [hk] at this
            exact_mod_cast this
          have hlen : (cs.take k ++ (v :: vs) ++ cs.drop (k + (v :: vs).length)).length =
              cs.length := by
            simp only [List.length_append, List.length_take, List.length_drop]
            omega
          unfold readMem
          have hn0 : ¬ (((v :: vs).length : Nat) : Int) = 0 := by
            simp only [List.length_cons]; omega
          simp only [hn0, if_false, cells_set_same m q.block _ (cells_lt hc), hk,
            Int.toNat_ofNat, hlen]
          have hcond2 : (0 : Int) ≤ (k : Int) ∧ (0 : Int) < (((v :: vs).length : Nat) : Int) ∧
              (k : Int) + (((v :: vs).length : Nat) : Int) ≤ (cs.length : Int) := by
            refine ⟨by omega, by simp only [List.length_cons]; omega, by exact_mod_cast hkle⟩
          simp only [hcond2, and_self, if_true]
          have htk : (cs.take k).length = k := by
            rw [List.length_take]; omega
          rw [List.append_assoc, List.drop_append_of_le_length (by omega),
            List.drop_of_length_le (by omega), List.nil_append, List.take_left']
          rfl
        · simp at h

theorem memcpy_read {α : Type} (m m1 : Mem α) (d s : Option Ptr) (n : Int)
    (h : memcpy m d s n = some m1) :
    ∃ vs, readMem m s n = some vs ∧ readMem m1 d n = some vs := by
  unfold memcpy at h
  split at h
  · simp at h
  · cases hr : readMem m s n with
    | none => simp [hr] at h
    | some vs =>
      simp only [hr] at h
      refine ⟨vs, rfl, ?_⟩
      have := writeMem_read m m1 d vs h
      rw [readMem_length m s n vs hr] at this
      exact this

theorem readMem_congr {α : Type} (m1 m2 : Mem α) (p : Option Ptr) (n : Int)
    (h : ∀ q, p = some q → m1[q.block]? = m2[q.block]?) :
    readMem m1 p n = readMem m2 p n := by
  cases p with
  | none => simp [readMem]
  | some q =>
    have hq := h q rfl
    simp only [readMem, cells, hq]

/-- Reading the source of the `memcpy` of `ntv_copy` in the storage extended by
the new block is reading it in the storage before. -/
theorem readMem_before_new {α : Type} (m m1 : Mem α) (k : Nat) (junk : α) (s : Option Ptr)
    (n : Int) (hk : (k : Int) = n)
    (h : memcpy (m ++ [some (List.replicate k junk)]) (some { block := m.length, off := 0 })
      s n = some m1) :
    readMem (m ++ [some (List.replicate k junk)]) s n = readMem m s n := by
  cases s with
  | none => simp [readMem]
  | some q =>
    by_cases hn : n = 0
    · simp [readMem, hn]
    · rcases Nat.lt_trichotomy q.block m.length with hlt | heq | hgt
      · apply readMem_congr
        intro q1 hq1
        simp only [Option.some.injEq] at hq1
        subst hq1
        exact List.getElem?_append_left hlt
      · exfalso
        unfold memcpy at h
        split at h
        · simp at h
        · next hov =>
          cases hr : readMem (m ++ [some (List.replicate k junk)]) (some q) n with
          | none => simp [hr] at h
          | some vs =>
            unfold readMem at hr
            simp only [hn, if_false, heq, cells_append_new] at hr
            split at hr
            · next hcond =>
              simp only [List.length_replicate] at hcond
              apply hov
              simp only [overlap, decide_eq_true_eq]
              refine ⟨heq.symm, hcond.2.1, ?_, ?_⟩ <;> omega
            · simp at hr
      · apply readMem_congr
        intro q1 hq1
        simp only [Option.some.injEq] at hq1
        subst hq1
        rw [List.getElem?_eq_none (by simp; omega), List.getElem?_eq_none (by omega)]

/-- What a copy that was returned looks like. -/
theorem ntv_copy_ok (st : State) (a : Nat) (rest : List LuaValue) (frm : ntv_data)
    (st1 : State) (ret : List LuaValue) (ha : st.ntv[a]? = some frm)
    (h : ntv_copy st (.ntv a :: rest) = .ok st1 ret) :
    ∃ (start size0 size : Int) (m1 : Mem NTVERTEX),
      ntv_copy_start frm (.ntv a :: rest) = .val (start, size0) ∧
      ntv_copy_size frm (.ntv a :: rest) start size0 = .val size ∧
      0 ≤ size ∧
      memcpy (st.vmem ++ [some (List.replicate size.toNat st.vjunk)])
        (some { block := st.vmem.length, off := 0 }) (ptrAdd frm.vtx start) size = some m1 ∧
      st1 = { st with vmem := m1, ntv := st.ntv ++
                [{ vtx := some { block := st.vmem.length, off := 0 }, nVtx := size,
                   nVtxUsed := size, owning := true }] } ∧
      ret = [.ntv st.ntv.length] := by
  unfold ntv_copy at h
  rw [check_ntv_cons st a rest frm ha] at h
  simp only at h
  cases hs : ntv_copy_start frm (.ntv a :: rest) with
  | err e => simp [hs] at h
  | fault => simp [hs] at h
  | val pr =>
    obtain ⟨start, size0⟩ := pr
    simp only [hs] at h
    cases hz : ntv_copy_size frm (.ntv a :: rest) start size0 with
    | err e => simp [hz] at h
    | fault => simp [hz] at h
    | val size =>
      simp only [hz] at h
      unfold newArray at h
      by_cases hneg : size < 0
      · simp [hneg] at h
      · simp only [hneg, if_false] at h
        cases hm : memcpy (st.vmem ++ [some (List.replicate size.toNat st.vjunk)])
            (some { block := st.vmem.length, off := 0 }) (ptrAdd frm.vtx start) size with
        | none => simp [hm] at h
        | some m1 =>
          simp only [hm, new_ntv, Outcome.ok.injEq] at h
          exact ⟨start, size0, size, m1, rfl, hz, by omega, hm, h.1.symm, h.2.symm⟩

/-- Mutations of the array `c`, whose storage is block `B`, change no block
below `B` and no userdata below `c`. -/
theorem mutate_frame (B c : Nat) (old : State) (hB : old.vmem.length ≤ B)
    (hc : old.ntv.length ≤ c) :
    ∀ (ops : List Mutation) (s s2 : State),
      (∀ b, b < old.vmem.length → s.vmem[b]? = old.vmem[b]?) →
      (∀ i, i < old.ntv.length → s.ntv[i]? = old.ntv[i]?) →
      (∃ cd o, s.ntv[c]? = some cd ∧ cd.vtx = some { block := B, off := o }) →
      mutate c ops s = some s2 →
      (∀ b, b < old.vmem.length → s2.vmem[b]? = old.vmem[b]?) ∧
        (∀ i, i < old.ntv.length → s2.ntv[i]? = old.ntv[i]?) := by
  intro ops
  induction ops with
  | nil =>
    intro s s2 h1 h2 _ h
    simp only [mutate, Option.some.injEq] at h
    subst h
    exact ⟨h1, h2⟩
  | cons op ops ih =>
    intro s s2 h1 h2 h3 h
    obtain ⟨cd, o, hcd, hvtx⟩ := h3
    unfold mutate at h
    cases hst : (op.apply c s).state? with
    | none => simp [hst] at h
    | some s1 =>
      simp only [hst] at h
      obtain ⟨f1, f2, cd1, f3, f4⟩ := apply_frame B c s s1 op cd o hcd hvtx hst
      refine ih s1 s2 ?_ ?_ ⟨cd1, o, f3, by rw [f4, hvtx]⟩ h
      · intro b hb
        rw [f1 b (by omega), h1 b hb]
      · intro i hi
        rw [f2 i (by omega), h2 i hi]

/-- After the `new[]` and `memcpy` of `ntv_copy` the new block holds exactly
the records that were copied. -/
theorem memcpy_new_block {α : Type} (m m1 : Mem α) (k : Nat) (junk : α) (s : Option Ptr)
    (n : Int) (hk : (k : Int) = n)
    (h : memcpy (m ++ [some (List.replicate k junk)]) (some { block := m.length, off := 0 })
      s n = some m1) :
    ∃ vs, cells m1 m.length = some vs ∧ vs.length = k ∧
      readMem (m ++ [some (List.replicate k junk)]) s n = some vs := by
  unfold memcpy at h
  split at h
  · simp at h
  · cases hr : readMem (m ++ [some (List.replicate k junk)]) s n with
    | none => simp [hr] at h
    | some vs =>
      simp only [hr] at h
      have hlen : vs.length = k := by
        have := readMem_length _ s n vs hr
        omega
      refine ⟨vs, ?_, hlen, rfl⟩
      cases vs with
      | nil =>
        simp only [writeMem, Option.some.injEq] at h
        subst h
        simp only [List.length_nil] at hlen
        subst hlen
        simp [cells]
      | cons v vs =>
        unfold writeMem at h
        simp only [cells_append_new] at h
        split at h
        · simp only [Option.some.injEq] at h
          subst h
          have hb : m.length < (m ++ [some (List.replicate k junk)]).length := by simp
          rw [cells_set_same _ _ _ hb]
          simp only [Int.toNat_zero, List.take_zero, List.nil_append, Nat.zero_add, hlen,
            List.drop_replicate, Nat.sub_self, List.replicate_zero, List.append_nil]
        · simp at h

/-- C7: copies are independent. When `c = ntv_copy(a, ...)` is returned, with
the arguments resolving to `size` records from the 0-based `start`, then `c` is
owning with capacity and used-count `size`, its records are the records
`start .. start + size - 1` of `a`, `ntv_set` of a record at an index
`1 ≤ i ≤ size` of `c` returns and stores the record in the storage of `c`, and
after any sequence of `ntv_set`,
`ntv_write`, `ntv_append` and `ntv_zeroize` calls on `c` that stays within
defined behaviour every storage block and every userdata that existed before
the copy is unchanged: in particular the fields of `a` and the records of `a`. -/
theorem copy_independent (st : State) (a : Nat) (rest : List LuaValue) (frm : ntv_data)
    (st1 : State) (c : Nat) (ha : st.ntv[a]? = some frm)
    (hcopy : ntv_copy st (.ntv a :: rest) = .ok st1 [.ntv c]) :
    ∃ (cd : ntv_data) (start size0 size : Int) (recs : List NTVERTEX),
      ntv_copy_start frm (.ntv a :: rest) = .val (start, size0) ∧
      ntv_copy_size frm (.ntv a :: rest) start size0 = .val size ∧
      st1.ntv[c]? = some cd ∧ cd.owning = true ∧ cd.nVtx = size ∧ cd.nVtxUsed = size ∧
      readMem st.vmem (ptrAdd frm.vtx start) size = some recs ∧
      readMem st1.vmem cd.vtx size = some recs ∧
      (∀ (i : Int) (flds : List (LuaKey × LuaValue)) (r : NTVERTEX), 1 ≤ i → i ≤ size →
        (∀ f : Field, tonumber (rawget flds (.str f.name)) = some (r.get f)) →
        ∃ st2, ntv_set st1 [.ntv c, .number i, .table flds] = .ok st2 [] ∧
          peek st2.vmem (ptrAdd cd.vtx (i - 1)) = some r) ∧
      (∀ (ops : List Mutation) (st2 : State), mutate c ops st1 = some st2 →
        (∀ b, b < st.vmem.length → st2.vmem[b]? = st.vmem[b]?) ∧
        (∀ i, i < st.ntv.length → st2.ntv[i]? = st.ntv[i]?) ∧
        st2.ntv[a]? = some frm ∧
        (∀ (q : Ptr) (k n : Int), frm.vtx = some q → q.block < st.vmem.length →
          readMem st2.vmem (ptrAdd frm.vtx k) n = readMem st.vmem (ptrAdd frm.vtx k) n)) := by
  obtain ⟨start, size0, size, m1, hs, hz, hsize, hm, hst1, hret⟩ :=
    ntv_copy_ok st a rest frm st1 _ ha hcopy
  have hc : c = st.ntv.length := by simpa using hret
  have halt : a < st.ntv.length := (List.getElem?_eq_some.mp ha).1
  obtain ⟨vs, hr1, hr2⟩ := memcpy_read _ m1 _ _ _ hm
  rw [readMem_before_new st.vmem m1 size.toNat st.vjunk _ size (Int.toNat_of_nonneg hsize) hm]
    at hr1
  have hmem : st1.vmem = m1 := by rw [hst1]
  have hntv : st1.ntv = st.ntv ++
      [ntv_data.mk (some { block := st.vmem.length, off := 0 }) size size true] := by rw [hst1]
  have hcd : st1.ntv[c]? =
      some (ntv_data.mk (some { block := st.vmem.length, off := 0 }) size size true) := by
    rw [hntv, hc]; simp
  have hold : ∀ b, b < st.vmem.length → st1.vmem[b]? = st.vmem[b]? := by
    intro b hb
    rw [hmem, memcpy_frame _ m1 st.vmem.length 0 _ _ hm b (by omega)]
    exact List.getElem?_append_left hb
  have holdn : ∀ i, i < st.ntv.length → st1.ntv[i]? = st.ntv[i]? := by
    intro i hi
    rw [hntv]
    exact List.getElem?_append_left hi
  refine ⟨_, start, size0, size, vs, hs, hz, hcd, rfl, rfl, rfl, hr1, ?_, ?_, ?_⟩
  · rw [hmem]; exact hr2
  · intro i flds r hi1 hi2 hrec
    obtain ⟨ws, hws, hwlen, _⟩ := memcpy_new_block st.vmem m1 size.toNat st.vjunk _ size
      (Int.toNat_of_nonneg hsize) hm
    have hcells1 : cells st1.vmem st.vmem.length = some ws := by rw [hmem]; exact hws
    obtain ⟨k, hk⟩ := Int.eq_ofNat_of_zero_le (show 0 ≤ i - 1 by omega)
    have hklt : k < ws.length := by
      have : (k : Int) < size := by omega
      have h2 : ((size.toNat : Nat) : Int) = size := Int.toNat_of_nonneg hsize
      omega
    have hwk : ws[k]? = some ws[k] := List.getElem?_eq_getElem hklt
    have hsf := set_fields_valid st.vmem.length k flds r.get hrec allFields st1 ws _ hcells1 hwk
    rw [foldl_allFields] at hsf
    have hck := check_ntv_cons st1 c [.number i, .table flds] _ hcd
    have hp : ptrAdd (some { block := st.vmem.length, off := 0 }) (i - 1) =
        some { block := st.vmem.length, off := (k : Int) } := by
      simp only [ptrAdd, Option.map_some', Option.some.injEq, Ptr.mk.injEq, true_and]
      omega
    have hrange : 1 ≤ i ∧ i ≤ size := ⟨hi1, hi2⟩
    refine ⟨{ st1 with vmem := (st1.vmem.set st.vmem.length (some (ws.set k r))) }, ?_, ?_⟩
    · unfold ntv_set
      rw [hck]
      simp only [lua_index, List.getD_cons_succ, List.getD_cons_zero, tonumber, hrange, and_self,
        not_true_eq_false, if_false, hp]
      rw [hsf]
      cases r
      rfl
    · simp only [hp]
      exact peek_valid _ st.vmem.length k (ws.set k _) _
        (cells_set_same st1.vmem _ _ (cells_lt hcells1)) (by rw [List.getElem?_set_self hklt])
  · intro ops st2 hmut
    obtain ⟨g1, g2⟩ := mutate_frame st.vmem.length c st (le_refl _) (by omega) ops st1 st2
      hold holdn ⟨_, 0, hcd, rfl⟩ hmut
    refine ⟨g1, g2, ?_, ?_⟩
    · rw [g2 a halt]; exact ha
    · intro q k n hq hqb
      apply readMem_congr
      intro q1 hq1
      rw [hq] at hq1
      simp only [ptrAdd, Option.map_some', Option.some.injEq] at hq1
      subst hq1
      exact g1 q.block hqb

/-- C7 at a concrete input: `copy(a, 2, 2)` of the 4-record array of
`twoArrays`; whatever is then done to the copy, `a` stays as it was. -/
theorem copy_independent_witness :
    twoArrays.ntv[0]? =
        some { vtx := some { block := 0, off := 0 }, nVtx := 4, nVtxUsed := 4, owning := true } ∧
      ntv_copy twoArrays [.ntv 0, .number 2, .number 2] = .ok copied [.ntv 2] ∧
      (∃ (cd : ntv_data) (start size0 size : Int) (recs : List NTVERTEX),
        ntv_copy_start
            { vtx := some { block := 0, off := 0 }, nVtx := 4, nVtxUsed := 4, owning := true }
            [.ntv 0, .number 2, .number 2] = .val (start, size0) ∧
        ntv_copy_size
            { vtx := some { block := 0, off := 0 }, nVtx := 4, nVtxUsed := 4, owning := true }
            [.ntv 0, .number 2, .number 2] start size0 = .val size ∧
        copied.ntv[2]? = some cd ∧ cd.owning = true ∧ cd.nVtx = size ∧ cd.nVtxUsed = size ∧
        readMem twoArrays.vmem (ptrAdd (some { block := 0, off := 0 }) start) size = some recs ∧
        readMem copied.vmem cd.vtx size = some recs ∧
        (∀ (i : Int) (flds : List (LuaKey × LuaValue)) (r : NTVERTEX), 1 ≤ i → i ≤ size →
          (∀ f : Field, tonumber (rawget flds (.str f.name)) = some (r.get f)) →
          ∃ st2, ntv_set copied [.ntv 2, .number i, .table flds] = .ok st2 [] ∧
            peek st2.vmem (ptrAdd cd.vtx (i - 1)) = some r) ∧
        (∀ (ops : List Mutation) (st2 : State), mutate 2 ops copied = some st2 →
          (∀ b, b < twoArrays.vmem.length → st2.vmem[b]? = twoArrays.vmem[b]?) ∧
          (∀ i, i < twoArrays.ntv.length → st2.ntv[i]? = twoArrays.ntv[i]?) ∧
          st2.ntv[0]? =
            some { vtx := some { block := 0, off := 0 }, nVtx := 4, nVtxUsed := 4,
                   owning := true } ∧
          (∀ (q : Ptr) (k n : Int),
            (some { block := 0, off := 0 } : Option Ptr) = some q →
            q.block < twoArrays.vmem.length →
            readMem st2.vmem (ptrAdd (some { block := 0, off := 0 }) k) n =
              readMem twoArrays.vmem (ptrAdd (some { block := 0, off := 0 }) k) n))) :=
  ⟨rfl, rfl, copy_independent twoArrays 0 [.number 2, .number 2] _ copied 2 rfl rfl⟩

/-- The run of C7 is not vacuous: a set, a zeroize, a failing append and a
write on the copy all end in a state, and the source array is as before. -/
theorem copy_mutations_run :
    ∃ st2, mutate 2 [.set [.number 1, vertexTable sampleVertex], .zeroize [],
        .append [.ntv 1], .write [.ntv 1, .number 1]] copied = some st2 ∧
      st2.ntv[0]? = twoArrays.ntv[0]? ∧ st2.vmem[0]? = twoArrays.vmem[0]? ∧
      st2.vmem[2]? = some (some (List.replicate 2 NTVERTEX.zero)) :=
  ⟨_, rfl, rfl, rfl, rfl⟩

/-- C2, the code at the failing inputs. (1) On a full 2-record array
`view(a, 5)` is returned with capacity and used-count `-2`. (2) On the view
`v = view(a, 2, 2)` (capacity 2) `write(v, src, 2)` with a 2-record `src`
returns with `v.nVtxUsed = 3 > v.nVtx = 2`. -/
theorem invariant_broken_by_view_and_write :
    ntv_view twoArrays [.ntv 1, .number 5] =
        .ok { twoArrays with ntv := twoArrays.ntv ++
                [{ vtx := some { block := 1, off := 4 }, nVtx := -2, nVtxUsed := -2,
                   owning := false }] } [.ntv 2] ∧
      ntv_write writeDemo [.ntv 2, .ntv 1, .number 2] =
        .ok { writeDemo with
              vmem := [some [NTVERTEX.zero, NTVERTEX.zero, sampleVertex, sampleVertex],
                       some [sampleVertex, sampleVertex]],
              ntv := [{ vtx := some { block := 0, off := 0 }, nVtx := 4, nVtxUsed := 4,
                        owning := true },
                      { vtx := some { block := 1, off := 0 }, nVtx := 2, nVtxUsed := 2,
                        owning := true },
                      { vtx := some { block := 0, off := 1 }, nVtx := 2, nVtxUsed := 3,
                        owning := false }] } [] :=
  ⟨rfl, rfl⟩

/-- C10, the code at the failing inputs: without the fourth argument `ntv_write`
does not compare `offset + size` with the capacity. (1) `write(dst, src, 4)` on
the owned 4-record `dst` with a 2-record `src` (offset 3, size 2) raises no
error and copies past the end of the storage of `dst`. (2) `write(dst, src)` on
the owned 2-record `dst` with the 4-record `src` (offset 0, size 4) does the
same. (3) `write(v, src, 2)` on the view `v` of capacity 2 (offset 1, size 2)
returns, having copied a record into position 2 of `v`. (4) With the fourth
argument present the same range is rejected. -/
theorem ntv_write_unchecked :
    ntv_write writeDemo [.ntv 0, .ntv 1, .number 4] = .fault ∧
      ntv_write writeDemo [.ntv 1, .ntv 0] = .fault ∧
      (∃ st1, ntv_write writeDemo [.ntv 2, .ntv 1, .number 2] = .ok st1 [] ∧
        readMem st1.vmem (some { block := 0, off := 1 + 2 }) 1 = some [sampleVertex] ∧
        readMem writeDemo.vmem (some { block := 0, off := 1 + 2 }) 1 = some [NTVERTEX.zero]) ∧
      ntv_write writeDemo [.ntv 2, .ntv 1, .number 2, .number 2] =
        .error "Write out of bound (3/2)" writeDemo :=
  ⟨rfl, rfl, ⟨_, rfl, rfl, rfl⟩, rfl⟩

/-- With both optional arguments present `ntv_write` is bounds-checked: it
raises whenever the offset is negative or `offset + size` exceeds the capacity. -/
theorem ntv_write_checked_with_size (st : State) (d s : Nat) (rest : List LuaValue)
    (dst src : ntv_data) (start size : Int)
    (hd : st.ntv[d]? = some dst) (hs : st.ntv[s]? = some src)
    (hbad : start - 1 < 0 ∨ (start - 1) + size > dst.nVtx) :
    (ntv_write st (.ntv d :: .ntv s :: .number start :: .number size :: rest)).raises := by
  have h1 := check_ntv_cons st d (.ntv s :: .number start :: .number size :: rest) dst hd
  have h2 := check_ntv_cons2 st (.ntv d) s (.number start :: .number size :: rest) src hs
  unfold ntv_write
  rw [h1, h2]
  have g3 : lua_gettop (.ntv d :: .ntv s :: .number start :: .number size :: rest) ≥ 3 := by
    simp only [lua_gettop, List.length_cons]; omega
  have g4 : lua_gettop (.ntv d :: .ntv s :: .number start :: .number size :: rest) ≥ 4 := by
    simp only [lua_gettop, List.length_cons]; omega
  simp only [ntv_write_start, ntv_write_size, g3, g4, if_true, lua_index, List.getD_cons_succ,
    List.getD_cons_zero, tonumber]
  by_cases c1 : start - 1 < 0
  · simp [c1, Outcome.raises]
  · by_cases c2 : start - 1 > dst.nVtx
    · simp [c1, c2, Outcome.raises]
    · have c3 : size + (start - 1) > dst.nVtx := by omega
      simp [c1, c2, c3, Outcome.raises]

/-- `ntv_append` keeps `0 ≤ used ≤ capacity`: when it returns, the used-count of
`dst` is the sum of the two used-counts, which the check bounds by the capacity. -/
theorem ntv_append_keeps_invariant (st st1 : State) (d s : Nat) (rest ret : List LuaValue)
    (dst src : ntv_data) (hd : st.ntv[d]? = some dst) (hs : st.ntv[s]? = some src)
    (hdst : 0 ≤ dst.nVtxUsed) (hsrc : 0 ≤ src.nVtxUsed)
    (h : ntv_append st (.ntv d :: .ntv s :: rest) = .ok st1 ret) :
    ∃ dst1, st1.ntv[d]? = some dst1 ∧ dst1.nVtx = dst.nVtx ∧
      dst1.nVtxUsed = dst.nVtxUsed + src.nVtxUsed ∧
      0 ≤ dst1.nVtxUsed ∧ dst1.nVtxUsed ≤ dst1.nVtx := by
  have h1 := check_ntv_cons st d (.ntv s :: rest) dst hd
  have h2 := check_ntv_cons2 st (.ntv d) s rest src hs
  have hlt : d < st.ntv.length := (List.getElem?_eq_some.mp hd).1
  unfold ntv_append at h
  rw [h1, h2] at h
  simp only at h
  by_cases hc : dst.nVtxUsed + src.nVtxUsed > dst.nVtx
  · simp [hc] at h
  · simp only [hc, if_false] at h
    cases hm : memcpy st.vmem (ptrAdd dst.vtx dst.nVtxUsed) src.vtx src.nVtxUsed with
    | none => simp [hm] at h
    | some m =>
      simp only [hm, Outcome.ok.injEq] at h
      obtain ⟨hst, _⟩ := h
      subst hst
      refine ⟨ntv_data.mk dst.vtx dst.nVtx (dst.nVtxUsed + src.nVtxUsed) dst.owning,
        ?_, rfl, rfl, ?_, ?_⟩
      · simp only [put_ntv]
        exact List.getElem?_set_self hlt
      · show 0 ≤ dst.nVtxUsed + src.nVtxUsed
        omega
      · show dst.nVtxUsed + src.nVtxUsed ≤ dst.nVtx
        omega


theorem strcatIf_eq (b : Bool) (c : String) (n : String) :
    strcatIf b c (" " ++ n ++ " or") = c ++ orPieces (if b then [n] else []) := by
  cases b <;> simp [strcatIf, orPieces]

theorem orPieces_append (l1 l2 : List String) :
    orPieces (l1 ++ l2) = orPieces l1 ++ orPieces l2 := by
  induction l1 with
  | nil => simp [orPieces]
  | cons a rest ih => simp [orPieces, ih, String.append_assoc]

theorem intercalate_go (s acc : String) (l : List String) :
    String.intercalate.go acc s l = acc ++ String.intercalate.go "" s l := by
  induction l generalizing acc with
  | nil => simp [String.intercalate.go]
  | cons a rest ih =>
    simp only [String.intercalate.go]
    rw [ih (acc ++ s ++ a), ih ("" ++ s ++ a)]
    simp [String.append_assoc]

theorem orPieces_eq (names : List String) (h : names ≠ []) :
    orPieces names = (" " ++ " or ".intercalate names) ++ " or" := by
  induction names with
  | nil => exact absurd rfl h
  | cons a rest ih =>
    cases rest with
    | nil => simp [orPieces, String.intercalate, String.intercalate.go]
    | cons b rest2 =>
      have ih2 := ih (by simp)
      simp only [orPieces] at ih2 ⊢
      rw [ih2]
      simp only [String.intercalate, String.intercalate.go]
      rw [intercalate_go " or " (a ++ " or " ++ b), intercalate_go " or " b]
      simp only [String.append_assoc]
      rfl

theorem closeExpected_append (base : String) :
    closeExpected (base ++ " or") = base ++ ") " := by
  apply String.ext
  simp only [closeExpected, String.data_append]
  have hlen : (base.data ++ [' ', 'o', 'r']).length - 3 = base.data.length := by
    simp only [List.length_append, List.length_cons, List.length_nil]
    omega
  rw [hlen, List.take_left']
  simp

/-- The text of the error `AssertPrmType` raises, for a mask that names at
least one of the eight types it tests. -/
theorem prmMessage_eq (v : LuaValue) (prmno : Int) (tp : PrmMask) (funcname : String)
    (fieldname : Option String) (h : prmNames tp ≠ []) :
    prmMessage v prmno tp funcname fieldname =
      (match fieldname with
        | some f =>
          funcname ++ ": argument " ++ toString prmno ++ ": field " ++ f ++
            ": invalid type (expected"
        | none => funcname ++ ": argument " ++ toString prmno ++ ": invalid type (expected") ++
        (" " ++ " or ".intercalate (prmNames tp) ++ ") ") ++ lua_typename v ++ " given" := by
  have e1 : (" nil or" : String) = " " ++ "nil" ++ " or" := rfl
  have e2 : (" number or" : String) = " " ++ "number" ++ " or" := rfl
  have e3 : (" boolean or" : String) = " " ++ "boolean" ++ " or" := rfl
  have e4 : (" string or" : String) = " " ++ "string" ++ " or" := rfl
  have e5 : (" handle or" : String) = " " ++ "handle" ++ " or" := rfl
  have e6 : (" table or" : String) = " " ++ "table" ++ " or" := rfl
  have e7 : (" vector or" : String) = " " ++ "vector" ++ " or" := rfl
  have e8 : (" userdata or" : String) = " " ++ "userdata" ++ " or" := rfl
  unfold prmMessage
  simp only []
  rw [e1, e2, e3, e4, e5, e6, e7, e8]
  simp only [strcatIf_eq]
  simp only [String.append_assoc, ← orPieces_append, List.append_assoc]
  rw [show ((if tp.nil = true then ["nil"] else []) ++
      ((if tp.number = true then ["number"] else []) ++
      ((if tp.boolean = true then ["boolean"] else []) ++
      ((if tp.string = true then ["string"] else []) ++
      ((if tp.lightuserdata = true then ["handle"] else []) ++
      ((if tp.table = true then ["table"] else []) ++
      ((if tp.vector = true then ["vector"] else []) ++
      (if tp.userdata = true then ["userdata"] else []))))))) : List String) = prmNames tp
      from rfl]
  rw [orPieces_eq _ h]
  cases fieldname with
  | none =>
    simp only [← String.append_assoc]
    rw [closeExpected_append]
  | some f =>
    simp only [← String.append_assoc]
    rw [closeExpected_append]

theorem lua_isnil_iff (v : LuaValue) : lua_isnil v = true ↔ v = .nil := by
  cases v <;> simp [lua_isnil]

theorem lua_isvector_table (fields : List (LuaKey × LuaValue)) :
    lua_isvector (.table fields) = true ↔
      (lua_count fields = 3 ∧ rawget fields (.str "x") ≠ .nil ∧
        rawget fields (.str "y") ≠ .nil ∧ rawget fields (.str "z") ≠ .nil) := by
  simp only [lua_isvector]
  split_ifs with h1 h2 h3 h4 <;> simp_all [lua_isnil_iff]

theorem lua_isvector_iff (v : LuaValue) :
    lua_isvector v = true ↔
      ∃ fields, v = .table fields ∧ lua_count fields = 3 ∧ rawget fields (.str "x") ≠ .nil ∧
        rawget fields (.str "y") ≠ .nil ∧ rawget fields (.str "z") ≠ .nil := by
  constructor
  · intro h
    cases v with
    | table fields => exact ⟨fields, rfl, (lua_isvector_table fields).mp h⟩
    | _ => simp [lua_isvector] at h
  · rintro ⟨fields, rfl, h⟩
    exact (lua_isvector_table fields).mpr h

theorem prmAccepted_vector (v : LuaValue) : prmAccepted PRMTP_VECTOR v = lua_isvector v := by
  simp [prmAccepted, PRMTP_VECTOR]

theorem prmMessage_vector (v : LuaValue) (prmno : Int) (funcname : String) :
    prmMessage v prmno PRMTP_VECTOR funcname none =
      funcname ++ ": argument " ++ toString prmno ++ ": invalid type (expected vector) " ++
        lua_typename v ++ " given" := by
  have h := prmMessage_eq v prmno PRMTP_VECTOR funcname none (by decide)
  rw [h]
  apply String.ext
  simp [String.data_append, prmNames, PRMTP_VECTOR, String.intercalate, String.intercalate.go]

theorem lua_tovector_safe_eval (st : State) (L : List LuaValue) (idx : Int)
    (funcname : String) :
    lua_tovector_safe st L idx funcname =
      if lua_isvector (lua_value L idx) then lua_tovector st (lua_value L idx)
      else .err (funcname ++ ": argument " ++ toString idx ++
        ": invalid type (expected vector) " ++ lua_typename (lua_value L idx) ++ " given") := by
  simp only [lua_tovector_safe, lua_tovector_safe_prm, AssertPrmType, prmAccepted_vector,
    prmMessage_vector]
  cases lua_isvector (lua_value L idx) <;> simp [Res.bind]

/-- C14, as stated, fails in both directions. The table `{x=1, y=2, z=3, w=4}`
has numeric fields `x`, `y` and `z`, and `lua_tovector_safe` raises on it; the
table `{x=true, y=false, z={}}` has no numeric field, and `lua_tovector_safe`
returns the vector `(0, 0, 0)` for it. -/
theorem tovector_safe_not_exact :
    specVector (.table [(.str "x", .number 1), (.str "y", .number 2), (.str "z", .number 3),
        (.str "w", .number 4)]) = true ∧
      lua_tovector_safe emptyState
          [.table [(.str "x", .number 1), (.str "y", .number 2), (.str "z", .number 3),
            (.str "w", .number 4)]] 1 "f" =
        .err "f: argument 1: invalid type (expected vector) table given" ∧
      specVector (.table [(.str "x", .boolean true), (.str "y", .boolean false),
        (.str "z", .table [])]) = false ∧
      lua_tovector_safe emptyState
          [.table [(.str "x", .boolean true), (.str "y", .boolean false), (.str "z", .table [])]]
          1 "f" = .val (0, 0, 0) :=
  ⟨rfl, rfl, rfl, rfl⟩

/-- C14, amended: `lua_tovector_safe` returns a vector without raising if and
only if the value at `idx` is a table with exactly three entries in which the
fields `x`, `y` and `z` are not nil; it then returns the `lua_tonumber` values
of the three fields (0 for a field that is not a number or a numeric string);
in every other case it raises the type error of `AssertPrmType`. -/
theorem tovector_safe_accepts (st : State) (L : List LuaValue) (idx : Int)
    (funcname : String) :
    ((∃ v, lua_tovector_safe st L idx funcname = .val v) ↔
      ∃ fields, lua_value L idx = .table fields ∧ lua_count fields = 3 ∧
        rawget fields (.str "x") ≠ .nil ∧ rawget fields (.str "y") ≠ .nil ∧
        rawget fields (.str "z") ≠ .nil) ∧
    (∀ fields, lua_value L idx = .table fields → lua_count fields = 3 →
      rawget fields (.str "x") ≠ .nil → rawget fields (.str "y") ≠ .nil →
      rawget fields (.str "z") ≠ .nil →
      lua_tovector_safe st L idx funcname =
        .val (lua_tointeger (rawget fields (.str "x")), lua_tointeger (rawget fields (.str "y")),
          lua_tointeger (rawget fields (.str "z")))) ∧
    ((¬ ∃ fields, lua_value L idx = .table fields ∧ lua_count fields = 3 ∧
        rawget fields (.str "x") ≠ .nil ∧ rawget fields (.str "y") ≠ .nil ∧
        rawget fields (.str "z") ≠ .nil) →
      lua_tovector_safe st L idx funcname =
        .err (funcname ++ ": argument " ++ toString idx ++
          ": invalid type (expected vector) " ++ lua_typename (lua_value L idx) ++ " given")) := by
  have hval : ∀ fields, lua_value L idx = .table fields → lua_count fields = 3 →
      rawget fields (.str "x") ≠ .nil → rawget fields (.str "y") ≠ .nil →
      rawget fields (.str "z") ≠ .nil →
      lua_tovector_safe st L idx funcname =
        .val (lua_tointeger (rawget fields (.str "x")), lua_tointeger (rawget fields (.str "y")),
          lua_tointeger (rawget fields (.str "z"))) := by
    intro fields hv h3 hx hy hz
    have hvec : lua_isvector (lua_value L idx) = true :=
      (lua_isvector_iff _).mpr ⟨fields, hv, h3, hx, hy, hz⟩
    rw [lua_tovector_safe_eval, hvec, hv]
    simp [lua_tovector, lua_getfield, Res.bind]
  have herr : (¬ ∃ fields, lua_value L idx = .table fields ∧ lua_count fields = 3 ∧
        rawget fields (.str "x") ≠ .nil ∧ rawget fields (.str "y") ≠ .nil ∧
        rawget fields (.str "z") ≠ .nil) →
      lua_tovector_safe st L idx funcname =
        .err (funcname ++ ": argument " ++ toString idx ++
          ": invalid type (expected vector) " ++ lua_typename (lua_value L idx) ++ " given") := by
    intro hn
    have hvec : lua_isvector (lua_value L idx) = false := by
      cases h : lua_isvector (lua_value L idx)
      · rfl
      · exact absurd ((lua_isvector_iff _).mp h) hn
    rw [lua_tovector_safe_eval, hvec]
    simp
  refine ⟨⟨?_, ?_⟩, hval, herr⟩
  · rintro ⟨v, hv⟩
    by_contra hn
    rw [herr hn] at hv
    simp at hv
  · rintro ⟨fields, hv, h3, hx, hy, hz⟩
    exact ⟨_, hval fields hv h3 hx hy hz⟩

/-- C14, amended, at a concrete input: the table `{x=7, y=2, z=true}` decodes
to `(7, 2, 0)`. -/
theorem tovector_safe_accepts_witness :
    lua_tovector_safe emptyState
        [.table [(.str "x", .number 7), (.str "y", .number 2), (.str "z", .boolean true)]]
        1 "f" = .val (7, 2, 0) :=
  (tovector_safe_accepts emptyState
    [.table [(.str "x", .number 7), (.str "y", .number 2), (.str "z", .boolean true)]]
    1 "f").2.1 _ rfl (by decide) (by simp [rawget]) (by simp [rawget]) (by simp [rawget])

/-- C15, as stated, fails: for the table `{x=1, y=2}` the message of
`lua_tovector_safe` is "f: argument 1: invalid type (expected vector) table
given"; it contains the expected type name but does not name the field `z`
(the letter z does not occur in it). -/
theorem missing_z_not_named :
    lua_tovector_safe emptyState [.table [(.str "x", .number 1), (.str "y", .number 2)]] 1 "f" =
        .err "f: argument 1: invalid type (expected vector) table given" ∧
      ¬ ('z' ∈ "f: argument 1: invalid type (expected vector) table given".data) :=
  ⟨rfl, by decide⟩

/-- C15, amended: for every table with no field `z` (in particular one with
numeric fields `x` and `y`), `lua_tovector_safe` raises the type error
"funcname: argument idx: invalid type (expected vector) table given", which
carries the function name, the position, the expected type name "vector" and
the actual type name "table", and no field name. -/
theorem missing_z_message (st : State) (L : List LuaValue) (idx : Int) (funcname : String)
    (fields : List (LuaKey × LuaValue)) (hv : lua_value L idx = .table fields)
    (hz : rawget fields (.str "z") = .nil) :
    lua_tovector_safe st L idx funcname =
      .err (funcname ++ ": argument " ++ toString idx ++
        ": invalid type (expected vector) table given") := by
  have hvec : lua_isvector (lua_value L idx) = false := by
    cases h : lua_isvector (lua_value L idx)
    · rfl
    · rw [hv] at h
      exact absurd hz ((lua_isvector_table fields).mp h).2.2.2
  rw [lua_tovector_safe_eval, hvec, hv]
  refine congrArg Res.err ?_
  apply String.ext
  simp [String.data_append, lua_typename]

/-- C15, amended, at a concrete input: the table `{x=1, y=2}` at stack index 2. -/
theorem missing_z_message_witness :
    lua_tovector_safe emptyState
        [.nil, .table [(.str "x", .number 1), (.str "y", .number 2)]] 2 "oapi.f" =
      .err ("oapi.f" ++ ": argument " ++ toString (2 : Int) ++
        ": invalid type (expected vector) table given") :=
  missing_z_message emptyState [.nil, .table [(.str "x", .number 1), (.str "y", .number 2)]] 2
    "oapi.f" [(.str "x", .number 1), (.str "y", .number 2)] rfl rfl

/-- C16: the value codec round-trips. For every 3-vector, `lua_isvector` holds
of the table `lua_pushvector` builds and `lua_tovector` reads the vector back;
for every 3x3 matrix, `lua_ismatrix` holds of the table `lua_pushmatrix` builds
and `lua_tomatrix` reads the matrix back, each entry in its own position; the
entries of the two tables are exactly `x`, `y`, `z` and `m11` .. `m33`. -/
theorem codec_round_trip (st : State) (x y z : Int) (mat : MATRIX3) :
    lua_isvector (lua_pushvector x y z) = true ∧
    lua_tovector st (lua_pushvector x y z) = .val (x, y, z) ∧
    lua_ismatrix (lua_pushmatrix mat) = true ∧
    lua_tomatrix st (lua_pushmatrix mat) = .val mat ∧
    (∃ fields, lua_pushvector x y z = .table fields ∧
      (lua_entries fields).map Prod.fst = [.str "x", .str "y", .str "z"]) ∧
    (∃ fields, lua_pushmatrix mat = .table fields ∧
      (lua_entries fields).map Prod.fst = matrixFields.map LuaKey.str) := by
  refine ⟨?_, ?_, ?_, ?_, ⟨_, rfl, ?_⟩, ⟨_, rfl, ?_⟩⟩
  · simp [lua_pushvector, lua_isvector, lua_count, lua_entries, rawget, lua_isnil]
  · simp [lua_pushvector, lua_tovector, lua_getfield, Res.bind, rawget, lua_tointeger, tonumber]
  · simp [lua_pushmatrix, lua_ismatrix, lua_count, lua_entries, rawget, lua_isnil, matrixFields]
  · simp [lua_pushmatrix, lua_tomatrix, lua_getfield, Res.bind, rawget, lua_tointeger, tonumber]
  · simp [lua_entries, lua_isnil]
  · simp [lua_entries, lua_isnil, matrixFields]

/-- C17, as stated, fails for values the Lua tests coerce: with the mask
`{string}` a number is accepted (`lua_isstring` holds of numbers), and with the
mask `{userdata}` a handle is accepted (`lua_isuserdata` holds of light
userdata), although the type of the value is not in the mask; no message is
raised. -/
theorem coerced_types_accepted :
    typeInMask PRMTP_STRING (.number 5) = false ∧
      AssertPrmType [.number 5] 1 1 PRMTP_STRING "f" none = .val 1 ∧
      typeInMask PRMTP_USERDATA (.lightuserdata 7) = false ∧
      AssertPrmType [.lightuserdata 7] 1 1 PRMTP_USERDATA "f" none = .val 1 :=
  ⟨rfl, rfl, rfl, rfl⟩

/-- C17, amended: for every function name, position, mask that lists at least
one of nil, number, boolean, string, handle, table, vector, userdata, and every
value that none of the tests the mask selects accepts (`lua_isnil`,
`lua_isnumber`, `lua_isboolean`, `lua_isstring`, `lua_islightuserdata`,
`lua_istable`, `lua_isvector`, `lua_isuserdata`, in this order),
`AssertPrmType` raises "f: argument n: invalid type (expected T1 or ... or Tk)
A given", where T1..Tk are the names of the listed types in the fixed order and
A is the Lua type name of the value; with a field name F, "field F: " follows
"argument n: ". A value one of the selected tests accepts makes it return 1. -/
theorem prm_message_format (L : List LuaValue) (idx prmno : Int) (tp : PrmMask)
    (funcname : String) (hne : prmNames tp ≠ []) :
    (prmAccepted tp (lua_value L idx) = false →
      AssertPrmType L idx prmno tp funcname none =
        .err (funcname ++ ": argument " ++ toString prmno ++ ": invalid type (expected" ++
          (" " ++ " or ".intercalate (prmNames tp) ++ ") ") ++
          lua_typename (lua_value L idx) ++ " given") ∧
      ∀ F : String, AssertPrmType L idx prmno tp funcname (some F) =
        .err (funcname ++ ": argument " ++ toString prmno ++ ": field " ++ F ++
          ": invalid type (expected" ++
          (" " ++ " or ".intercalate (prmNames tp) ++ ") ") ++
          lua_typename (lua_value L idx) ++ " given")) ∧
    (prmAccepted tp (lua_value L idx) = true →
      ∀ fieldname, AssertPrmType L idx prmno tp funcname fieldname = .val 1) ∧
    (prmAccepted tp (lua_value L idx) = true ↔
      ((tp.nil = true ∧ lua_isnil (lua_value L idx) = true) ∨
        (tp.number = true ∧ lua_isnumber (lua_value L idx) = true) ∨
        (tp.boolean = true ∧ lua_isboolean (lua_value L idx) = true) ∨
        (tp.string = true ∧ lua_isstring (lua_value L idx) = true) ∨
        (tp.lightuserdata = true ∧ lua_islightuserdata (lua_value L idx) = true) ∨
        (tp.table = true ∧ lua_istable (lua_value L idx) = true) ∨
        (tp.vector = true ∧ lua_isvector (lua_value L idx) = true) ∨
        (tp.userdata = true ∧ lua_isuserdata (lua_value L idx) = true))) := by
  refine ⟨?_, ?_, ?_⟩
  · intro hrej
    refine ⟨?_, ?_⟩
    · simp only [AssertPrmType, hrej, prmMessage_eq _ _ _ _ _ hne]
      simp
    · intro F
      simp only [AssertPrmType, hrej, prmMessage_eq _ _ _ _ _ hne]
      simp
  · intro hacc fieldname
    simp [AssertPrmType, hacc]
  · simp only [prmAccepted]
    split_ifs <;> simp_all

/-- C17, amended, at a concrete input: the mask `{nil, number, userdata}` and a
table as the value, without and with a field name. -/
theorem prm_message_format_witness :
    AssertPrmType [.table []] 1 1 { nil := true, number := true, userdata := true } "oapi.f"
        none =
      .err ("oapi.f" ++ ": argument " ++ toString (1 : Int) ++ ": invalid type (expected" ++
        (" " ++ " or ".intercalate ["nil", "number", "userdata"] ++ ") ") ++ "table" ++
        " given") ∧
    AssertPrmType [.table []] 1 1 { nil := true, number := true, userdata := true } "oapi.f"
        none =
      .err "oapi.f: argument 1: invalid type (expected nil or number or userdata) table given" :=
  ⟨((prm_message_format [.table []] 1 1 { nil := true, number := true, userdata := true }
      "oapi.f" (by decide)).1 rfl).1, rfl⟩

theorem take_keeps_prefix {α : Type} (p r : List α) (h : 3 ≤ r.length) :
    p <+: (p ++ r).take ((p ++ r).length - 3) := by
  rw [List.take_append_eq_append_take]
  have hp : p.take ((p ++ r).length - 3) = p := by
    apply List.take_of_length_le
    simp only [List.length_append]
    omega
  rw [hp]
  exact List.prefix_append _ _

theorem strcatIf_keeps (b : Bool) (P r piece : String) :
    ∃ r2 : String, strcatIf b (P ++ r) piece = P ++ r2 ∧ r.length ≤ r2.length := by
  cases b
  · exact ⟨r, by simp [strcatIf], le_refl _⟩
  · refine ⟨r ++ piece, by simp [strcatIf, String.append_assoc], ?_⟩
    simp [String.length_append]

theorem prmMessage_position (v : LuaValue) (n : Int) (tp : PrmMask) (funcname : String)
    (fieldname : Option String) :
    (funcname ++ ": argument " ++ toString n ++ ": ").data <+:
      (prmMessage v n tp funcname fieldname).data := by
  have hbase : ∃ r0 : String,
      (match fieldname with
        | some f =>
          funcname ++ ": argument " ++ toString n ++ ": field " ++ f ++
            ": invalid type (expected"
        | none => funcname ++ ": argument " ++ toString n ++ ": invalid type (expected") =
        (funcname ++ ": argument " ++ toString n ++ ": ") ++ r0 ∧ 3 ≤ r0.length := by
    cases fieldname with
    | none =>
      refine ⟨"invalid type (expected", ?_, by decide⟩
      apply String.ext
      simp [String.data_append]
    | some f =>
      refine ⟨"field " ++ f ++ ": invalid type (expected", ?_, ?_⟩
      · apply String.ext
        simp [String.data_append]
      · simp only [String.length_append]
        have : (": invalid type (expected" : String).length = 24 := by decide
        omega
  obtain ⟨r0, h0, l0⟩ := hbase
  unfold prmMessage
  simp only []
  rw [h0]
  obtain ⟨r1, h1, l1⟩ := strcatIf_keeps tp.nil (funcname ++ ": argument " ++ toString n ++ ": ")
    r0 " nil or"
  rw [h1]
  obtain ⟨r2, h2, l2⟩ := strcatIf_keeps tp.number
    (funcname ++ ": argument " ++ toString n ++ ": ") r1 " number or"
  rw [h2]
  obtain ⟨r3, h3, l3⟩ := strcatIf_keeps tp.boolean
    (funcname ++ ": argument " ++ toString n ++ ": ") r2 " boolean or"
  rw [h3]
  obtain ⟨r4, h4, l4⟩ := strcatIf_keeps tp.string
    (funcname ++ ": argument " ++ toString n ++ ": ") r3 " string or"
  rw [h4]
  obtain ⟨r5, h5, l5⟩ := strcatIf_keeps tp.lightuserdata
    (funcname ++ ": argument " ++ toString n ++ ": ") r4 " handle or"
  rw [h5]
  obtain ⟨r6, h6, l6⟩ := strcatIf_keeps tp.table
    (funcname ++ ": argument " ++ toString n ++ ": ") r5 " table or"
  rw [h6]
  obtain ⟨r7, h7, l7⟩ := strcatIf_keeps tp.vector
    (funcname ++ ": argument " ++ toString n ++ ": ") r6 " vector or"
  rw [h7]
  obtain ⟨r8, h8, l8⟩ := strcatIf_keeps tp.userdata
    (funcname ++ ": argument " ++ toString n ++ ": ") r7 " userdata or"
  rw [h8]
  have hlen : 3 ≤ r8.data.length := by
    have : r8.length = r8.data.length := rfl
    omega
  have hp := take_keeps_prefix (funcname ++ ": argument " ++ toString n ++ ": ").data r8.data hlen
  simp only [closeExpected, String.data_append] at hp ⊢
  exact hp.trans ((List.prefix_append _ _).trans
    ((List.prefix_append _ _).trans (List.prefix_append _ _)))

theorem AssertPrmType_reports (L : List LuaValue) (idx n : Int) (tp : PrmMask)
    (funcname : String) (fieldname : Option String) :
    reportsPosition (AssertPrmType L idx n tp funcname fieldname) funcname n := by
  intro msg h
  unfold AssertPrmType at h
  split at h
  · cases h
  · injection h with h
    subst h
    exact prmMessage_position _ _ _ _ _

theorem AssertPrmType_val (L : List LuaValue) (idx n : Int) (tp : PrmMask)
    (funcname : String) (fieldname : Option String) (a : Int)
    (h : AssertPrmType L idx n tp funcname fieldname = .val a) :
    prmAccepted tp (lua_value L idx) = true := by
  unfold AssertPrmType at h
  split at h
  · assumption
  · cases h

theorem reports_bind {α β : Type} (r : Res α) (k : α → Res β) (funcname : String) (n : Int)
    (hr : reportsPosition r funcname n) (hk : ∀ a msg, r = .val a → k a ≠ .err msg) :
    reportsPosition (r.bind k) funcname n := by
  intro msg h
  cases r with
  | val a => exact absurd h (hk a msg rfl)
  | err e =>
    simp only [Res.bind] at h
    injection h with h
    exact hr msg (congrArg Res.err h)
  | fault => simp [Res.bind] at h

theorem lua_tovector_of_isvector (st : State) (v : LuaValue) (h : lua_isvector v = true)
    (msg : String) : lua_tovector st v ≠ .err msg := by
  obtain ⟨fields, rfl, _⟩ := (lua_isvector_iff v).mp h
  simp [lua_tovector, lua_getfield, Res.bind]

theorem prmAccepted_matrix (v : LuaValue) : prmAccepted PRMTP_MATRIX v = false := by
  simp [prmAccepted, PRMTP_MATRIX]

theorem lua_value_top (L : List LuaValue) (v : LuaValue) : lua_value (L ++ [v]) (-1) = v := by
  simp [lua_value]

theorem simple_reports {β : Type} (L : List LuaValue) (idx n : Int) (tp : PrmMask)
    (funcname : String) (fieldname : Option String) (g : β) :
    reportsPosition ((AssertPrmType L idx n tp funcname fieldname).bind fun _ => .val g)
      funcname n :=
  reports_bind _ _ _ _ (AssertPrmType_reports _ _ _ _ _ _) (by intro a msg _ h; cases h)

theorem vector_reports (st : State) (L : List LuaValue) (idx n : Int) (funcname : String)
    (fieldname : Option String) :
    reportsPosition ((AssertPrmType L idx n PRMTP_VECTOR funcname fieldname).bind fun _ =>
      lua_tovector st (lua_value L idx)) funcname n :=
  reports_bind _ _ _ _ (AssertPrmType_reports _ _ _ _ _ _) (by
    intro a msg ha
    have := AssertPrmType_val _ _ _ _ _ _ _ ha
    rw [prmAccepted_vector] at this
    exact lua_tovector_of_isvector st _ this msg)

theorem matrix_reports (st : State) (L : List LuaValue) (idx n : Int) (funcname : String) :
    reportsPosition (lua_tomatrix_safe_prm st L idx n funcname) funcname n :=
  reports_bind _ _ _ _ (AssertPrmType_reports _ _ _ _ _ _) (by
    intro a msg ha
    have := AssertPrmType_val _ _ _ _ _ _ _ ha
    rw [prmAccepted_matrix] at this
    cases this)

/-- C18: the position a checked decoder reports. The function-call variants of
the integer, number, boolean, string, light-userdata and vector decoders, of
the three field decoders (on a table), and `AssertPrmType(L, idx, tp,
funcname)` start their error text with "funcname: argument idx: "; the
method-call variants and `AssertMtdPrmType` start it with "funcname: argument
idx-1: ". The function-call variant `lua_tomatrix_safe(L, idx, funcname)`
reports `idx - 1` like its method-call variant: on the stack `[nil, 5]` at
index 2 it raises "f: argument 1: ..." where `lua_tovector_safe` raises
"f: argument 2: ...". -/
theorem matrix_position_off_by_one (st : State) (L : List LuaValue) (idx : Int)
    (funcname fieldname : String) (tp : PrmMask) :
    (reportsPosition (lua_tointeger_safe L idx funcname) funcname idx ∧
      reportsPosition (lua_tonumber_safe L idx funcname) funcname idx ∧
      reportsPosition (lua_toboolean_safe L idx funcname) funcname idx ∧
      reportsPosition (lua_tostring_safe L idx funcname) funcname idx ∧
      reportsPosition (lua_tolightuserdata_safe L idx funcname) funcname idx ∧
      reportsPosition (lua_tovector_safe st L idx funcname) funcname idx ∧
      reportsPosition (AssertPrmType_idx L idx tp funcname) funcname idx) ∧
    (reportsPosition (luamtd_tointeger_safe L idx funcname) funcname (idx - 1) ∧
      reportsPosition (luamtd_tonumber_safe L idx funcname) funcname (idx - 1) ∧
      reportsPosition (luamtd_toboolean_safe L idx funcname) funcname (idx - 1) ∧
      reportsPosition (luamtd_tostring_safe L idx funcname) funcname (idx - 1) ∧
      reportsPosition (luamtd_tolightuserdata_safe L idx funcname) funcname (idx - 1) ∧
      reportsPosition (luamtd_tovector_safe st L idx funcname) funcname (idx - 1) ∧
      reportsPosition (luamtd_tomatrix_safe st L idx funcname) funcname (idx - 1) ∧
      reportsPosition (AssertMtdPrmType L idx tp funcname) funcname (idx - 1)) ∧
    (∀ fields, lua_value L idx = .table fields →
      reportsPosition (lua_field_tonumber_safe st L idx fieldname funcname) funcname idx ∧
      reportsPosition (lua_field_tolightuserdata_safe st L idx fieldname funcname)
        funcname idx ∧
      reportsPosition (lua_field_tovector_safe st L idx fieldname funcname) funcname idx ∧
      reportsPosition (luamtd_field_tonumber_safe st L idx fieldname funcname)
        funcname (idx - 1) ∧
      reportsPosition (luamtd_field_tolightuserdata_safe st L idx fieldname funcname)
        funcname (idx - 1) ∧
      reportsPosition (luamtd_field_tovector_safe st L idx fieldname funcname)
        funcname (idx - 1)) ∧
    reportsPosition (lua_tomatrix_safe st L idx funcname) funcname (idx - 1) ∧
    lua_tomatrix_safe emptyState [.nil, .number 5] 2 "f" =
      .err "f: argument 1: invalid type (expec) number given" ∧
    ¬ reportsPosition (lua_tomatrix_safe emptyState [.nil, .number 5] 2 "f") "f" 2 ∧
    lua_tovector_safe emptyState [.nil, .number 5] 2 "f" =
      .err "f: argument 2: invalid type (expected vector) number given" := by
  refine ⟨⟨simple_reports _ _ _ _ _ _ _, simple_reports _ _ _ _ _ _ _,
      simple_reports _ _ _ _ _ _ _, simple_reports _ _ _ _ _ _ _,
      simple_reports _ _ _ _ _ _ _, vector_reports _ _ _ _ _ _,
      AssertPrmType_reports _ _ _ _ _ _⟩,
    ⟨simple_reports _ _ _ _ _ _ _, simple_reports _ _ _ _ _ _ _,
      simple_reports _ _ _ _ _ _ _, simple_reports _ _ _ _ _ _ _,
      simple_reports _ _ _ _ _ _ _, vector_reports _ _ _ _ _ _, matrix_reports _ _ _ _ _,
      AssertPrmType_reports _ _ _ _ _ _⟩, ?_, matrix_reports _ _ _ _ _, rfl, ?_, rfl⟩
  · intro fields hv
    have hnum : ∀ n : Int,
        reportsPosition (lua_field_tonumber_safe_prm st L idx n fieldname funcname)
          funcname n := by
      intro n
      simp only [lua_field_tonumber_safe_prm, hv, lua_getfield, Res.bind]
      exact simple_reports _ _ _ _ _ _ _
    have hlud : ∀ n : Int,
        reportsPosition (lua_field_tolightuserdata_safe_prm st L idx n fieldname funcname)
          funcname n := by
      intro n
      simp only [lua_field_tolightuserdata_safe_prm, hv, lua_getfield, Res.bind]
      exact simple_reports _ _ _ _ _ _ _
    have hvec : ∀ n : Int,
        reportsPosition (lua_field_tovector_safe_prm st L idx n fieldname funcname)
          funcname n := by
      intro n
      simp only [lua_field_tovector_safe_prm, hv, lua_getfield, Res.bind]
      exact vector_reports _ _ _ _ _ _
    exact ⟨hnum _, hlud _, hvec _, hnum _, hlud _, hvec _⟩
  · intro h
    have h2 := h "f: argument 1: invalid type (expec) number given" rfl
    revert h2
    decide

/-! ### Registry of wrapped objects -/

theorem find_filter_other (l : List (Nat × LuaValue)) (p q : Nat) (h : q ≠ p) :
    (l.filter (fun e => !(decide (e.1 = p)))).find? (fun e => decide (e.1 = q)) =
      l.find? (fun e => decide (e.1 = q)) := by
  induction l with
  | nil => rfl
  | cons a rest ih =>
    rcases a with ⟨k, w⟩
    by_cases hp : k = p
    · subst hp
      have hq : ¬ k = q := fun e => h e.symm
      simp [List.filter_cons, List.find?_cons, hq, ih]
    · by_cases hq : k = q
      · subst hq
        simp [List.filter_cons, List.find?_cons, hp]
      · simp [List.filter_cons, List.find?_cons, hp, hq, ih]

theorem registry_get_set (r : Registry) (p q : Nat) (v : LuaValue) :
    registry_get (registry_set r p v) q = if q = p then v else registry_get r q := by
  by_cases h : q = p
  · subst h
    simp [registry_get, registry_set]
  · have hne : ¬ p = q := fun e => h e.symm
    simp only [registry_get, registry_set, List.find?_cons, h, if_false, hne, decide_False]
    rw [find_filter_other _ _ _ h]

theorem push_hit (ext : Registry → Registry) (t : WrapTag) (r : Registry) (p : Nat)
    (h : registry_get r p ≠ .nil) : pushFor ext t r p = (r, registry_get r p) := by
  have hn : lua_isnil (registry_get r p) = false := by
    cases hv : lua_isnil (registry_get r p)
    · rfl
    · exact absurd ((lua_isnil_iff _).mp hv) h
  cases t <;>
    simp [pushFor, lua_pushvessel, lua_pushmfd, lua_pushlightemitter, lua_pushsketchpad, hn]

theorem push_miss (ext : Registry → Registry) (t : WrapTag) (r : Registry) (p : Nat)
    (h : registry_get r p = .nil) :
    pushFor ext t r p =
      (registry_set
        ((match t with
          | .vessel => ext
          | _ => id) { r with wrappers := r.wrappers ++ [p] })
        p (.userdata t.vtable r.wrappers.length),
      .userdata t.vtable r.wrappers.length) := by
  have hn : lua_isnil (registry_get r p) = true := (lua_isnil_iff _).mpr h
  cases t <;>
    simp [pushFor, lua_pushvessel, lua_pushmfd, lua_pushlightemitter, lua_pushsketchpad, hn,
      new_wrapper, WrapTag.vtable]

theorem push_twice (ext : Registry → Registry) (t t2 : WrapTag) (r : Registry) (p : Nat) :
    pushFor ext t2 (pushFor ext t r p).1 p = ((pushFor ext t r p).1, (pushFor ext t r p).2) := by
  by_cases h : registry_get r p = .nil
  · rw [push_miss ext t r p h]
    have hg : registry_get (registry_set
        ((match t with
          | .vessel => ext
          | _ => id) { r with wrappers := r.wrappers ++ [p] })
        p (.userdata t.vtable r.wrappers.length)) p = .userdata t.vtable r.wrappers.length := by
      rw [registry_get_set]
      simp
    rw [push_hit ext t2 _ p (by rw [hg]; simp), hg]
  · rw [push_hit ext t r p h, push_hit ext t2 r p h]

/-- C12: identity stability of the handle registry. For each of the four push
functions and every pointer `p`, a second call with `p` right after the first
returns the same wrapper and leaves the context (the wrappers allocated and
the registry) exactly as the first call left it. When the registry has no
entry for `p`, the first call returns a newly allocated wrapper with the
metatable of the tag, after the call the entry of `p` is that wrapper and
every other entry is as before, and exactly one wrapper, holding `p`, has been
allocated; for `lua_pushvessel` these two facts are those of a vessel callback
that leaves the registry entries and the wrappers as they are. -/
theorem wrapper_identity_stable (ext : Registry → Registry) (t : WrapTag) (r : Registry)
    (p : Nat) :
    ((pushFor ext t (pushFor ext t r p).1 p).2 = (pushFor ext t r p).2 ∧
      (pushFor ext t (pushFor ext t r p).1 p).1 = (pushFor ext t r p).1) ∧
    (registry_get r p = .nil →
      (pushFor ext t r p).2 = .userdata t.vtable r.wrappers.length ∧
      ((t = .vessel → ∀ s q, registry_get (ext s) q = registry_get s q) →
        ∀ q, registry_get (pushFor ext t r p).1 q =
          if q = p then (pushFor ext t r p).2 else registry_get r q) ∧
      ((t = .vessel → ∀ s, (ext s).wrappers = s.wrappers) →
        (pushFor ext t r p).1.wrappers = r.wrappers ++ [p])) := by
  refine ⟨?_, ?_⟩
  · rw [push_twice]
    exact ⟨rfl, rfl⟩
  · intro h
    rw [push_miss ext t r p h]
    refine ⟨rfl, ?_, ?_⟩
    · intro hext q
      rw [registry_get_set]
      by_cases hq : q = p
      · simp [hq]
      · simp only [hq, if_false]
        cases t with
        | vessel => exact hext rfl _ q
        | _ => rfl
    · intro hext
      cases t with
      | vessel => simp [registry_set, hext rfl]
      | _ => rfl

/-- C12 at a concrete input: pushing the vessel pointer 7 twice in a context
with no wrapped objects, with a vessel callback that does nothing. -/
theorem wrapper_identity_stable_witness :
    (lua_pushvessel id emptyRegistry 7).2 = .userdata "VESSEL.vtable" 0 ∧
      (lua_pushvessel id (lua_pushvessel id emptyRegistry 7).1 7).2 =
        .userdata "VESSEL.vtable" 0 ∧
      (lua_pushvessel id emptyRegistry 7).1.wrappers = [7] ∧
      (lua_pushvessel id (lua_pushvessel id emptyRegistry 7).1 7).1.wrappers = [7] :=
  ⟨((wrapper_identity_stable id .vessel emptyRegistry 7).2 rfl).1, rfl,
    ((wrapper_identity_stable id .vessel emptyRegistry 7).2 rfl).2.2 (fun _ _ => rfl), rfl⟩

/-- C13, as stated, fails: after `lua_pushvessel` wrapped the pointer 7,
`lua_pushmfd` called with the same pointer returns the cached wrapper, whose
metatable is `VESSEL.vtable`, not `MFD.vtable`. -/
theorem cached_wrapper_keeps_first_tag :
    metatableName (lua_pushmfd (lua_pushvessel id emptyRegistry 7).1 7).2 =
        some "VESSEL.vtable" ∧
      metatableName (lua_pushmfd (lua_pushvessel id emptyRegistry 7).1 7).2 ≠
        some WrapTag.mfd.vtable :=
  ⟨rfl, by decide⟩

/-- C13, amended: the metatable of a wrapped object is that of the tag it was
created under. If the registry has no entry for `p`, the push function of the
tag `t` returns a wrapper with the metatable registered for `t`; if it has an
entry, the function returns that entry as it is and changes nothing; so
once `p` has been pushed under the tag `t`, a push of `p` under any tag `t2`
returns the value the first push returned, with the metatable it has. -/
theorem wrapper_metatable (ext : Registry → Registry) (t : WrapTag) (r : Registry) (p : Nat) :
    (registry_get r p = .nil → metatableName (pushFor ext t r p).2 = some t.vtable) ∧
    (registry_get r p ≠ .nil → pushFor ext t r p = (r, registry_get r p)) ∧
    (∀ t2, (pushFor ext t2 (pushFor ext t r p).1 p).2 = (pushFor ext t r p).2 ∧
      metatableName (pushFor ext t2 (pushFor ext t r p).1 p).2 =
        metatableName (pushFor ext t r p).2) := by
  refine ⟨?_, push_hit ext t r p, ?_⟩
  · intro h
    rw [push_miss ext t r p h]
    rfl
  · intro t2
    rw [push_twice]
    exact ⟨rfl, rfl⟩

/-- C13, amended, at a concrete input: the sketchpad pointer 3 pushed in a
context with no wrapped objects, then pushed again as a light emitter. -/
theorem wrapper_metatable_witness :
    metatableName (lua_pushsketchpad emptyRegistry 3).2 = some "SKP.vtable" ∧
      metatableName (lua_pushlightemitter (lua_pushsketchpad emptyRegistry 3).1 3).2 =
        some "SKP.vtable" :=
  ⟨(wrapper_metatable id .sketchpad emptyRegistry 3).1 rfl,
    ((wrapper_metatable id .sketchpad emptyRegistry 3).2.2 .lightemitter).2⟩

/-! ### Execution coordinator -/

theorem PcallError.code_ne_zero (c : PcallError) : c.code ≠ 0 := by
  cases c <;> decide

theorem LuaCall_top (rt : Runtime) (s : Interp) (f : LuaValue) (nres : Nat) :
    LuaCall rt { s with stack := s.stack ++ [f] } 0 nres =
      match rt.pcall s.env f [] with
      | (env, .returned results) =>
        ({ s with env := env, stack := s.stack ++ adjustResults nres results }, 0)
      | (env, .failed c errobj) =>
        ({ s with
            env := { env with errlog := env.errlog ++ [lua_tostring errobj]
                              errorbox := env.errorbox ++ [lua_tostring errobj] }
            stack := s.stack ++ [tostringInPlace errobj] }, c.code) := by
  simp [LuaCall]

theorem lua_tostring_inPlace (v : LuaValue) :
    lua_tostring (tostringInPlace v) = lua_tostring v := by
  cases v <;> rfl

theorem adjustResults_one (results : List LuaValue) :
    adjustResults 1 results = [results.headD .nil] := by
  cases results <;> simp [adjustResults]

theorem queryJobs_returned (rt : Runtime) (s : Interp) (hook : String) (env : ScriptEnv)
    (results : List LuaValue)
    (h : rt.pcall s.env (lua_getglobal s.env hook) [] = (env, .returned results)) :
    queryJobs rt s hook =
      { s with env := env, jobs := lua_tointeger (results.headD .nil) } := by
  simp only [queryJobs]
  rw [LuaCall_top, h]
  simp [adjustResults_one, lua_value_top]

theorem queryJobs_busy (rt : Runtime) (s : Interp) (hook : String) :
    (queryJobs rt s hook).is_busy = s.is_busy := by
  simp only [queryJobs]
  rw [LuaCall_top]
  cases h : rt.pcall s.env (lua_getglobal s.env hook) [] with
  | mk env r => cases r <;> rfl

theorem lua_getglobal_set (env : ScriptEnv) (name : String) (v : LuaValue) :
    lua_getglobal (lua_setglobal env name v) name = v := by
  simp [lua_getglobal, lua_setglobal]

/-- C19: the script-visible yield point. With the termination flag set
(`status = 1`, as `Terminate` leaves it) `frameskip` sets the global
`wait_exit` to true and makes no synchronisation call, so neither `EndExec`
nor `WaitExec` runs and both mutexes are held as before; otherwise it is
`EndExec` followed by `WaitExec` (release of the execution mutex, wait for
the wait mutex, wait for the execution mutex, release of the wait mutex) and
the globals are unchanged. -/
theorem frameskip_spec (dflt : Nat) (s : Interp) :
    (s.env.status = 1 →
      frameskip dflt s = { s with env := lua_setglobal s.env "wait_exit" (.boolean true) } ∧
      lua_getglobal (frameskip dflt s).env "wait_exit" = .boolean true ∧
      (frameskip dflt s).env.sync = s.env.sync) ∧
    (s.env.status ≠ 1 →
      frameskip dflt s = WaitExec (EndExec s) dflt ∧
      (frameskip dflt s).env.sync = s.env.sync ++
        [.release .hExecMutex, .wait .hWaitMutex dflt, .wait .hExecMutex dflt,
          .release .hWaitMutex] ∧
      (frameskip dflt s).env.globals = s.env.globals) ∧
    (lua_getglobal (frameskip dflt (Terminate s)).env "wait_exit" = .boolean true ∧
      (frameskip dflt (Terminate s)).env.sync = s.env.sync) := by
  refine ⟨?_, ?_, ?_⟩
  · intro h
    have hf : frameskip dflt s =
        { s with env := lua_setglobal s.env "wait_exit" (.boolean true) } := if_pos h
    refine ⟨hf, ?_, ?_⟩
    · rw [hf]
      exact lua_getglobal_set _ _ _
    · rw [hf]
      rfl
  · intro h
    have hf : frameskip dflt s = WaitExec (EndExec s) dflt := if_neg h
    refine ⟨hf, ?_, ?_⟩
    · rw [hf]
      simp [WaitExec, EndExec]
    · rw [hf]
      rfl
  · have hf : frameskip dflt (Terminate s) =
        { Terminate s with env := lua_setglobal (Terminate s).env "wait_exit" (.boolean true) } :=
      if_pos rfl
    rw [hf]
    exact ⟨lua_getglobal_set _ _ _, rfl⟩

/-- C19 at a concrete input: an interpreter that was not asked to terminate
yields with the default timeout 1000. -/
theorem frameskip_spec_witness :
    (frameskip 1000 demoInterp).env.sync =
        [.release .hExecMutex, .wait .hWaitMutex 1000, .wait .hExecMutex 1000,
          .release .hWaitMutex] ∧
      (frameskip 1000 demoInterp).env.globals = demoInterp.env.globals :=
  ((frameskip_spec 1000 demoInterp).2.1 (by decide)).2

/-- C20: status and busy flag of `RunChunk`. For a chunk that does not start
with the terminating zero: `is_busy` is false in the interpreter `RunChunk`
leaves, whatever the protected call of the chunk gave; the value returned is
the result code of that call, 0 exactly when the call returned; when it
returned and the hook `_nbranch` returns, `jobs` is the integer value of the
first result of the hook; when it failed with an error object that has a text
(a string or a number), `jobs` is unchanged. For the empty chunk `RunChunk`
calls the hook `_idle`, sets `jobs` to the integer value of its first result,
returns -1 and leaves `is_busy` as it was. -/
theorem RunChunk_status_and_busy (rt : Runtime) (s : Interp) (chunk : String) (n : Nat) :
    (chunkNonEmpty chunk = true →
      (RunChunk rt s chunk n).1.is_busy = false ∧
      (RunChunk rt s chunk n).2 = (rt.pcall s.env (rt.loadbuffer chunk n) []).2.code ∧
      ((RunChunk rt s chunk n).2 = 0 ↔
        ∃ results, (rt.pcall s.env (rt.loadbuffer chunk n) []).2 = .returned results) ∧
      (∀ env1 results env2 hookres,
        rt.pcall s.env (rt.loadbuffer chunk n) [] = (env1, .returned results) →
        rt.pcall env1 (lua_getglobal env1 "_nbranch") [] = (env2, .returned hookres) →
        (RunChunk rt s chunk n).1.jobs = lua_tointeger (hookres.headD .nil)) ∧
      (∀ env1 c errobj msg,
        rt.pcall s.env (rt.loadbuffer chunk n) [] = (env1, .failed c errobj) →
        lua_tostring errobj = some msg →
        (RunChunk rt s chunk n).1.jobs = s.jobs)) ∧
    (chunkNonEmpty chunk = false →
      (RunChunk rt s chunk n).2 = -1 ∧
      (RunChunk rt s chunk n).1.is_busy = s.is_busy ∧
      (∀ env1 hookres,
        rt.pcall s.env (lua_getglobal s.env "_idle") [] = (env1, .returned hookres) →
        (RunChunk rt s chunk n).1.jobs = lua_tointeger (hookres.headD .nil))) := by
  refine ⟨?_, ?_⟩
  · intro hne
    have hrun : RunChunk rt s chunk n =
        (match LuaCall rt { s with is_busy := true, stack := s.stack ++ [rt.loadbuffer chunk n] }
            0 0 with
        | (s3, res) =>
          match (if res ≠ 0 then lua_tostring (lua_value s3.stack (-1)) else none) with
          | some error =>
            ({ (if s3.is_term then term_strout s3 error true else s3) with is_busy := false },
              res)
          | none => ({ queryJobs rt s3 "_nbranch" with is_busy := false }, res)) := by
      simp only [RunChunk, hne, if_true]
    have hcall := LuaCall_top rt { s with is_busy := true } (rt.loadbuffer chunk n) 0
    simp only [] at hcall
    cases hp : rt.pcall s.env (rt.loadbuffer chunk n) [] with
    | mk env1 r =>
      rw [hp] at hcall
      cases r with
      | returned results =>
        have hR : RunChunk rt s chunk n =
            ({ (queryJobs rt (Interp.mk env1 true s.is_term s.jobs
                  (s.stack ++ adjustResults 0 results)) "_nbranch") with is_busy := false },
              0) := by
          rw [hrun, hcall]
          rfl
        refine ⟨?_, ?_, ?_, ?_, ?_⟩
        · rw [hR]
        · rw [hR]
          rfl
        · rw [hR]
          exact ⟨fun _ => ⟨results, rfl⟩, fun _ => rfl⟩
        · intro e1 rs e2 hookres h1 h2
          injection h1 with he hr
          subst he
          rw [hR, queryJobs_returned rt _ "_nbranch" e2 hookres h2]
        · intro e1 c errobj msg h1
          injection h1 with _ hr
          cases hr
      | failed c errobj =>
        have hc := PcallError.code_ne_zero c
        have hR : RunChunk rt s chunk n =
            (match lua_tostring errobj with
            | some error =>
              ({ (if s.is_term then
                    term_strout (Interp.mk
                      (ScriptEnv.mk env1.status env1.globals env1.sync env1.termout
                        (env1.errlog ++ [lua_tostring errobj])
                        (env1.errorbox ++ [lua_tostring errobj]))
                      true s.is_term s.jobs (s.stack ++ [tostringInPlace errobj])) error true
                  else Interp.mk
                      (ScriptEnv.mk env1.status env1.globals env1.sync env1.termout
                        (env1.errlog ++ [lua_tostring errobj])
                        (env1.errorbox ++ [lua_tostring errobj]))
                      true s.is_term s.jobs (s.stack ++ [tostringInPlace errobj])) with
                  is_busy := false },
                c.code)
            | none =>
              ({ (queryJobs rt (Interp.mk
                      (ScriptEnv.mk env1.status env1.globals env1.sync env1.termout
                        (env1.errlog ++ [lua_tostring errobj])
                        (env1.errorbox ++ [lua_tostring errobj]))
                      true s.is_term s.jobs (s.stack ++ [tostringInPlace errobj]))
                  "_nbranch") with is_busy := false }, c.code)) := by
          rw [hrun, hcall]
          simp only [ne_eq, hc, not_false_eq_true, if_true, lua_value_top, lua_tostring_inPlace]
        refine ⟨?_, ?_, ?_, ?_, ?_⟩
        · rw [hR]
          cases lua_tostring errobj <;> rfl
        · rw [hR]
          cases lua_tostring errobj <;> rfl
        · rw [hR]
          constructor
          · intro h0
            exfalso
            apply hc
            cases hm : lua_tostring errobj <;> rw [hm] at h0 <;> exact h0
          · rintro ⟨rs, hrs⟩
            cases hrs
        · intro e1 rs e2 hookres h1
          injection h1 with _ hr
          cases hr
        · intro e1 c2 eo msg h1 h2
          injection h1 with _ hr
          injection hr with _ heo
          subst heo
          rw [hR, h2]
          by_cases ht : s.is_term = true <;> simp [ht, term_strout]
  · intro he
    have hrun : RunChunk rt s chunk n = (queryJobs rt s "_idle", -1) := by
      simp [RunChunk, he]
    rw [hrun]
    refine ⟨rfl, queryJobs_busy rt s "_idle", ?_⟩
    intro env1 hookres h
    rw [queryJobs_returned rt s "_idle" env1 hookres h]

/-- C20 at concrete inputs: a chunk that returns, a chunk that raises a
message, and the empty chunk, run in an interpreter that counts 7 jobs. -/
theorem RunChunk_status_and_busy_witness :
    ((RunChunk demoRuntime demoInterp "x = 1" 5).1.is_busy = false ∧
        (RunChunk demoRuntime demoInterp "x = 1" 5).2 = 0 ∧
        (RunChunk demoRuntime demoInterp "x = 1" 5).1.jobs = 3) ∧
      ((RunChunk demoRuntime demoInterp "boom" 4).1.is_busy = false ∧
        (RunChunk demoRuntime demoInterp "boom" 4).2 = 2 ∧
        (RunChunk demoRuntime demoInterp "boom" 4).1.jobs = 7) ∧
      ((RunChunk demoRuntime demoInterp "" 0).2 = -1 ∧
        (RunChunk demoRuntime demoInterp "" 0).1.jobs = 5) :=
  ⟨⟨((RunChunk_status_and_busy demoRuntime demoInterp "x = 1" 5).1 rfl).1, rfl,
      ((RunChunk_status_and_busy demoRuntime demoInterp "x = 1" 5).1 rfl).2.2.2.1 _ _ _ _
        rfl rfl⟩,
    ⟨((RunChunk_status_and_busy demoRuntime demoInterp "boom" 4).1 rfl).1, rfl,
      ((RunChunk_status_and_busy demoRuntime demoInterp "boom" 4).1 rfl).2.2.2.2 _ _ _ _
        rfl rfl⟩,
    ⟨((RunChunk_status_and_busy demoRuntime demoInterp "" 0).2 rfl).1,
      ((RunChunk_status_and_busy demoRuntime demoInterp "" 0).2 rfl).2.2 _ _ rfl⟩⟩

/-! ### Matrix and colour decoding, handle check -/

theorem closeExpected_three (base t : String) (ht : t.length = 3) :
    closeExpected (base ++ t) = base ++ ") " := by
  apply String.ext
  simp only [closeExpected, String.data_append]
  have ht2 : t.data.length = 3 := ht
  have hlen : (base.data ++ t.data).length - 3 = base.data.length := by
    simp only [List.length_append]
    omega
  rw [hlen, List.take_left']
  simp

theorem prmMessage_matrix (v : LuaValue) (prmno : Int) (funcname : String) :
    prmMessage v prmno PRMTP_MATRIX funcname none =
      funcname ++ ": argument " ++ toString prmno ++ ": invalid type (expec) " ++
        lua_typename v ++ " given" := by
  have hb : funcname ++ ": argument " ++ toString prmno ++ ": invalid type (expected" =
      (funcname ++ ": argument " ++ toString prmno ++ ": invalid type (expec") ++ "ted" := by
    apply String.ext
    simp [String.data_append]
  simp only [prmMessage, PRMTP_MATRIX, strcatIf, Bool.false_eq_true, if_false]
  rw [hb, closeExpected_three _ "ted" (by decide)]
  apply String.ext
  simp [String.data_append]

theorem lua_tomatrix_safe_prm_raises (st : State) (L : List LuaValue) (idx prmno : Int)
    (funcname : String) :
    lua_tomatrix_safe_prm st L idx prmno funcname =
      .err (funcname ++ ": argument " ++ toString prmno ++ ": invalid type (expec) " ++
        lua_typename (lua_value L idx) ++ " given") := by
  simp only [lua_tomatrix_safe_prm, AssertPrmType, prmAccepted_matrix, prmMessage_matrix]
  rfl

/-- C25: checked matrix decoding raises on every value. `AssertPrmType` has
no test for the matrix flag, so `lua_tomatrix_safe` and `luamtd_tomatrix_safe`
raise "funcname: argument idx-1: invalid type (expec) T given" whatever the
value at `idx` is; in particular on the table `lua_pushmatrix` builds for the
matrix with the entries 1 to 9, which `lua_ismatrix` accepts and the
unchecked `lua_tomatrix` reads back. -/
theorem matrix_decoding_always_raises (st : State) (L : List LuaValue) (idx : Int)
    (funcname : String) :
    lua_tomatrix_safe st L idx funcname =
      .err (funcname ++ ": argument " ++ toString (idx - 1) ++ ": invalid type (expec) " ++
        lua_typename (lua_value L idx) ++ " given") ∧
    luamtd_tomatrix_safe st L idx funcname =
      .err (funcname ++ ": argument " ++ toString (idx - 1) ++ ": invalid type (expec) " ++
        lua_typename (lua_value L idx) ++ " given") ∧
    lua_ismatrix (lua_pushmatrix sampleMatrix) = true ∧
    lua_tomatrix emptyState (lua_pushmatrix sampleMatrix) = .val sampleMatrix ∧
    lua_tomatrix_safe emptyState [lua_pushmatrix sampleMatrix] 1 "f" =
      .err "f: argument 0: invalid type (expec) table given" ∧
    luamtd_tomatrix_safe emptyState [.nil, lua_pushmatrix sampleMatrix] 2 "f" =
      .err "f: argument 1: invalid type (expec) table given" :=
  ⟨lua_tomatrix_safe_prm_raises st L idx (idx - 1) funcname,
    lua_tomatrix_safe_prm_raises st L idx (idx - 1) funcname, rfl, rfl, rfl, rfl⟩

/-- C26, as stated, fails: the table `{r=1, g=2}` has no fields `b` and `a`,
and the table `{r=true, g=1, b=2, a=3}` has a field `r` that is not numeric;
`lua_torgba` raises on neither and returns the colours `(1, 2, 0, 0)` and
`(0, 1, 2, 3)`. -/
theorem torgba_accepts_malformed :
    specColour (.table [(.str "r", .number 1), (.str "g", .number 2)]) = false ∧
      lua_torgba emptyState (.table [(.str "r", .number 1), (.str "g", .number 2)]) =
        .val { r := 1, g := 2, b := 0, a := 0 } ∧
      specColour (.table [(.str "r", .boolean true), (.str "g", .number 1),
        (.str "b", .number 2), (.str "a", .number 3)]) = false ∧
      lua_torgba emptyState (.table [(.str "r", .boolean true), (.str "g", .number 1),
        (.str "b", .number 2), (.str "a", .number 3)]) =
        .val { r := 0, g := 1, b := 2, a := 3 } :=
  ⟨rfl, rfl, rfl, rfl⟩

/-- C26, amended: `lua_torgba` raises on no table. For every table it returns
the colour whose component `c` (of `r`, `g`, `b`, `a`) is the numeric value of
the field `c` when that field is a number or a numeric string, and 0 when the
field is missing or of another type; the table `lua_pushrgba` builds decodes to
the colour it was built from. -/
theorem torgba_lenient (st : State) (fields : List (LuaKey × LuaValue)) (col : COLOUR4) :
    lua_torgba st (.table fields) =
      .val { r := if lua_isnumber (rawget fields (.str "r")) then
                    lua_tointeger (rawget fields (.str "r")) else 0
             g := if lua_isnumber (rawget fields (.str "g")) then
                    lua_tointeger (rawget fields (.str "g")) else 0
             b := if lua_isnumber (rawget fields (.str "b")) then
                    lua_tointeger (rawget fields (.str "b")) else 0
             a := if lua_isnumber (rawget fields (.str "a")) then
                    lua_tointeger (rawget fields (.str "a")) else 0 } ∧
    lua_torgba st (lua_pushrgba col) = .val col := by
  refine ⟨rfl, ?_⟩
  cases col
  simp [lua_torgba, lua_pushrgba, lua_getfield, Res.bind, rawget, rgbaComponent, lua_isnumber,
    lua_tointeger, tonumber]

/-- C30: `AssertMtdHandle` tests the value at stack index 2, not the one at
`idx`. For every stack and `idx` it returns 1 exactly when the value at index
2 is a light userdata and raises "funcname: argument idx-1: invalid type
(expected handle)" otherwise. With the stack `[self, handle, 5]` and `idx = 3`
it returns 1 although the value at index 3 is a number; with `[self, 5,
handle]` and `idx = 3` it raises although the value at index 3 is a handle.
`AssertMtdNumber` tests the value at `idx`. -/
theorem AssertMtdHandle_tests_index_two (L : List LuaValue) (idx : Int) (funcname : String) :
    (AssertMtdHandle L idx funcname = .val 1 ↔ lua_islightuserdata (lua_value L 2) = true) ∧
    (lua_islightuserdata (lua_value L 2) = false →
      AssertMtdHandle L idx funcname =
        .err (funcname ++ ": argument " ++ toString (idx - 1) ++
          ": invalid type (expected handle)")) ∧
    (AssertMtdNumber L idx funcname = .val 1 ↔ lua_isnumber (lua_value L idx) = true) ∧
    (lua_islightuserdata (lua_value [.nil, .lightuserdata 7, .number 5] 3) = false ∧
      AssertMtdHandle [.nil, .lightuserdata 7, .number 5] 3 "f" = .val 1) ∧
    (lua_islightuserdata (lua_value [.nil, .number 5, .lightuserdata 7] 3) = true ∧
      AssertMtdHandle [.nil, .number 5, .lightuserdata 7] 3 "f" =
        .err "f: argument 2: invalid type (expected handle)") := by
  refine ⟨?_, ?_, ?_, ⟨rfl, rfl⟩, ⟨rfl, rfl⟩⟩
  · unfold AssertMtdHandle
    cases lua_islightuserdata (lua_value L 2) <;> simp
  · intro h
    simp [AssertMtdHandle, h]
  · unfold AssertMtdNumber
    cases lua_isnumber (lua_value L idx) <;> simp

/-! ### The stack across `RunChunk`, views, deferred callback -/

theorem RunChunk_nonempty (rt : Runtime) (s : Interp) (chunk : String) (n : Nat)
    (hne : chunkNonEmpty chunk = true) :
    RunChunk rt s chunk n =
      (match LuaCall rt { s with is_busy := true, stack := s.stack ++ [rt.loadbuffer chunk n] }
          0 0 with
      | (s3, res) =>
        match (if res ≠ 0 then lua_tostring (lua_value s3.stack (-1)) else none) with
        | some error =>
          ({ (if s3.is_term then term_strout s3 error true else s3) with is_busy := false },
            res)
        | none => ({ queryJobs rt s3 "_nbranch" with is_busy := false }, res)) := by
  simp only [RunChunk, hne, if_true]

theorem RunChunk_empty (rt : Runtime) (s : Interp) (chunk : String) (n : Nat)
    (he : chunkNonEmpty chunk = false) :
    RunChunk rt s chunk n = (queryJobs rt s "_idle", -1) := by
  simp [RunChunk, he]

theorem RunChunk_returned (rt : Runtime) (s : Interp) (chunk : String) (n : Nat)
    (env1 : ScriptEnv) (results : List LuaValue) (hne : chunkNonEmpty chunk = true)
    (hp : rt.pcall s.env (rt.loadbuffer chunk n) [] = (env1, .returned results)) :
    RunChunk rt s chunk n =
      ({ (queryJobs rt { s with env := env1, is_busy := true } "_nbranch") with
          is_busy := false }, 0) := by
  have hcall := LuaCall_top rt { s with is_busy := true } (rt.loadbuffer chunk n) 0
  simp only [] at hcall
  rw [hp] at hcall
  rw [RunChunk_nonempty rt s chunk n hne, hcall]
  simp [adjustResults]

theorem RunChunk_failed (rt : Runtime) (s : Interp) (chunk : String) (n : Nat)
    (env1 : ScriptEnv) (c : PcallError) (errobj : LuaValue)
    (hne : chunkNonEmpty chunk = true)
    (hp : rt.pcall s.env (rt.loadbuffer chunk n) [] = (env1, .failed c errobj)) :
    RunChunk rt s chunk n =
      (match lua_tostring errobj with
      | some error =>
        ({ (if s.is_term then term_strout (afterFailure s env1 errobj) error true
            else afterFailure s env1 errobj) with is_busy := false }, c.code)
      | none =>
        ({ (queryJobs rt (afterFailure s env1 errobj) "_nbranch") with is_busy := false },
          c.code)) := by
  have hc := PcallError.code_ne_zero c
  have hcall := LuaCall_top rt { s with is_busy := true } (rt.loadbuffer chunk n) 0
  simp only [] at hcall
  rw [hp] at hcall
  rw [RunChunk_nonempty rt s chunk n hne, hcall]
  simp only [ne_eq, hc, not_false_eq_true, if_true, lua_value_top, lua_tostring_inPlace]
  rfl

theorem queryJobs_stack (rt : Runtime) (s : Interp) (hook : String) :
    (queryJobs rt s hook).stack = s.stack := by
  simp only [queryJobs]
  rw [LuaCall_top]
  cases h : rt.pcall s.env (lua_getglobal s.env hook) [] with
  | mk env r => cases r <;> simp [adjustResults_one]

theorem RunChunk_stack (rt : Runtime) (s : Interp) (chunk : String) (n : Nat) :
    (RunChunk rt s chunk n).1.stack =
      if chunkNonEmpty chunk then
        match (rt.pcall s.env (rt.loadbuffer chunk n) []).2 with
        | .returned _ => s.stack
        | .failed _ errobj => s.stack ++ [tostringInPlace errobj]
      else s.stack := by
  cases hne : chunkNonEmpty chunk
  · rw [RunChunk_empty rt s chunk n hne]
    simp [queryJobs_stack]
  · cases hp : rt.pcall s.env (rt.loadbuffer chunk n) [] with
    | mk env1 r =>
      cases r with
      | returned results =>
        rw [RunChunk_returned rt s chunk n env1 results hne hp]
        simp [queryJobs_stack]
      | failed c errobj =>
        rw [RunChunk_failed rt s chunk n env1 c errobj hne hp]
        cases hm : lua_tostring errobj with
        | none => simp [queryJobs_stack, afterFailure]
        | some msg =>
          by_cases ht : s.is_term = true <;> simp [ht, term_strout, afterFailure]

/-- C29: `RunChunk` leaves the error object of a failed chunk on the stack.
For the empty chunk and for a chunk whose protected call returns, the stack
when `RunChunk` returns is the stack at entry. For a chunk whose protected call
fails (at run time, or because `luaL_loadbuffer` pushed the message of a
compile error, which is then called) the stack is the stack at entry with the
error object on top: one value higher. Two `ProcessChunk` calls on the failing
chunk "boom" leave two values on a stack that was empty. -/
theorem RunChunk_leaves_error_on_stack (rt : Runtime) (s : Interp) (chunk : String) (n : Nat) :
    (chunkNonEmpty chunk = false → (RunChunk rt s chunk n).1.stack = s.stack) ∧
    (∀ env1 results, chunkNonEmpty chunk = true →
      rt.pcall s.env (rt.loadbuffer chunk n) [] = (env1, .returned results) →
      (RunChunk rt s chunk n).1.stack = s.stack) ∧
    (∀ env1 c errobj, chunkNonEmpty chunk = true →
      rt.pcall s.env (rt.loadbuffer chunk n) [] = (env1, .failed c errobj) →
      (RunChunk rt s chunk n).1.stack = s.stack ++ [tostringInPlace errobj] ∧
      (RunChunk rt s chunk n).1.stack.length = s.stack.length + 1) ∧
    ((RunChunk demoRuntime demoInterp "boom" 4).1.stack = [.string "boom"] ∧
      (ProcessChunk demoRuntime 1000 (ProcessChunk demoRuntime 1000 demoInterp "boom" 4).1
        "boom" 4).1.stack = [.string "boom", .string "boom"]) := by
  refine ⟨?_, ?_, ?_, ⟨rfl, rfl⟩⟩
  · intro he
    rw [RunChunk_stack, he]
    rfl
  · intro env1 results hne hp
    rw [RunChunk_stack, hne, hp]
    rfl
  · intro env1 c errobj hne hp
    have h : (RunChunk rt s chunk n).1.stack = s.stack ++ [tostringInPlace errobj] := by
      rw [RunChunk_stack, hne, hp]
      rfl
    refine ⟨h, ?_⟩
    rw [h]
    simp

/-- C28: a view may start before its source and may have a negative size.
`ntv_view` does not test `start - 1 ≥ 0`, and it tests `size < 0` before it
replaces `size = 0`. On the full 4-record array: with `start` omitted the view
returned has the base `a.vtx - 1` and size 5, and `view(a, 0, 2)` has the base
`a.vtx - 1` and size 2; on the full 2-record array `view(a, 5)` has size -2.
What holds of every view returned is `(start - 1) + size ≤ a.capacity`; the
three bounds hold when `start ≥ 1` and either `len > 0` or `start - 1` is at
most the used-count. -/
theorem view_outside_source (st : State) (a : Nat) (rest : List LuaValue) (frm : ntv_data)
    (start len : Int) (st1 : State) (ret : List LuaValue) :
    (st.ntv[a]? = some frm →
      start = lua_tointeger (lua_index (.ntv a :: rest) 2) →
      len = lua_tointeger (lua_index (.ntv a :: rest) 3) →
      ntv_view st (.ntv a :: rest) = .ok st1 ret →
      ∃ size : Int, size = (if len = 0 then frm.nVtxUsed - (start - 1) else len) ∧
        st1.ntv[st.ntv.length]? =
          some { vtx := ptrAdd frm.vtx (start - 1), nVtx := size, nVtxUsed := size,
                 owning := false } ∧
        (start - 1) + size ≤ frm.nVtx ∧
        (1 ≤ start → (0 < len ∨ start - 1 ≤ frm.nVtxUsed) →
          0 ≤ start - 1 ∧ 0 ≤ size ∧ (start - 1) + size ≤ frm.nVtx)) ∧
    ntv_view twoArrays [.ntv 0] =
      .ok { twoArrays with ntv := twoArrays.ntv ++
              [{ vtx := some { block := 0, off := -1 }, nVtx := 5, nVtxUsed := 5,
                 owning := false }] } [.ntv 2] ∧
    ntv_view twoArrays [.ntv 0, .number 0, .number 2] =
      .ok { twoArrays with ntv := twoArrays.ntv ++
              [{ vtx := some { block := 0, off := -1 }, nVtx := 2, nVtxUsed := 2,
                 owning := false }] } [.ntv 2] ∧
    ntv_view twoArrays [.ntv 1, .number 5] =
      .ok { twoArrays with ntv := twoArrays.ntv ++
              [{ vtx := some { block := 1, off := 4 }, nVtx := -2, nVtxUsed := -2,
                 owning := false }] } [.ntv 2] := by
  refine ⟨?_, rfl, rfl, rfl⟩
  intro ha hstart hlen hview
  obtain ⟨size, hsize, hl, hub, hst, _⟩ :=
    ntv_view_ok_gen st a rest frm start len st1 ret ha hstart hlen hview
  refine ⟨size, hsize, ?_, hub, ?_⟩
  · rw [hst]
    simp
  · intro h1 h2
    refine ⟨by omega, ?_, hub⟩
    by_cases h0 : len = 0
    · rw [hsize, if_pos h0]
      rcases h2 with h2 | h2
      · omega
      · omega
    · rw [hsize, if_neg h0]
      omega

/-- C23: `PostStep` is a single-slot drain. With a callback pending it runs
that callback once, on the stored context, and clears `postfunc` and
`postcontext`; with none pending it changes nothing and runs nothing. A second
`PostStep` right after the first runs nothing, so the two calls run the
callback at most once; and `PostStep` leaves every other member (status,
`is_busy`, `jobs`) as it was. -/
theorem PostStep_single_slot (s : InterpPost) (simt simdt mjd simt2 simdt2 mjd2 : Int) :
    (∀ f, s.postfunc = some f →
      PostStep s simt simdt mjd =
        { s with invoked := s.invoked ++ [(f, s.postcontext, s.statics)]
                 postfunc := none
                 postcontext := none }) ∧
    (s.postfunc = none → PostStep s simt simdt mjd = s) ∧
    (PostStep s simt simdt mjd).postfunc = none ∧
    PostStep (PostStep s simt simdt mjd) simt2 simdt2 mjd2 = PostStep s simt simdt mjd ∧
    (PostStep (PostStep s simt simdt mjd) simt2 simdt2 mjd2).invoked.length ≤
      s.invoked.length + 1 ∧
    (PostStep s simt simdt mjd).interp = s.interp ∧
    (PostStep s simt simdt mjd).statics = s.statics := by
  have hclear : (PostStep s simt simdt mjd).postfunc = none := by
    unfold PostStep
    cases h : s.postfunc <;> simp [h]
  have htwice : PostStep (PostStep s simt simdt mjd) simt2 simdt2 mjd2 =
      PostStep s simt simdt mjd := by
    generalize PostStep s simt simdt mjd = s1 at hclear
    unfold PostStep
    rw [hclear]
  refine ⟨?_, ?_, hclear, htwice, ?_, ?_, ?_⟩
  · intro f hf
    simp [PostStep, hf]
  · intro hn
    simp [PostStep, hn]
  · rw [htwice]
    unfold PostStep
    cases h : s.postfunc <;> simp
  · unfold PostStep
    cases h : s.postfunc <;> rfl
  · unfold PostStep
    cases h : s.postfunc <;> rfl

/-- C23 at a concrete input: `oapi.open_help("Orbiter.chm")` stores the
callback, the next `PostStep` runs it once on `&hc`, and a second `PostStep`
runs nothing. -/
theorem PostStep_single_slot_witness :
    ∃ s1, oapiOpenHelp demoPost [.string "Orbiter.chm"] = some s1 ∧
      s1.postfunc = some .OpenHelp ∧
      PostStep s1 0 1 2 =
        { s1 with invoked := [(.OpenHelp, some .hc, { fname := "Orbiter.chm", topic := none })]
                  postfunc := none
                  postcontext := none } ∧
      PostStep (PostStep s1 0 1 2) 1 1 3 = PostStep s1 0 1 2 :=
  ⟨_, rfl, rfl,
    (PostStep_single_slot _ 0 1 2 1 1 3).1 .OpenHelp rfl,
    (PostStep_single_slot _ 0 1 2 1 1 3).2.2.2.1⟩

/-! ### Append -/

theorem splice_get {α : Type} (cd vs : List α) (p k : Nat) (hp : p + vs.length ≤ cd.length)
    (hk : k < p ∨ p + vs.length ≤ k) :
    (cd.take p ++ vs ++ cd.drop (p + vs.length))[k]? = cd[k]? := by
  have hlen : (cd.take p).length = p := by
    rw [List.length_take]
    omega
  rcases hk with hk | hk
  · rw [List.append_assoc, List.getElem?_append_left (by rw [hlen]; exact hk),
      List.getElem?_take_of_lt hk]
  · have h1 : (cd.take p ++ vs).length = p + vs.length := by
      rw [List.length_append, hlen]
    rw [List.getElem?_append_right (by rw [h1]; exact hk), h1, List.getElem?_drop]
    congr 1
    omega

theorem splice_length {α : Type} (cd vs : List α) (p : Nat) (hp : p + vs.length ≤ cd.length) :
    (cd.take p ++ vs ++ cd.drop (p + vs.length)).length = cd.length := by
  simp only [List.length_append, List.length_take, List.length_drop]
  omega

theorem splice_window {α : Type} (cd vs : List α) (p o n : Nat)
    (hp : p + vs.length ≤ cd.length) (hd : o + n ≤ p ∨ p + vs.length ≤ o) :
    ((cd.take p ++ vs ++ cd.drop (p + vs.length)).drop o).take n = (cd.drop o).take n := by
  apply List.ext_getElem?
  intro i
  by_cases hi : i < n
  · rw [List.getElem?_take_of_lt hi, List.getElem?_take_of_lt hi, List.getElem?_drop,
      List.getElem?_drop]
    apply splice_get cd vs p (o + i) hp
    omega
  · rw [List.getElem?_eq_none, List.getElem?_eq_none]
    · rw [List.length_take]
      omega
    · rw [List.length_take]
      omega

/-- A write of records inside a live block: the block afterwards. -/
theorem writeMem_valid {α : Type} (m : Mem α) (b p : Nat) (vs cd : List α)
    (hc : cells m b = some cd) (hfit : p + vs.length ≤ cd.length) :
    ∃ m1, writeMem m (some { block := b, off := (p : Int) }) vs = some m1 ∧
      cells m1 b = some (cd.take p ++ vs ++ cd.drop (p + vs.length)) ∧
      (∀ b2, b2 ≠ b → m1[b2]? = m[b2]?) := by
  cases vs with
  | nil =>
    refine ⟨m, rfl, ?_, fun _ _ => rfl⟩
    simp [hc]
  | cons v vs =>
    have h1 : (0 : Int) ≤ (p : Int) ∧
        (p : Int) + ((v :: vs).length : Nat) ≤ (cd.length : Int) := by
      constructor
      · omega
      · exact_mod_cast hfit
    refine ⟨m.set b (some (cd.take p ++ (v :: vs) ++ cd.drop (p + (v :: vs).length))), ?_, ?_, ?_⟩
    · unfold writeMem
      simp only [hc, h1, and_self, if_true, Int.toNat_ofNat]
    · exact cells_set_same m b _ (cells_lt hc)
    · intro b2 hb2
      rw [List.getElem?_set_ne (Ne.symm hb2)]

/-- Reading a window that a write inside a live block does not touch. -/
theorem readMem_untouched {α : Type} (m m1 : Mem α) (b p : Nat) (vs cd : List α)
    (hc : cells m b = some cd) (hfit : p + vs.length ≤ cd.length)
    (hc1 : cells m1 b = some (cd.take p ++ vs ++ cd.drop (p + vs.length)))
    (hfr : ∀ b2, b2 ≠ b → m1[b2]? = m[b2]?) (b2 o n : Nat)
    (hd : b2 ≠ b ∨ o + n ≤ p ∨ p + vs.length ≤ o) :
    readMem m1 (some { block := b2, off := (o : Int) }) (n : Int) =
      readMem m (some { block := b2, off := (o : Int) }) (n : Int) := by
  by_cases hb : b2 = b
  · subst hb
    have hd2 : o + n ≤ p ∨ p + vs.length ≤ o := by
      rcases hd with h | h
      · exact absurd rfl h
      · exact h
    unfold readMem
    simp only [hc, hc1, splice_length cd vs p hfit, Int.toNat_ofNat,
      splice_window cd vs p o n hfit hd2]
  · exact readMem_congr m1 m _ _ (fun q hq => by
      cases hq
      exact hfr b2 hb)

/-- The `memcpy` of `ntv_append` for storage that is live and ranges that do not
overlap. -/
theorem append_memcpy {α : Type} (m : Mem α) (bd od bs os ud un : Nat) (cd cs : List α)
    (hcd : cells m bd = some cd) (hcs : cells m bs = some cs)
    (hfd : od + ud + un ≤ cd.length) (hfs : os + un ≤ cs.length)
    (hdisj : bd ≠ bs ∨ od + ud + un ≤ os ∨ os + un ≤ od + ud) :
    ∃ m1, memcpy m (ptrAdd (some { block := bd, off := (od : Int) }) (ud : Int))
        (some { block := bs, off := (os : Int) }) (un : Int) = some m1 ∧
      cells m1 bd = some (cd.take (od + ud) ++ (cs.drop os).take un ++
        cd.drop (od + ud + ((cs.drop os).take un).length)) ∧
      ((cs.drop os).take un).length = un ∧
      (∀ b2, b2 ≠ bd → m1[b2]? = m[b2]?) := by
  have hlen : ((cs.drop os).take un).length = un := by
    rw [List.length_take, List.length_drop]
    omega
  have hov : overlap (ptrAdd (some { block := bd, off := (od : Int) }) (ud : Int))
      (some { block := bs, off := (os : Int) }) (un : Int) = false := by
    simp only [overlap, ptrAdd, Option.map, decide_eq_false_iff_not]
    intro h
    omega
  obtain ⟨m1, hw, hc1, hfr⟩ := writeMem_valid m bd (od + ud) ((cs.drop os).take un) cd hcd
    (by rw [hlen]; exact hfd)
  refine ⟨m1, ?_, hc1, hlen, hfr⟩
  unfold memcpy
  rw [hov]
  simp only [Bool.false_eq_true, if_false]
  rw [readMem_valid m bs os un cs hcs hfs]
  simp only [ptrAdd, Option.map]
  have hcast : ((od : Int) + (ud : Int)) = ((od + ud : Nat) : Int) := by push_cast; rfl
  rw [hcast]
  exact hw

/-- C24, as stated, fails for `src = dst`: on the array of capacity 2 that
holds 1 record, `ntv_append(a, a)` returns (1 + 1 ≤ 2) and leaves `a`, which
is also the source, with 2 used records instead of 1. -/
theorem self_append_changes_source :
    halfFull.ntv[0]? =
        some { vtx := some { block := 0, off := 0 }, nVtx := 2, nVtxUsed := 1, owning := true } ∧
      ntv_append halfFull [.ntv 0, .ntv 0] =
        .ok { halfFull with
              vmem := [some [sampleVertex, sampleVertex]]
              ntv := [{ vtx := some { block := 0, off := 0 }, nVtx := 2, nVtxUsed := 2,
                        owning := true }] } [] :=
  ⟨rfl, rfl⟩

/-- C24, amended: postcondition of a successful append onto a different
array. Let `dst` and `src` be different vertex arrays with live storage (`dst`
holds `dst.nVtx` records from offset `od` of block `bd`, `src` its `un` used
records from offset `os` of block `bs`), with `ud + un ≤ dst.nVtx` and the
range written not overlapping the range read. Then `ntv_append(dst, src)`
returns; `dst` has `ud + un` used records and its pointer, capacity and owning
flag as before; records `ud .. ud + un - 1` of `dst` are the used records of
`src` in order; records `0 .. ud - 1` of `dst` are unchanged; the userdata of
`src`, its used records and every other userdata are unchanged. -/
theorem append_postcondition (st : State) (d s : Nat) (dst src : ntv_data)
    (bd od bs os ud un : Nat) (cd cs : List NTVERTEX)
    (hd : st.ntv[d]? = some dst) (hs : st.ntv[s]? = some src) (hne : d ≠ s)
    (hdv : dst.vtx = some { block := bd, off := (od : Int) })
    (hsv : src.vtx = some { block := bs, off := (os : Int) })
    (hdu : dst.nVtxUsed = (ud : Int)) (hsu : src.nVtxUsed = (un : Int))
    (hroom : dst.nVtxUsed + src.nVtxUsed ≤ dst.nVtx)
    (hcd : cells st.vmem bd = some cd) (hcs : cells st.vmem bs = some cs)
    (hfd : (od : Int) + dst.nVtx ≤ cd.length) (hfs : os + un ≤ cs.length)
    (hdisj : bd ≠ bs ∨ od + ud + un ≤ os ∨ os + un ≤ od + ud) :
    ∃ st1, ntv_append st [.ntv d, .ntv s] = .ok st1 [] ∧
      st1.ntv[d]? = some { dst with nVtxUsed := dst.nVtxUsed + src.nVtxUsed } ∧
      st1.ntv[s]? = some src ∧
      (∀ i, i ≠ d → st1.ntv[i]? = st.ntv[i]?) ∧
      readMem st1.vmem (ptrAdd dst.vtx dst.nVtxUsed) src.nVtxUsed =
        some ((cs.drop os).take un) ∧
      readMem st.vmem src.vtx src.nVtxUsed = some ((cs.drop os).take un) ∧
      readMem st1.vmem src.vtx src.nVtxUsed = some ((cs.drop os).take un) ∧
      readMem st1.vmem dst.vtx dst.nVtxUsed = readMem st.vmem dst.vtx dst.nVtxUsed := by
  have h1 := check_ntv_cons st d [.ntv s] dst hd
  have h2 := check_ntv_cons2 st (.ntv d) s [] src hs
  have hlt : d < st.ntv.length := (List.getElem?_eq_some.mp hd).1
  have hfd2 : od + ud + un ≤ cd.length := by omega
  obtain ⟨m1, hm, hc1, hlen, hfr⟩ :=
    append_memcpy st.vmem bd od bs os ud un cd cs hcd hcs hfd2 hfs hdisj
  have hc : ¬ dst.nVtxUsed + src.nVtxUsed > dst.nVtx := by omega
  have hfit : od + ud + ((cs.drop os).take un).length ≤ cd.length := by
    rw [hlen]
    exact hfd2
  have hrun : ntv_append st [.ntv d, .ntv s] =
      .ok (put_ntv { st with vmem := m1 } d
        { dst with nVtxUsed := dst.nVtxUsed + src.nVtxUsed }) [] := by
    unfold ntv_append
    rw [h1, h2]
    simp only [hc, if_false]
    rw [hdv, hsv, hdu, hsu, hm]
  have hsrc0 : readMem st.vmem src.vtx src.nVtxUsed = some ((cs.drop os).take un) := by
    rw [hsv, hsu]
    exact readMem_valid st.vmem bs os un cs hcs hfs
  refine ⟨_, hrun, ?_, ?_, ?_, ?_, hsrc0, ?_, ?_⟩
  · simp only [put_ntv]
    rw [List.getElem?_set_self hlt]
  · simp only [put_ntv]
    rw [List.getElem?_set_ne hne]
    exact hs
  · intro i hi
    simp only [put_ntv]
    rw [List.getElem?_set_ne (Ne.symm hi)]
  · show readMem m1 (ptrAdd dst.vtx dst.nVtxUsed) src.nVtxUsed = _
    rw [hdv, hsu, hdu]
    have hcast : ptrAdd (some { block := bd, off := (od : Int) }) (ud : Int) =
        some { block := bd, off := ((od + ud : Nat) : Int) } := by
      simp [ptrAdd]
    rw [hcast, readMem_valid m1 bd (od + ud) un _ hc1 (by
      rw [splice_length cd _ (od + ud) hfit]
      exact hfd2)]
    congr 1
    rw [List.append_assoc, List.drop_append_of_le_length (by
        rw [List.length_take]
        omega),
      List.drop_eq_nil_of_le (by
        rw [List.length_take]
        omega), List.nil_append, List.take_append_of_le_length (by rw [hlen]),
      List.take_of_length_le (by rw [hlen])]
  · show readMem m1 src.vtx src.nVtxUsed = _
    rw [← hsrc0, hsv, hsu]
    apply readMem_untouched st.vmem m1 bd (od + ud) ((cs.drop os).take un) cd hcd hfit hc1 hfr
    rw [hlen]
    rcases hdisj with h | h | h
    · exact Or.inl (Ne.symm h)
    · exact Or.inr (Or.inr h)
    · exact Or.inr (Or.inl h)
  · show readMem m1 dst.vtx dst.nVtxUsed = _
    rw [hdv, hdu]
    apply readMem_untouched st.vmem m1 bd (od + ud) ((cs.drop os).take un) cd hcd hfit hc1 hfr
    exact Or.inr (Or.inl (le_refl _))

/-- C24, amended, at a concrete input: the 2-record array of `twoArrays`
appended to its 4-record array after a reset of the latter. -/
theorem append_postcondition_witness :
    ∃ st1, ntv_append (put_ntv twoArrays 0
          { vtx := some { block := 0, off := 0 }, nVtx := 4, nVtxUsed := 0, owning := true })
        [.ntv 0, .ntv 1] = .ok st1 [] ∧
      st1.ntv[0]? =
        some { vtx := some { block := 0, off := 0 }, nVtx := 4, nVtxUsed := 0 + 2,
               owning := true } ∧
      st1.ntv[1]? =
        some { vtx := some { block := 1, off := 0 }, nVtx := 2, nVtxUsed := 2,
               owning := true } :=
  have h := append_postcondition (put_ntv twoArrays 0
      { vtx := some { block := 0, off := 0 }, nVtx := 4, nVtxUsed := 0, owning := true })
    0 1 _ _ 0 0 1 0 0 2 (List.replicate 4 NTVERTEX.zero) (List.replicate 2 NTVERTEX.zero)
    rfl rfl (by decide) rfl rfl rfl rfl (by decide) rfl rfl (by decide) (by decide)
    (Or.inl (by decide))
  ⟨h.choose, h.choose_spec.1, h.choose_spec.2.1, h.choose_spec.2.2.1⟩

theorem splice_one_get {α : Type} (cur : List α) (p : Nat) (r : α) (hp : p < cur.length)
    (pos : Nat) :
    (cur.take p ++ [r] ++ cur.drop (p + [r].length))[pos]? =
      if pos = p then some r else cur[pos]? := by
  by_cases h : pos = p
  · subst h
    have hlen : (cur.take pos).length = pos := by
      rw [List.length_take]
      omega
    rw [if_pos rfl, List.append_assoc, List.getElem?_append_right (by rw [hlen]), hlen]
    simp
  · rw [if_neg h]
    apply splice_get cur [r] p pos (by simpa using hp)
    simp only [List.length_singleton]
    omega

/-- The loop of `idx_append` on live storage, when no entry still to be read is
written: it runs to its end, entry `od + ud + j` of the block of `dst` becomes
`toWORD (src[j] + offset)` for the iterations `j` made, and nothing else
changes. -/
theorem idx_append_loop_spec (bd od bs os ud n : Nat) (offset : Int) (cs0 : List WORD)
    (len : Nat) (hdisj : bd ≠ bs ∨ od + ud + n ≤ os ∨ os + n ≤ od + ud)
    (hfs : os + n ≤ cs0.length) (hfd : od + ud + n ≤ len) :
    ∀ (k i : Nat) (m : Mem WORD) (cur : List WORD), i + k = n →
      cells m bd = some cur → cur.length = len →
      (∀ j, i ≤ j → j < n →
        readMem m (some { block := bs, off := ((os + j : Nat) : Int) }) ((1 : Nat) : Int) =
          some ((cs0.drop (os + j)).take 1)) →
      ∃ m1 cur1, idx_append_loop (some { block := bd, off := (od : Int) })
          (some { block := bs, off := (os : Int) }) (ud : Int) offset i k m = some m1 ∧
        cells m1 bd = some cur1 ∧ cur1.length = len ∧
        (∀ pos, cur1[pos]? =
          if od + ud + i ≤ pos ∧ pos < od + ud + n then
            (cs0[os + (pos - (od + ud))]?).map
              (fun (w : WORD) => toWORD ((w : Int) + offset))
          else cur[pos]?) ∧
        (∀ b2, b2 ≠ bd → m1[b2]? = m[b2]?) := by
  intro k
  induction k with
  | zero =>
    intro i m cur hik hc hlen _
    refine ⟨m, cur, rfl, hc, hlen, ?_, fun _ _ => rfl⟩
    intro pos
    have : ¬ (od + ud + i ≤ pos ∧ pos < od + ud + n) := by omega
    rw [if_neg this]
  | succ k ih =>
    intro i m cur hik hc hlen hsrc
    have hi : i < n := by omega
    have hget : ∃ w, cs0[os + i]? = some w := by
      have hlt : os + i < cs0.length := by omega
      exact ⟨cs0[os + i], List.getElem?_eq_getElem hlt⟩
    obtain ⟨w, hw⟩ := hget
    have hwl : (cs0.drop (os + i)).take 1 = [w] := by
      have hlt : os + i < cs0.length := by omega
      rw [List.drop_eq_getElem_cons hlt]
      have : cs0[os + i] = w := by
        have := List.getElem?_eq_getElem hlt
        rw [hw] at this
        exact (Option.some.inj this).symm
      simp [this]
    have hread := hsrc i (le_refl _) hi
    rw [hwl] at hread
    have hp : od + ud + i < cur.length := by omega
    obtain ⟨m1, hwr, hc1, hfr⟩ := writeMem_valid m bd (od + ud + i)
      [toWORD ((w : Int) + offset)] cur hc (by simpa using hp)
    have hlen1 : (cur.take (od + ud + i) ++ [toWORD ((w : Int) + offset)] ++
        cur.drop (od + ud + i + [toWORD ((w : Int) + offset)].length)).length = len := by
      rw [splice_length cur _ _ (by simpa using hp)]
      exact hlen
    have hsrc1 : ∀ j, i + 1 ≤ j → j < n →
        readMem m1 (some { block := bs, off := ((os + j : Nat) : Int) }) ((1 : Nat) : Int) =
          some ((cs0.drop (os + j)).take 1) := by
      intro j hj1 hj2
      rw [← hsrc j (by omega) hj2]
      apply readMem_untouched m m1 bd (od + ud + i) [toWORD ((w : Int) + offset)] cur hc
        (by simpa using hp) hc1 hfr
      simp only [List.length_singleton]
      rcases hdisj with h | h | h
      · exact Or.inl (Ne.symm h)
      · exact Or.inr (Or.inr (by omega))
      · exact Or.inr (Or.inl (by omega))
    obtain ⟨m2, cur2, hloop, hc2, hlen2, hpos, hfr2⟩ :=
      ih (i + 1) m1 _ (by omega) hc1 hlen1 hsrc1
    refine ⟨m2, cur2, ?_, hc2, hlen2, ?_, ?_⟩
    · unfold idx_append_loop
      have e1 : ptrAdd (some { block := bs, off := (os : Int) }) (i : Int) =
          some { block := bs, off := ((os + i : Nat) : Int) } := by
        simp [ptrAdd]
      have e2 : ptrAdd (some { block := bd, off := (od : Int) }) ((ud : Int) + (i : Int)) =
          some { block := bd, off := ((od + ud + i : Nat) : Int) } := by
        simp only [ptrAdd, Option.map, Option.some.injEq, Ptr.mk.injEq, true_and]
        push_cast
        omega
      rw [e1, e2]
      have hread1 : readMem m (some { block := bs, off := ((os + i : Nat) : Int) }) 1 =
          some [w] := hread
      rw [hread1]
      simp only []
      rw [hwr]
      exact hloop
    · intro pos
      rw [hpos pos, splice_one_get cur (od + ud + i) _ hp pos]
      by_cases h1 : pos = od + ud + i
      · subst h1
        have hc1 : ¬ (od + ud + (i + 1) ≤ od + ud + i ∧ od + ud + i < od + ud + n) := by omega
        have hc2 : od + ud + i ≤ od + ud + i ∧ od + ud + i < od + ud + n := by omega
        rw [if_neg hc1, if_pos rfl, if_pos hc2]
        have : os + (od + ud + i - (od + ud)) = os + i := by omega
        rw [this, hw]
        rfl
      · rw [if_neg h1]
        by_cases h2 : od + ud + (i + 1) ≤ pos ∧ pos < od + ud + n
        · have h3 : od + ud + i ≤ pos ∧ pos < od + ud + n := by omega
          rw [if_pos h2, if_pos h3]
        · have h3 : ¬ (od + ud + i ≤ pos ∧ pos < od + ud + n) := by omega
          rw [if_neg h2, if_neg h3]
    · intro b2 hb2
      rw [hfr2 b2 hb2, hfr b2 hb2]

/-- C27, as stated, fails when the entries written are among those read. Two
`push_indexarray` calls on the index buffer of one mesh group give the
wrappers `d1` and `d2` of the same storage; after a reset of both, the append
of `1, 2` to `d2` and of `7` to `d1`, the storage holds `7, 2, 0, 0` with
`d1.used = 1` and `d2.used = 2`. Then `idx_append(d1, d2, 10)` returns with
the storage `7, 17, 27, 0`: entry 2 of `d1` is 27, not `src[1] + 10 = 12`,
because the second iteration reads the entry the first one wrote. -/
theorem overlapping_index_append :
    ((idx_reset (push_indexarray (push_indexarray meshBuffer (some { block := 0, off := 0 })
          4).1 (some { block := 0, off := 0 }) 4).1 [.index 2]).state?.bind fun st1 =>
      (idx_reset st1 [.index 3]).state?.bind fun st2 =>
      (idx_append st2 [.index 3, .index 0]).state?.bind fun st3 =>
      (idx_append st3 [.index 2, .index 1]).state?) = some sharedIndex ∧
    cells sharedIndex.imem 0 = some [7, 2, 0, 0] ∧
    idx_append sharedIndex [.index 2, .index 3, .number 10] =
      .ok { sharedIndex with
            imem := [some [7, 17, 27, 0], some [1, 2], some [7]]
            idx := meshBuffer.idx ++
              [{ idx := some { block := 0, off := 0 }, nIdx := 4, nIdxUsed := 3,
                 owning := false },
               { idx := some { block := 0, off := 0 }, nIdx := 4, nIdxUsed := 2,
                 owning := false }] } [] ∧
    toWORD (((2 : WORD) : Int) + 10) = 12 ∧ (27 : WORD) ≠ 12 :=
  ⟨rfl, rfl, rfl, rfl, by decide⟩

/-- C27, amended: index append with offset when the entries written are not
among those read. For index arrays `dst` and `src` (which may be the same
array) the call raises exactly when `dst.nIdxUsed + src.nIdxUsed > dst.nIdx`,
and then the state is as before. Otherwise, on live storage (`dst` holds
`dst.nIdx` entries from offset `od` of block `bd`, `src` its `un` used entries
from offset `os` of block `bs`) in which the entries written, `ud .. ud + un -
1` of `dst`, are not among the `un` entries read from `src`, it returns: entry
`ud + i` of `dst` is `(src[i] + offset) mod 2^16` for every `i < un`, every
other entry of the storage is unchanged, and the used-count of `dst` is `ud +
un`; its pointer, capacity and owning flag and every other userdata are as
before. The offset is the integer value of the third argument, 0 when it is
omitted. -/
theorem idx_append_offset (st : State) (d s : Nat) (rest : List LuaValue)
    (dst src : index_data) (hd : st.idx[d]? = some dst) (hs : st.idx[s]? = some src) :
    ((idx_append st (.index d :: .index s :: rest)).raises ↔
        dst.nIdxUsed + src.nIdxUsed > dst.nIdx) ∧
    (∀ msg st1, idx_append st (.index d :: .index s :: rest) = .error msg st1 → st1 = st) ∧
    (∀ (bd od bs os ud un : Nat) (cd cs : List WORD),
      dst.idx = some { block := bd, off := (od : Int) } →
      src.idx = some { block := bs, off := (os : Int) } →
      dst.nIdxUsed = (ud : Int) → src.nIdxUsed = (un : Int) →
      dst.nIdxUsed + src.nIdxUsed ≤ dst.nIdx →
      cells st.imem bd = some cd → cells st.imem bs = some cs →
      (od : Int) + dst.nIdx ≤ cd.length → os + un ≤ cs.length →
      (bd ≠ bs ∨ od + ud + un ≤ os ∨ os + un ≤ od + ud) →
      ∃ st1 cur1, idx_append st (.index d :: .index s :: rest) = .ok st1 [] ∧
        st1.idx[d]? = some { dst with nIdxUsed := dst.nIdxUsed + src.nIdxUsed } ∧
        (∀ i, i ≠ d → st1.idx[i]? = st.idx[i]?) ∧
        cells st1.imem bd = some cur1 ∧
        (∀ i, i < un → cur1[od + ud + i]? =
          (cs[os + i]?).map (fun (w : WORD) =>
            toWORD ((w : Int) + lua_tointeger (lua_index (.index d :: .index s :: rest) 3)))) ∧
        (∀ pos, ¬ (od + ud ≤ pos ∧ pos < od + ud + un) → cur1[pos]? = cd[pos]?) ∧
        (∀ b2, b2 ≠ bd → st1.imem[b2]? = st.imem[b2]?)) ∧
    lua_tointeger (lua_index [.index d, .index s] 3) = 0 ∧
    (∀ x : Int, toWORD x = (x % 2 ^ 16).toNat) := by
  have h1 := check_index_cons st d (.index s :: rest) dst hd
  have h2 : check_index st (.index d :: .index s :: rest) 2 = some (s, src) := by
    simp [check_index, lua_index, hs]
  have hlt : d < st.idx.length := (List.getElem?_eq_some.mp hd).1
  refine ⟨?_, ?_, ?_, rfl, fun x => rfl⟩
  · unfold idx_append
    rw [h1, h2]
    simp only
    by_cases hc : dst.nIdxUsed + src.nIdxUsed > dst.nIdx
    · simp [hc, Outcome.raises]
    · simp only [hc, if_false]
      cases idx_append_loop dst.idx src.idx dst.nIdxUsed
        (lua_tointeger (lua_index (.index d :: .index s :: rest) 3)) 0 src.nIdxUsed.toNat
        st.imem <;> simp [Outcome.raises]
  · intro msg st1
    unfold idx_append
    rw [h1, h2]
    simp only
    by_cases hc : dst.nIdxUsed + src.nIdxUsed > dst.nIdx
    · simp only [hc, if_true]
      intro h
      injection h with _ h
      exact h.symm
    · simp only [hc, if_false]
      cases idx_append_loop dst.idx src.idx dst.nIdxUsed
        (lua_tointeger (lua_index (.index d :: .index s :: rest) 3)) 0 src.nIdxUsed.toNat
        st.imem <;> simp
  · intro bd od bs os ud un cd cs hdv hsv hdu hsu hroom hcd hcs hfd hfs hdisj
    have hfd2 : od + ud + un ≤ cd.length := by omega
    obtain ⟨m1, cur1, hloop, hc1, _, hpos, hfr⟩ :=
      idx_append_loop_spec bd od bs os ud un
        (lua_tointeger (lua_index (.index d :: .index s :: rest) 3)) cs cd.length hdisj hfs hfd2
        un 0 st.imem cd (by omega) hcd rfl (by
          intro j _ hj
          exact readMem_valid st.imem bs (os + j) 1 cs hcs (by omega))
    have hc : ¬ dst.nIdxUsed + src.nIdxUsed > dst.nIdx := by omega
    refine ⟨put_index { st with imem := m1 } d
      { dst with nIdxUsed := dst.nIdxUsed + src.nIdxUsed }, cur1, ?_, ?_, ?_, hc1, ?_, ?_, hfr⟩
    · unfold idx_append
      rw [h1, h2]
      simp only [hc, if_false]
      rw [hdv, hsv, hdu, hsu, Int.toNat_ofNat, hloop]
    · simp only [put_index]
      rw [List.getElem?_set_self hlt]
    · intro i hi
      simp only [put_index]
      rw [List.getElem?_set_ne (Ne.symm hi)]
    · intro i hi
      rw [hpos (od + ud + i)]
      have hin : od + ud + 0 ≤ od + ud + i ∧ od + ud + i < od + ud + un := by omega
      rw [if_pos hin]
      have : os + (od + ud + i - (od + ud)) = os + i := by omega
      rw [this]
    · intro pos hp
      rw [hpos pos]
      have hout : ¬ (od + ud + 0 ≤ pos ∧ pos < od + ud + un) := by omega
      rw [if_neg hout]

/-- C27, amended, at a concrete input: the entries 1 and 2 appended with
offset 3 to the array that holds 65535 in a storage of 4 entries. -/
theorem idx_append_offset_witness :
    (¬ (idx_append indexDemo [.index 0, .index 1, .number 3]).raises) ∧
      (∃ st1 cur1, idx_append indexDemo [.index 0, .index 1, .number 3] = .ok st1 [] ∧
        cells st1.imem 0 = some cur1 ∧
        (∀ i, i < 2 → cur1[0 + 1 + i]? =
          (([1, 2] : List WORD)[0 + i]?).map (fun (w : WORD) =>
            toWORD ((w : Int) +
              lua_tointeger (lua_index [.index 0, .index 1, .number 3] 3))))) ∧
      idx_append indexDemo [.index 0, .index 1, .number 3] =
        .ok { indexDemo with
              imem := [some [65535, 4, 5, 0], some [1, 2]]
              idx := [{ idx := some { block := 0, off := 0 }, nIdx := 4, nIdxUsed := 3,
                        owning := true },
                      { idx := some { block := 1, off := 0 }, nIdx := 2, nIdxUsed := 2,
                        owning := true }] } [] ∧
      idx_append indexDemo [.index 1, .index 0, .number 65535] =
        .error "Cannot append ntvertexarray, not enough room" indexDemo :=
  have h := (idx_append_offset indexDemo 0 1 [.number 3] _ _ rfl rfl).2.2.1 0 0 1 0 1 2
    [65535, 0, 0, 0] [1, 2] rfl rfl rfl rfl (by decide) rfl rfl (by decide) (by decide)
    (Or.inl (by decide))
  ⟨fun hr => absurd ((idx_append_offset indexDemo 0 1 [.number 3] _ _ rfl rfl).1.mp hr)
      (by decide),
    ⟨h.choose, h.choose_spec.choose, h.choose_spec.choose_spec.1,
      h.choose_spec.choose_spec.2.2.2.1, h.choose_spec.choose_spec.2.2.2.2.1⟩, rfl, rfl⟩

/-! ### Synchronisation -/

theorem queryJobs_sync (rt : Runtime)
    (hq : ∀ env f args, (rt.pcall env f args).1.sync = env.sync) (s : Interp) (hook : String) :
    (queryJobs rt s hook).env.sync = s.env.sync := by
  simp only [queryJobs]
  rw [LuaCall_top]
  have := hq s.env (lua_getglobal s.env hook) []
  cases h : rt.pcall s.env (lua_getglobal s.env hook) [] with
  | mk env r =>
    rw [h] at this
    cases r <;> simpa using this

theorem RunChunk_sync (rt : Runtime)
    (hq : ∀ env f args, (rt.pcall env f args).1.sync = env.sync) (s : Interp) (chunk : String)
    (n : Nat) : (RunChunk rt s chunk n).1.env.sync = s.env.sync := by
  cases hne : chunkNonEmpty chunk
  · rw [RunChunk_empty rt s chunk n hne]
    exact queryJobs_sync rt hq s "_idle"
  · have hpc := hq s.env (rt.loadbuffer chunk n) []
    cases hp : rt.pcall s.env (rt.loadbuffer chunk n) [] with
    | mk env1 r =>
      rw [hp] at hpc
      cases r with
      | returned results =>
        rw [RunChunk_returned rt s chunk n env1 results hne hp]
        simp only []
        rw [queryJobs_sync rt hq]
        exact hpc
      | failed c errobj =>
        rw [RunChunk_failed rt s chunk n env1 c errobj hne hp]
        cases hm : lua_tostring errobj with
        | none =>
          simp only []
          rw [queryJobs_sync rt hq]
          exact hpc
        | some msg =>
          by_cases ht : s.is_term = true
          · simp only [ht, if_true, term_strout, afterFailure]
            exact hpc
          · simp only [ht, if_false, afterFailure]
            exact hpc

theorem waitExec_ownership (ms ms1 : Mutexes) (t : ThreadId) (timeout : Nat)
    (hw : ms.hWaitMutex.owner ≠ some t)
    (h : runOps ms t [.wait .hWaitMutex timeout, .wait .hExecMutex timeout,
      .release .hWaitMutex] = some ms1) :
    ms1.hExecMutex.owner = some t ∧ ms1.hWaitMutex.owner = none ∧
      ms1.hExecMutex.count = (if ms.hExecMutex.owner = some t then ms.hExecMutex.count else 0) + 1 ∧
      (ms.hExecMutex.owner = none ∨ ms.hExecMutex.owner = some t) := by
  obtain ⟨⟨eo, ec⟩, ⟨wo, wc⟩⟩ := ms
  simp only at hw
  cases wo with
  | some o =>
    have hne : ¬ o = t := fun e => hw (by rw [e])
    simp [runOps, syncStep, Mutexes.get, Mutex.acquire, hne] at h
  | none =>
    cases eo with
    | none =>
      simp [runOps, syncStep, Mutexes.get, Mutexes.set, Mutex.acquire, Mutex.release] at h
      subst h
      simp
    | some o =>
      by_cases ho : o = t
      · subst ho
        simp [runOps, syncStep, Mutexes.get, Mutexes.set, Mutex.acquire, Mutex.release] at h
        subst h
        simp
      · simp [runOps, syncStep, Mutexes.get, Mutexes.set, Mutex.acquire, Mutex.release, ho] at h

theorem endExec_ownership (ms : Mutexes) (t : ThreadId) :
    runOps ms t [.release .hExecMutex] =
      some { ms with hExecMutex := ms.hExecMutex.release t } := by
  simp [runOps, syncStep, Mutexes.get, Mutexes.set]

theorem release_count (m : Mutex) (t : ThreadId) (h : m.owner = some t) :
    (m.release t).count = m.count - 1 := by
  unfold Mutex.release
  rw [if_pos h]
  by_cases hc : m.count ≤ 1
  · rw [if_pos hc]
    simp only
    omega
  · rw [if_neg hc]

theorem demoRuntime_sync (env : ScriptEnv) (f : LuaValue) (args : List LuaValue) :
    (demoRuntime.pcall env f args).1.sync = env.sync := by
  cases f
  case cfunction name =>
    simp only [demoRuntime]
    split_ifs <;> rfl
  all_goals rfl

/-- C21: order of the synchronisation calls of a chunk that does not yield.
`WaitExec` makes exactly the calls wait(handoff), wait(execution),
release(handoff), in this order; `ProcessChunk` is `WaitExec`, then `RunChunk`,
then `EndExec`, and returns the status of `RunChunk`; its last call is the one
release(execution) of `EndExec`, whether the chunk returned or failed. When
the script runtime makes no synchronisation call during the chunk (the chunk
does not reach the yield point), the calls of `ProcessChunk` are exactly these
four. For a caller `t` that does not hold the handoff mutex: if both waits of
`WaitExec` acquire, then after `WaitExec` (hence throughout such a `RunChunk`)
`t` owns the execution mutex and nobody owns the handoff mutex, and `EndExec`
then releases the execution mutex once (its count goes down by one). -/
theorem ProcessChunk_order (rt : Runtime) (dflt : Nat) (s : Interp) (chunk : String) (n : Nat) :
    (WaitExec s dflt).env.sync = s.env.sync ++
      [.wait .hWaitMutex dflt, .wait .hExecMutex dflt, .release .hWaitMutex] ∧
    ProcessChunk rt dflt s chunk n =
      (EndExec (RunChunk rt (WaitExec s dflt) chunk n).1,
        (RunChunk rt (WaitExec s dflt) chunk n).2) ∧
    (ProcessChunk rt dflt s chunk n).1.env.sync =
      (RunChunk rt (WaitExec s dflt) chunk n).1.env.sync ++ [.release .hExecMutex] ∧
    ((∀ env f args, (rt.pcall env f args).1.sync = env.sync) →
      (RunChunk rt (WaitExec s dflt) chunk n).1.env.sync = (WaitExec s dflt).env.sync ∧
      (ProcessChunk rt dflt s chunk n).1.env.sync = s.env.sync ++
        [.wait .hWaitMutex dflt, .wait .hExecMutex dflt, .release .hWaitMutex,
          .release .hExecMutex]) ∧
    (∀ (ms ms1 : Mutexes) (t : ThreadId), ms.hWaitMutex.owner ≠ some t →
      runOps ms t [.wait .hWaitMutex dflt, .wait .hExecMutex dflt, .release .hWaitMutex] =
        some ms1 →
      ms1.hExecMutex.owner = some t ∧ ms1.hWaitMutex.owner = none ∧
      ∃ ms2, runOps ms1 t [.release .hExecMutex] = some ms2 ∧
        ms2.hWaitMutex = ms1.hWaitMutex ∧
        ms2.hExecMutex.count = ms1.hExecMutex.count - 1 ∧
        (ms.hExecMutex.owner = none → ms2.hExecMutex.owner = none)) := by
  have hpc : ProcessChunk rt dflt s chunk n =
      (EndExec (RunChunk rt (WaitExec s dflt) chunk n).1,
        (RunChunk rt (WaitExec s dflt) chunk n).2) := rfl
  refine ⟨rfl, hpc, ?_, ?_, ?_⟩
  · rw [hpc]
    rfl
  · intro hq
    have hr := RunChunk_sync rt hq (WaitExec s dflt) chunk n
    refine ⟨hr, ?_⟩
    rw [hpc]
    show (RunChunk rt (WaitExec s dflt) chunk n).1.env.sync ++ [SyncOp.release .hExecMutex] = _
    rw [hr]
    simp [WaitExec]
  · intro ms ms1 t hw h
    obtain ⟨he, hwn, hcount, _⟩ := waitExec_ownership ms ms1 t dflt hw h
    refine ⟨he, hwn, _, endExec_ownership ms1 t, rfl, release_count _ t he, ?_⟩
    intro hfree
    rw [hfree] at hcount
    simp only [reduceCtorEq, if_false, Nat.zero_add] at hcount
    simp [Mutex.release, he, hcount]

/-- C21 at a concrete input: the host thread runs the chunk "x = 1" through
`ProcessChunk` on the mutexes its constructor call made. -/
theorem ProcessChunk_order_witness :
    (ProcessChunk demoRuntime 1000 demoInterp "x = 1" 5).1.env.sync =
        [.wait .hWaitMutex 1000, .wait .hExecMutex 1000, .release .hWaitMutex,
          .release .hExecMutex] ∧
      runOps (newMutexes .host) .host
          [.wait .hWaitMutex 1000, .wait .hExecMutex 1000, .release .hWaitMutex] =
        some { hExecMutex := { owner := some .host, count := 2 },
               hWaitMutex := { owner := none, count := 0 } } ∧
      ({ hExecMutex := { owner := some .host, count := 2 },
         hWaitMutex := { owner := none, count := 0 } } : Mutexes).hExecMutex.owner =
        some .host :=
  ⟨((ProcessChunk_order demoRuntime 1000 demoInterp "x = 1" 5).2.2.2.1 demoRuntime_sync).2, rfl,
    ((ProcessChunk_order demoRuntime 1000 demoInterp "x = 1" 5).2.2.2.2 (newMutexes .host) _
      .host (by decide) rfl).1⟩

theorem phase_moved (c : Config) (t t2 : ThreadId) (p : Phase) (ms : Mutexes) :
    ({ c.setPhase t p with mutexes := ms } : Config).phase t2 =
      if t2 = t then p else c.phase t2 := by
  cases t <;> cases t2 <;> rfl

theorem syncStep_other_handle {d : Nat} (ms ms1 : Mutexes) (t : ThreadId) (op : SyncOp) (b : Bool)
    (hop : op = .wait .hWaitMutex d ∨ op = .release .hWaitMutex)
    (h : syncStep ms t op b = some ms1) : ms1.hExecMutex = ms.hExecMutex := by
  rcases hop with rfl | rfl
  · simp only [syncStep, Mutexes.get] at h
    cases ha : ms.hWaitMutex.acquire t with
    | none =>
      rw [ha] at h
      simp only at h
      split at h
      · injection h with h
        rw [← h]
      · cases h
    | some m =>
      rw [ha] at h
      injection h with h
      rw [← h]
      rfl
  · simp only [syncStep, Mutexes.get, Option.some.injEq] at h
    rw [← h]
    rfl

theorem syncStep_wait_exec (ms ms1 : Mutexes) (t : ThreadId) (d : Nat) (b : Bool)
    (hb : b = false ∨ d = INFINITE)
    (h : syncStep ms t (.wait .hExecMutex d) b = some ms1) :
    ms1.hExecMutex.owner = some t ∧
      (ms.hExecMutex.owner = none ∨ ms.hExecMutex.owner = some t) := by
  have hno : (b && d != INFINITE) = false := by
    rcases hb with h1 | h1
    · rw [h1]
      rfl
    · rw [h1]
      simp
  simp only [syncStep, Mutexes.get, hno] at h
  cases ha : ms.hExecMutex.acquire t with
  | none =>
    rw [ha] at h
    simp at h
  | some m =>
    rw [ha] at h
    injection h with h
    rw [← h]
    unfold Mutex.acquire at ha
    cases ho : ms.hExecMutex.owner with
    | none =>
      rw [ho] at ha
      injection ha with ha
      rw [← ha]
      exact ⟨rfl, Or.inl rfl⟩
    | some o =>
      rw [ho] at ha
      simp only at ha
      by_cases hot : o = t
      · rw [if_pos hot] at ha
        injection ha with ha
        rw [← ha]
        exact ⟨by rw [hot]; rfl, Or.inr (by rw [hot])⟩
      · rw [if_neg hot] at ha
        cases ha

/-- A step that does not return by timeout keeps the execution mutex with the
thread that has passed its wait for it. -/
theorem step_execOwned (dflt : Nat) (c : Config) (t : ThreadId) (b : Bool)
    (hb : b = false ∨ dflt = INFINITE) (h : execOwned c) : execOwned (step dflt c t b) := by
  intro t2 ht2
  unfold step at ht2 ⊢
  cases hs : syncStep c.mutexes t ((c.phase t).op dflt) b with
  | none =>
    rw [hs] at ht2
    exact h t2 ht2
  | some ms =>
    rw [hs] at ht2
    simp only [phase_moved] at ht2
    show ms.hExecMutex.owner = some t2
    by_cases htt : t2 = t
    · subst htt
      rw [if_pos rfl] at ht2
      cases hph : c.phase t2 with
      | waitW =>
        rw [hph] at ht2
        simp [Phase.next] at ht2
      | waitE =>
        rw [hph] at hs
        exact (syncStep_wait_exec c.mutexes ms t2 dflt b hb hs).1
      | releaseW =>
        rw [hph] at hs
        rw [syncStep_other_handle (d := dflt) c.mutexes ms t2 _ b (Or.inr rfl) hs]
        exact h t2 (Or.inl hph)
      | inside =>
        rw [hph] at ht2
        simp [Phase.next] at ht2
    · rw [if_neg htt] at ht2
      have hown := h t2 ht2
      cases hph : c.phase t with
      | waitW =>
        rw [hph] at hs
        rw [syncStep_other_handle (d := dflt) c.mutexes ms t _ b (Or.inl rfl) hs]
        exact hown
      | waitE =>
        rw [hph] at hs
        rcases (syncStep_wait_exec c.mutexes ms t dflt b hb hs).2 with h1 | h1
        · rw [h1] at hown
          cases hown
        · rw [h1] at hown
          injection hown with hown
          exact absurd hown.symm htt
      | releaseW =>
        rw [hph] at hs
        rw [syncStep_other_handle (d := dflt) c.mutexes ms t _ b (Or.inr rfl) hs]
        exact hown
      | inside =>
        have h1 := h t (Or.inr hph)
        rw [h1] at hown
        injection hown with hown
        exact absurd hown.symm htt

theorem run_execOwned (dflt : Nat) (sched : List (ThreadId × Bool)) :
    ∀ c : Config, (dflt = INFINITE ∨ ∀ e ∈ sched, e.2 = false) → execOwned c →
      execOwned (run dflt c sched) := by
  induction sched with
  | nil =>
    intro c _ h
    exact h
  | cons e rest ih =>
    intro c hno h
    obtain ⟨t, b⟩ := e
    apply ih
    · rcases hno with h1 | h1
      · exact Or.inl h1
      · exact Or.inr (fun e he => h1 e (List.mem_cons_of_mem _ he))
    · apply step_execOwned dflt c t b _ h
      rcases hno with h1 | h1
      · exact Or.inr h1
      · exact Or.inl (h1 (t, b) (List.mem_cons_self _ _))

theorem execOwned_exclusive (c : Config) (h : execOwned c) : bothInside c = false := by
  cases hb : bothInside c
  · rfl
  · simp only [bothInside, Bool.and_eq_true, decide_eq_true_eq] at hb
    have h1 := h .host (Or.inr hb.1)
    have h2 := h .script (Or.inr hb.2)
    rw [h1] at h2
    cases h2

theorem initialConfig_execOwned : execOwned initialConfig := by
  intro t ht
  cases t with
  | host => rfl
  | script =>
    rcases ht with h | h <;> cases h

/-- C22, as stated, fails when a wait returns by timeout. With the default
timeout 1000: the host is between its `WaitExec` and `EndExec` and owns the
execution mutex; the script thread enters `WaitExec`, acquires the wait mutex,
its wait for the execution mutex returns by timeout (the result is ignored),
it releases the wait mutex and is past `WaitExec` too, without the execution
mutex, which the host still owns. -/
theorem timeout_breaks_alternation :
    bothInside (run 1000 initialConfig [(.script, false), (.script, true), (.script, false)]) =
        true ∧
      (run 1000 initialConfig
        [(.script, false), (.script, true), (.script, false)]).mutexes.hExecMutex.owner =
        some .host :=
  ⟨rfl, rfl⟩

/-- C22, amended: strict alternation when no wait returns by timeout. From
every configuration in which a thread past its wait for the execution mutex
owns that mutex (such as the one the constructor leaves), and in every
interleaving of the two threads in which no `WaitForSingleObject` returns by
timeout (none can when the timeout is `INFINITE`), the two threads are never
both between their `WaitExec` and `EndExec`. The round each thread goes
through is the one of the code: `WaitExec` then `EndExec` for `ProcessChunk`,
`EndExec` then `WaitExec` for the yield point. -/
theorem alternation_without_timeout (dflt : Nat) (c0 : Config) (sched : List (ThreadId × Bool))
    (s : Interp) (hinit : execOwned c0)
    (hno : dflt = INFINITE ∨ ∀ e ∈ sched, e.2 = false) :
    bothInside (run dflt c0 sched) = false ∧
    execOwned initialConfig ∧
    (EndExec (WaitExec s dflt)).env.sync = s.env.sync ++
      [Phase.waitW.op dflt, Phase.waitE.op dflt, Phase.releaseW.op dflt,
        Phase.inside.op dflt] ∧
    (s.env.status ≠ 1 →
      (frameskip dflt s).env.sync = s.env.sync ++
        [Phase.inside.op dflt, Phase.waitW.op dflt, Phase.waitE.op dflt,
          Phase.releaseW.op dflt]) := by
  refine ⟨execOwned_exclusive _ (run_execOwned dflt sched c0 hno hinit),
    initialConfig_execOwned, ?_, ?_⟩
  · simp [WaitExec, EndExec, Phase.op]
  · intro hst
    have hf : frameskip dflt s = WaitExec (EndExec s) dflt := if_neg hst
    rw [hf]
    simp [WaitExec, EndExec, Phase.op]

/-- C22, amended, at a concrete input: the script thread waits, the host ends
its turn, the script thread then gets the execution mutex and goes on. -/
theorem alternation_without_timeout_witness :
    bothInside (run 1000 initialConfig
        [(.script, false), (.script, false), (.host, false), (.script, false),
          (.script, false)]) = false ∧
      (run 1000 initialConfig
        [(.script, false), (.script, false), (.host, false), (.script, false),
          (.script, false)]).script = .inside :=
  ⟨(alternation_without_timeout 1000 initialConfig
      [(.script, false), (.script, false), (.host, false), (.script, false), (.script, false)]
      demoInterp initialConfig_execOwned (Or.inr (by decide))).1, rfl⟩

end Interpreter
